import Mathlib

/-!
# Alert engine of the portfolio backend

A shallow embedding of `backend/internal/services/alert.go`: the validation of
alert conditions, the evaluation of price, balance and transaction alerts, and
the store operations `CreateAlert`, `ToggleAlert` and `CheckAlerts`.

Conventions of the embedding.

* A Go `error` result is `Except String Unit`; a `(value, error)` result is
  `Except String value`.  The string is the text of the error, built the way
  `fmt.Errorf` builds it.
* A `map[string]interface{}` is an association list read with `List.lookup`
  (the entry of a key is the first pair carrying it).
* The external libraries (UUID parsing, the JSON codec, the failures of the
  store) are the fields of `Env`; the table of alerts is a list of records.
* A `float64` held by a conditions map is the rational number it denotes.  The
  maps handled by the service are decoded from JSON, which has neither NaN nor
  infinities, and the comparison operators of Go on finite floats are the exact
  comparisons of the numbers denoted.
-/

namespace AlertService

/-! ## Data model -/

/-- A dynamically typed value held by a `map[string]interface{}`. -/
inductive Value where
  | null : Value
  | bool (b : Bool) : Value
  | num (x : ℚ) : Value
  | str (s : String) : Value
  | arr (xs : List Value) : Value
  | obj (kvs : List (String × Value)) : Value

/-- The conditions of an alert, `map[string]interface{}`. -/
abbrev Conditions := List (String × Value)

/-- The comma-ok form `v, ok := conditions[key]`. -/
def get (conditions : Conditions) (key : String) : Option Value :=
  conditions.lookup key

/-- The presence test `_, ok := conditions[key]`. -/
def hasKey (conditions : Conditions) (key : String) : Bool :=
  (get conditions key).isSome

/-- The type assertion `conditions[key].(string)`. -/
def getString (conditions : Conditions) (key : String) : Option String :=
  match get conditions key with
  | some (Value.str s) => some s
  | _ => none

/-- The type assertion `conditions[key].(float64)`. -/
def getFloat (conditions : Conditions) (key : String) : Option ℚ :=
  match get conditions key with
  | some (Value.num x) => some x
  | _ => none

/-! ## Helper functions -/

/-- The loop `for _, t := range xs { if t == x { return true } }; return false`. -/
def containsString (xs : List String) (x : String) : Bool :=
  match xs with
  | [] => false
  | t :: rest => if t = x then true else containsString rest x

/-- Alert kinds accepted by `isValidAlertType`. -/
def validTypes : List String := ["price", "balance", "transaction"]

/-- Operators accepted by `isValidOperator`. -/
def validOperators : List String := [">", "<", ">=", "<=", "==", "!="]

def isValidAlertType (alertType : String) : Bool :=
  containsString validTypes alertType

def isValidOperator (operator : String) : Bool :=
  containsString validOperators operator

/-! ## Validation of conditions -/

/-- The loop over `required` shared by the three validators: the first field
that is not a key of the map ends the validation. -/
def checkRequired (required : List String) (conditions : Conditions) : Except String Unit :=
  match required with
  | [] => Except.ok ()
  | field :: rest =>
    if hasKey conditions field then checkRequired rest conditions
    else Except.error ("required field missing: " ++ field)

/-- The tail of the price and balance validators: the operator entry must be a
string and a valid operator. -/
def checkOperator (conditions : Conditions) : Except String Unit :=
  match getString conditions "operator" with
  | none => Except.error "operator must be a string"
  | some operator =>
    if isValidOperator operator then Except.ok ()
    else Except.error ("invalid operator: " ++ operator)

def validatePriceConditions (conditions : Conditions) : Except String Unit :=
  match checkRequired ["token", "operator", "value"] conditions with
  | Except.error e => Except.error e
  | Except.ok _ => checkOperator conditions

def validateBalanceConditions (conditions : Conditions) : Except String Unit :=
  match checkRequired ["address", "network", "operator", "value"] conditions with
  | Except.error e => Except.error e
  | Except.ok _ => checkOperator conditions

def validateTransactionConditions (conditions : Conditions) : Except String Unit :=
  checkRequired ["address", "network"] conditions

def validateConditions (conditions : Conditions) : Except String Unit :=
  match getString conditions "type" with
  | none => Except.error "alert type not specified"
  | some alertType =>
    if alertType = "price" then validatePriceConditions conditions
    else if alertType = "balance" then validateBalanceConditions conditions
    else if alertType = "transaction" then validateTransactionConditions conditions
    else Except.error ("unknown alert type: " ++ alertType)

/-! ## Alerts, notifications and the environment -/

/-- A 128-bit identifier, `uuid.UUID`. -/
abbrev UUID := Nat

/-- The record `models.Alert`; `Type_` is its field `Type`.  The columns
`CreatedAt` and `UpdatedAt` are written by the persistence library from the
wall clock and are not part of the model. -/
structure Alert where
  ID : UUID
  UserID : UUID
  Type_ : String
  Name : String
  Conditions : String
  IsActive : Bool
  deriving DecidableEq, Repr

/-- The record `AlertNotification` built by `triggerAlert`; `AlertID` stands
for `alert.ID.String()` and the wall-clock `Timestamp` is left out. -/
structure AlertNotification where
  AlertID : UUID
  Type_ : String
  Message : String
  Data : Conditions

/-- The statements the service sends to the store. -/
inductive DBOp where
  | find | first | create | save | delete
  deriving DecidableEq, Repr

/-- What the service takes from outside the repository: `uuid.Parse`, the
identifier the store gives a created row, `json.Marshal`, `json.Unmarshal`,
and the error, if any, with which the store answers a statement. -/
structure Env where
  parseUUID : String → Except String UUID
  newUUID : List Alert → UUID
  marshal : Conditions → Except String String
  unmarshal : String → Except String Conditions
  dbError : DBOp → Option String

/-- The table of alerts. -/
abbrev DB := List Alert

/-! ## Evaluation of alerts -/

/-- The `switch operator` of `checkPriceAlert` and `checkBalanceAlert`:
`shouldTrigger` starts false and an operator outside the six cases leaves it
so. -/
def shouldTrigger (operator : String) (current target : ℚ) : Bool :=
  if operator = ">" then decide (current > target)
  else if operator = "<" then decide (current < target)
  else if operator = ">=" then decide (current ≥ target)
  else if operator = "<=" then decide (current ≤ target)
  else if operator = "==" then decide (current = target)
  else if operator = "!=" then decide (current ≠ target)
  else false

/-- The notification of `triggerAlert`, which always returns a nil error. -/
def triggerAlert (alert : Alert) (data : Conditions) : AlertNotification :=
  { AlertID := alert.ID
    Type_ := alert.Type_
    Message := "Alert triggered: " ++ alert.Name
    Data := data }

/-- Mock current price of `checkPriceAlert`. -/
def currentPrice : ℚ := 1000

/-- Mock current balance of `checkBalanceAlert`, `0.5`. -/
def currentBalance : ℚ := 1 / 2

/-- Mock transaction detection of `checkTransactionAlert`. -/
def hasNewTransaction : Bool := false

/-- The result is the error, or `some n` when `triggerAlert` was called and
built `n`, or `none` when the alert did not trigger. -/
def checkPriceAlert (alert : Alert) (conditions : Conditions) :
    Except String (Option AlertNotification) :=
  match getString conditions "token" with
  | none => Except.error "token not specified in conditions"
  | some token =>
    match getString conditions "operator" with
    | none => Except.error "operator not specified in conditions"
    | some operator =>
      match getFloat conditions "value" with
      | none => Except.error "value not specified in conditions"
      | some targetValue =>
        if shouldTrigger operator currentPrice targetValue then
          Except.ok (some (triggerAlert alert
            [("token", Value.str token), ("current_price", Value.num currentPrice),
             ("target_price", Value.num targetValue), ("operator", Value.str operator)]))
        else Except.ok none

def checkBalanceAlert (alert : Alert) (conditions : Conditions) :
    Except String (Option AlertNotification) :=
  match getString conditions "address" with
  | none => Except.error "address not specified in conditions"
  | some address =>
    match getString conditions "network" with
    | none => Except.error "network not specified in conditions"
    | some network =>
      match getString conditions "operator" with
      | none => Except.error "operator not specified in conditions"
      | some operator =>
        match getFloat conditions "value" with
        | none => Except.error "value not specified in conditions"
        | some targetValue =>
          if shouldTrigger operator currentBalance targetValue then
            Except.ok (some (triggerAlert alert
              [("address", Value.str address), ("network", Value.str network),
               ("current_balance", Value.num currentBalance),
               ("target_balance", Value.num targetValue), ("operator", Value.str operator)]))
          else Except.ok none

def checkTransactionAlert (alert : Alert) (conditions : Conditions) :
    Except String (Option AlertNotification) :=
  match getString conditions "address" with
  | none => Except.error "address not specified in conditions"
  | some address =>
    match getString conditions "network" with
    | none => Except.error "network not specified in conditions"
    | some network =>
      if hasNewTransaction then
        Except.ok (some (triggerAlert alert
          [("address", Value.str address), ("network", Value.str network),
           ("message", Value.str "New transaction detected")]))
      else Except.ok none

def checkAlert (env : Env) (alert : Alert) : Except String (Option AlertNotification) :=
  match env.unmarshal alert.Conditions with
  | Except.error e => Except.error ("failed to parse conditions: " ++ e)
  | Except.ok conditions =>
    if alert.Type_ = "price" then checkPriceAlert alert conditions
    else if alert.Type_ = "balance" then checkBalanceAlert alert conditions
    else if alert.Type_ = "transaction" then checkTransactionAlert alert conditions
    else Except.error ("unknown alert type: " ++ alert.Type_)

/-- Whether an evaluation called `triggerAlert`. -/
def triggered (r : Except String (Option AlertNotification)) : Bool :=
  match r with
  | Except.ok (some _) => true
  | _ => false

/-! ## Store operations -/

/-- The statement `db.Save(alert)`: the row with the primary key of `alert`
is overwritten. -/
def save (db : DB) (alert : Alert) : DB :=
  db.map (fun row => if row.ID = alert.ID then alert else row)

def CreateAlert (env : Env) (db : DB) (userID alertType name : String)
    (conditions : Conditions) : Except String (Alert × DB) :=
  match env.parseUUID userID with
  | Except.error e => Except.error ("invalid user ID: " ++ e)
  | Except.ok userUUID =>
    if !isValidAlertType alertType then
      Except.error ("invalid alert type: " ++ alertType)
    else
      match validateConditions conditions with
      | Except.error e => Except.error ("invalid conditions: " ++ e)
      | Except.ok _ =>
        match env.marshal conditions with
        | Except.error e => Except.error ("failed to serialize conditions: " ++ e)
        | Except.ok conditionsJSON =>
          let alert : Alert :=
            { ID := env.newUUID db
              UserID := userUUID
              Type_ := alertType
              Name := name
              Conditions := conditionsJSON
              IsActive := true }
          match env.dbError DBOp.create with
          | some e => Except.error ("failed to create alert: " ++ e)
          | none => Except.ok (alert, db ++ [alert])

def GetAlert (env : Env) (db : DB) (userID alertID : String) : Except String Alert :=
  match env.parseUUID userID with
  | Except.error e => Except.error ("invalid user ID: " ++ e)
  | Except.ok userUUID =>
    match env.parseUUID alertID with
    | Except.error e => Except.error ("invalid alert ID: " ++ e)
    | Except.ok alertUUID =>
      match env.dbError DBOp.first with
      | some e => Except.error ("alert not found: " ++ e)
      | none =>
        match db.find? (fun row => decide (row.ID = alertUUID ∧ row.UserID = userUUID)) with
        | none => Except.error "alert not found: record not found"
        | some alert => Except.ok alert

def ToggleAlert (env : Env) (db : DB) (userID alertID : String) :
    Except String (Alert × DB) :=
  match GetAlert env db userID alertID with
  | Except.error e => Except.error e
  | Except.ok found =>
    let alert : Alert := { found with IsActive := !found.IsActive }
    match env.dbError DBOp.save with
    | some e => Except.error ("failed to toggle alert: " ++ e)
    | none => Except.ok (alert, save db alert)

/-- One iteration of the loop of `CheckAlerts`: the alert handed to
`checkAlert` and what `checkAlert` returned for it. -/
structure CheckStep where
  alert : Alert
  result : Except String (Option AlertNotification)

/-- The loop `for _, alert := range alerts`: an error of `checkAlert` is
printed and the loop goes on. -/
def checkEach (env : Env) (alerts : List Alert) : List CheckStep :=
  match alerts with
  | [] => []
  | alert :: rest => { alert := alert, result := checkAlert env alert } :: checkEach env rest

/-- The result is the error of the query, or the trace of the loop: `CheckAlerts`
itself returns nil once the query has succeeded. -/
def CheckAlerts (env : Env) (db : DB) : Except String (List CheckStep) :=
  match env.dbError DBOp.find with
  | some e => Except.error ("failed to get active alerts: " ++ e)
  | none => Except.ok (checkEach env (db.filter (fun row => row.IsActive == true)))

/-- The alerts on which a run of `CheckAlerts` invoked `checkAlert`. -/
def checkedAlerts (run : Except String (List CheckStep)) : List Alert :=
  match run with
  | Except.error _ => []
  | Except.ok steps => steps.map (fun s => s.alert)

/-! ## Reading of the specification -/

/-- Spec-side reading of `observed op target` with zero tolerance: the exact
comparison named by the operator, and nothing for a string that names none. -/
def specHolds (op : String) (observed target : ℚ) : Prop :=
  (op = ">" ∧ observed > target) ∨ (op = "<" ∧ observed < target) ∨
  (op = ">=" ∧ observed ≥ target) ∨ (op = "<=" ∧ observed ≤ target) ∨
  (op = "==" ∧ observed = target) ∨ (op = "!=" ∧ observed ≠ target)

/-! ## A concrete environment -/

/-- An environment for evaluating the service on concrete inputs: it knows the
identifiers `u1` and `a1`, numbers new rows after the size of the table, and
its JSON codec knows one document; the store answers every statement. -/
def sampleEnv : Env where
  parseUUID := fun s =>
    if s = "u1" then Except.ok 1
    else if s = "a1" then Except.ok 101
    else Except.error "invalid UUID length"
  newUUID := fun rows => 101 + rows.length
  marshal := fun c =>
    match c with
    | [("type", Value.str "transaction"), ("address", Value.str "0xabc"),
       ("network", Value.str "ethereum")] =>
      Except.ok "\x7b\"address\":\"0xabc\",\"network\":\"ethereum\",\"type\":\"transaction\"\x7d"
    | _ => Except.error "json: unsupported value"
  unmarshal := fun s =>
    if s = "\x7b\"address\":\"0xabc\",\"network\":\"ethereum\",\"type\":\"transaction\"\x7d" then
      Except.ok [("address", Value.str "0xabc"), ("network", Value.str "ethereum"),
        ("type", Value.str "transaction")]
    else Except.error "invalid character"
  dbError := fun _ => none

/-- The environment `sampleEnv` with a JSON codec that knows one more document,
a price alert whose target value is the string `"100"`. -/
def quotedEnv : Env :=
  { sampleEnv with
    marshal := fun c =>
      match c with
      | [("type", Value.str "price"), ("token", Value.str "ETH"),
         ("operator", Value.str "=="), ("value", Value.str "100")] =>
        Except.ok
          "\x7b\"operator\":\"==\",\"token\":\"ETH\",\"type\":\"price\",\"value\":\"100\"\x7d"
      | _ => sampleEnv.marshal c
    unmarshal := fun s =>
      if s =
          "\x7b\"operator\":\"==\",\"token\":\"ETH\",\"type\":\"price\",\"value\":\"100\"\x7d"
      then
        Except.ok [("operator", Value.str "=="), ("token", Value.str "ETH"),
          ("type", Value.str "price"), ("value", Value.str "100")]
      else sampleEnv.unmarshal s }

end AlertService

/-!
# Balance fetching and valuation

A shallow embedding of `backend/internal/services/web3.go`.

* A `*big.Int` that holds a balance is a natural number; a byte is a natural
  number read modulo 256.
* A `*big.Float` is a precision in bits, a mantissa and a binary exponent; its
  operations round to nearest, ties to even, as `math/big` does.  All the
  numbers of the valuation path are non-negative.
* The nodes behind `ethclient.Client` and the functions `strings.ToLower` and
  `strings.ToUpper` are the fields of `Web3Env`.
-/

namespace Web3Service

/-! ## `big.Float` -/

/-- A non-negative `big.Float`: the number `mant * 2 ^ exp` held with `prec`
bits of mantissa. -/
structure BigFloat where
  prec : Nat
  mant : Nat
  exp : Int
  deriving DecidableEq, Repr

/-- The number a `BigFloat` denotes. -/
def BigFloat.val (x : BigFloat) : ℚ := (x.mant : ℚ) * (2 : ℚ) ^ x.exp

def bitLenAux : Nat → Nat → Nat
  | 0, _ => 0
  | fuel + 1, n => if n = 0 then 0 else bitLenAux fuel (n / 2) + 1

/-- The length of `n` in bits, `x.BitLen()`. -/
def bitLen (n : Nat) : Nat := bitLenAux n n

/-- The integer nearest to `num / den`, the even one of two nearest. -/
def roundHalfEven (num den : Nat) : Nat :=
  let q := num / den
  let r := num % den
  if 2 * r < den then q
  else if den < 2 * r then q + 1
  else if q % 2 = 0 then q else q + 1

/-- The integer nearest to `num / den / 2 ^ E`. -/
def roundAt (num den : Nat) (E : Int) : Nat :=
  match E with
  | Int.ofNat k => roundHalfEven num (den * 2 ^ k)
  | Int.negSucc k => roundHalfEven (num * 2 ^ (k + 1)) den

/-- Whether `2 ^ k ≤ num / den`. -/
def reaches (num den : Nat) (k : Int) : Bool :=
  match k with
  | Int.ofNat j => decide (den * 2 ^ j ≤ num)
  | Int.negSucc j => decide (den ≤ num * 2 ^ (j + 1))

/-- The binary exponent of `num / den`: the `L` with
`2 ^ L ≤ num / den < 2 ^ (L + 1)`. -/
def floorLog2 (num den : Nat) : Int :=
  let k0 : Int := (bitLen num : Int) - (bitLen den : Int)
  if reaches num den k0 then k0 else k0 - 1

/-- The rounding every `big.Float` operation ends with: `num / den * 2 ^ e`
rounded to `prec` bits of mantissa, to nearest, ties to even. -/
def round (prec num den : Nat) (e : Int) : BigFloat :=
  if num = 0 then { prec := prec, mant := 0, exp := 0 }
  else
    let E : Int := floorLog2 num den - ((prec : Int) - 1)
    { prec := prec, mant := roundAt num den E, exp := E + e }

/-- The call `z.SetInt(x)` on a `z` of precision `prec`: a precision 0 becomes
the larger of `x.BitLen()` and 64 and nothing is rounded. -/
def SetInt (prec : Nat) (x : Nat) : BigFloat :=
  if prec = 0 then { prec := max (bitLen x) 64, mant := x, exp := 0 }
  else round prec x 1 0

/-- The call `new(big.Float).Quo(x, y)`: the precision is the larger of the
two, the quotient is rounded to it. -/
def Quo (x y : BigFloat) : BigFloat :=
  round (max x.prec y.prec) x.mant y.mant (x.exp - y.exp)

/-- The call `new(big.Float).Mul(x, y)`. -/
def Mul (x y : BigFloat) : BigFloat :=
  round (max x.prec y.prec) (x.mant * y.mant) 1 (x.exp + y.exp)

/-- The number written by a list of decimal digits. -/
def digitsToNat (cs : List Char) : Nat :=
  cs.foldl (fun acc c => acc * 10 + (c.toNat - 48)) 0

/-- The decimal numbers `digits` and `digits.digits`, the second with at most
55 digits after the point: `(n, k)` stands for `n / 10 ^ k`.  The prices of
the service are written so. -/
def parseDecimal (cs : List Char) : Option (Nat × Nat) :=
  let ip := cs.takeWhile Char.isDigit
  match cs.dropWhile Char.isDigit with
  | [] => if ip.isEmpty then none else some (digitsToNat ip, 0)
  | c :: fp =>
    if c = '.' ∧ !ip.isEmpty ∧ !fp.isEmpty ∧ fp.all Char.isDigit ∧ fp.length ≤ 55 then
      some (digitsToNat (ip ++ fp), fp.length)
    else none

/-- The call `new(big.Float).SetString(s)` on the decimal numbers of
`parseDecimal`: the precision is 64 and the number is rounded to it.  `none`
stands for a string outside that grammar. -/
def SetString (s : String) : Option BigFloat :=
  match parseDecimal s.data with
  | none => none
  | some (n, k) => some (round 64 n (10 ^ k) 0)

/-- The string `s` padded with zeros on the left to `width` characters. -/
def padLeft (width : Nat) (s : String) : String :=
  String.mk (List.replicate (width - s.length) '0') ++ s

/-- The call `x.Text('f', digits)`: `x` rounded to `digits` digits after the
point, to nearest, ties to even. -/
def Text (x : BigFloat) (digits : Nat) : String :=
  let k : Nat :=
    match x.exp with
    | Int.ofNat j => x.mant * 2 ^ j * 10 ^ digits
    | Int.negSucc j => roundHalfEven (x.mant * 10 ^ digits) (2 ^ (j + 1))
  if digits = 0 then toString k
  else toString (k / 10 ^ digits) ++ "." ++ padLeft digits (toString (k % 10 ^ digits))

/-- The call `z.Add(x, y)` on a `z` of precision `prec`: a precision 0 becomes
the larger of the two, and the sum is rounded to the precision. -/
def Add (prec : Nat) (x y : BigFloat) : BigFloat :=
  let e : Int := min x.exp y.exp
  round (if prec = 0 then max x.prec y.prec else prec)
    (x.mant * 2 ^ (x.exp - e).toNat + y.mant * 2 ^ (y.exp - e).toNat) 1 e

def digitLenAux : Nat → Nat → Nat
  | 0, _ => 0
  | fuel + 1, n => if n = 0 then 0 else digitLenAux fuel (n / 10) + 1

/-- The number of decimal digits of `n`. -/
def digitLen (n : Nat) : Nat := digitLenAux n n

/-- Whether `10 ^ k ≤ num / den`. -/
def reaches10 (num den : Nat) (k : Int) : Bool :=
  match k with
  | Int.ofNat j => decide (den * 10 ^ j ≤ num)
  | Int.negSucc j => decide (den ≤ num * 10 ^ (j + 1))

/-- The decimal exponent of `num / den`: the `L` with
`10 ^ L ≤ num / den < 10 ^ (L + 1)`. -/
def floorLog10 (num den : Nat) : Int :=
  let k0 : Int := (digitLen num : Int) - (digitLen den : Int)
  if reaches10 num den k0 then k0 else k0 - 1

/-- The integer nearest to `num / den / 10 ^ E`, the even one of two nearest. -/
def roundAt10 (num den : Nat) (E : Int) : Nat :=
  match E with
  | Int.ofNat k => roundHalfEven num (den * 10 ^ k)
  | Int.negSucc k => roundHalfEven (num * 10 ^ (k + 1)) den

/-- The digits `cs` without the zeros at their end. -/
def trimZeros (cs : List Char) : List Char :=
  (cs.reverse.dropWhile (fun c => c = '0')).reverse

/-- The function `fmtE` of `math/big` on the digits `mant` of a number
`d.ddd * 10 ^ L`, all of which are written: `d.ddde±dd`. -/
def fmtE (mant : List Char) (L : Int) : List Char :=
  mant.take 1 ++ (if 1 < mant.length then '.' :: mant.drop 1 else []) ++
    ['e', if L < 0 then '-' else '+'] ++
    (if L.natAbs < 10 then ['0'] else []) ++ (toString L.natAbs).data

/-- The digit `d.at(i)` of `math/big`: a zero outside the digits. -/
def digitAt (mant : List Char) (i : Int) : Char :=
  match i with
  | Int.ofNat j => mant.getD j '0'
  | Int.negSucc _ => '0'

/-- The function `fmtF` of `math/big` on the digits `mant` of a number
`0.ddd * 10 ^ dexp`, with `frac` digits after the point. -/
def fmtF (mant : List Char) (dexp : Int) (frac : Nat) : List Char :=
  (if 0 < dexp then
      mant.take dexp.toNat ++ List.replicate (dexp.toNat - mant.length) '0'
    else ['0']) ++
    (if 0 < frac then
      '.' :: (List.range frac).map (fun i => digitAt mant (dexp + (i : Int)))
    else [])

/-- The call `x.String()`, that is `x.Text('g', 10)`: `x` rounded to ten
significant decimal digits, to nearest, ties to even, and written without the
zeros at the end, with an exponent when the decimal exponent is below -4 or
not below the number of digits asked for. -/
def FloatString (x : BigFloat) : String :=
  if x.mant = 0 then "0"
  else
    let num : Nat :=
      match x.exp with
      | Int.ofNat j => x.mant * 2 ^ j
      | Int.negSucc _ => x.mant
    let den : Nat :=
      match x.exp with
      | Int.ofNat _ => 1
      | Int.negSucc j => 2 ^ (j + 1)
    let L0 : Int := floorLog10 num den
    let N0 : Nat := roundAt10 num den (L0 - 9)
    let N : Nat := if N0 = 10 ^ 10 then 10 ^ 9 else N0
    let L : Int := if N0 = 10 ^ 10 then L0 + 1 else L0
    let mant : List Char := trimZeros (toString N).data
    let len : Nat := mant.length
    let eprec : Int := if len < 10 ∧ L + 1 ≤ (len : Int) then (len : Int) else 10
    if L < -4 ∨ eprec ≤ L then String.mk (fmtE mant L)
    else String.mk (fmtF mant (L + 1) (if L + 1 < 10 then ((len : Int) - (L + 1)).toNat else 0))

/-! ## Addresses and call data -/

def has0xPrefix (cs : List Char) : Bool :=
  match cs with
  | c0 :: c1 :: _ => c0 = '0' && (c1 = 'x' || c1 = 'X')
  | _ => false

def isHexCharacter (c : Char) : Bool :=
  ('0' ≤ c && c ≤ '9') || ('a' ≤ c && c ≤ 'f') || ('A' ≤ c && c ≤ 'F')

/-- The function `common.IsHexAddress`: forty hexadecimal digits after an
optional prefix `0x` or `0X`. -/
def IsHexAddress (s : String) : Bool :=
  let cs := if has0xPrefix s.data then s.data.drop 2 else s.data
  cs.length == 40 && cs.all isHexCharacter

def hexValue (c : Char) : Nat :=
  if '0' ≤ c && c ≤ '9' then c.toNat - 48
  else if 'a' ≤ c && c ≤ 'f' then c.toNat - 87
  else if 'A' ≤ c && c ≤ 'F' then c.toNat - 55
  else 0

/-- The function `common.HexToAddress` on a string that `IsHexAddress`
accepts: the 160-bit number its digits write. -/
def HexToAddress (s : String) : Nat :=
  let cs := if has0xPrefix s.data then s.data.drop 2 else s.data
  cs.foldl (fun acc c => acc * 16 + hexValue c) 0

/-- The `width` bytes of `n`, most significant first. -/
def toBytes (width n : Nat) : List Nat :=
  (List.range width).map (fun i => n / 256 ^ (width - 1 - i) % 256)

/-- The call data `erc20ABI.Pack("balanceOf", owner)`: the selector of
`balanceOf(address)` and the owner as a 32-byte word. -/
def packBalanceOf (owner : Nat) : List Nat :=
  [0x70, 0xa0, 0x82, 0x31] ++ toBytes 32 owner

/-- The call `new(big.Int).SetBytes(buf)`: the bytes read as a big-endian
number. -/
def SetBytes (buf : List Nat) : Nat :=
  buf.foldl (fun acc b => acc * 256 + b % 256) 0

/-! ## Records, tables and the environment -/

structure TokenBalance where
  TokenAddress : String
  Symbol : String
  Name : String
  Amount : String
  Decimals : Nat
  Price : String
  Value : String
  deriving DecidableEq, Repr

/-- An entry of the table of common tokens of `GetTokenBalances`. -/
structure Token where
  Address : String
  Symbol : String
  Name : String
  deriving DecidableEq, Repr

/-- The map `tokenDecimals`. -/
def tokenDecimals : List (String × Nat) :=
  [ ("0xdAC17F958D2ee523a2206206994597C13D831ec7", 6),
    ("0xA0b86a33E6441b8C4C8C8C8C8C8C8C8C8C8C8C8C", 6),
    ("0x6B175474E89094C44Da98b954EedeAC495271d0F", 18),
    ("0xC02aaA39b223FE8D0A0e5C4F27eAD9083C756Cc2", 18),
    ("0xc2132D05D31c914a87C6611C10748AEb04B58e8F", 6),
    ("0x2791Bca1f2de4661ED88A30C99A7a9449Aa84174", 6),
    ("0x8f3Cf7ad23Cd3CaDbD9735AFf958023239c6A063", 18),
    ("0x0d500B1d8E8eF31E21C99d1Db9A6444d3ADf1270", 18),
    ("0x55d398326f99059fF775485246999027B3197955", 18),
    ("0x8ac76a51cc950d9822d68b83fe1ad97b32cd580d", 18),
    ("0x1AF3F329e8BE154074D8769D1FFa4eE058B1DBc3", 18),
    ("0x2170Ed0880ac9A755fd29B2688956BD959F933F8", 18) ]

/-- The map `tokens` of `GetTokenBalances`: the common tokens of each
network. -/
def tokens : List (String × List Token) :=
  [ ("ethereum",
      [ { Address := "0xdAC17F958D2ee523a2206206994597C13D831ec7", Symbol := "USDT",
          Name := "Tether USD" },
        { Address := "0xA0b86a33E6441b8C4C8C8C8C8C8C8C8C8C8C8C8C", Symbol := "USDC",
          Name := "USD Coin" },
        { Address := "0x6B175474E89094C44Da98b954EedeAC495271d0F", Symbol := "DAI",
          Name := "Dai Stablecoin" },
        { Address := "0xC02aaA39b223FE8D0A0e5C4F27eAD9083C756Cc2", Symbol := "WETH",
          Name := "Wrapped Ether" } ]),
    ("polygon",
      [ { Address := "0xc2132D05D31c914a87C6611C10748AEb04B58e8F", Symbol := "USDT",
          Name := "Tether USD" },
        { Address := "0x2791Bca1f2de4661ED88A30C99A7a9449Aa84174", Symbol := "USDC",
          Name := "USD Coin" },
        { Address := "0x8f3Cf7ad23Cd3CaDbD9735AFf958023239c6A063", Symbol := "DAI",
          Name := "Dai Stablecoin" },
        { Address := "0x0d500B1d8E8eF31E21C99d1Db9A6444d3ADf1270", Symbol := "WMATIC",
          Name := "Wrapped MATIC" } ]),
    ("bsc",
      [ { Address := "0x55d398326f99059fF775485246999027B3197955", Symbol := "USDT",
          Name := "Tether USD" },
        { Address := "0x8ac76a51cc950d9822d68b83fe1ad97b32cd580d", Symbol := "USDC",
          Name := "USD Coin" },
        { Address := "0x1AF3F329e8BE154074D8769D1FFa4eE058B1DBc3", Symbol := "DAI",
          Name := "Dai Stablecoin" },
        { Address := "0x2170Ed0880ac9A755fd29B2688956BD959F933F8", Symbol := "WETH",
          Name := "Wrapped Ether" } ]),
    ("arbitrum", []) ]

/-- The map `prices` of `GetTokenPrice`. -/
def prices : List (String × String) :=
  [("USDT", "1.00"), ("USDC", "1.00"), ("DAI", "1.00"), ("WETH", "2000.00"),
   ("WMATIC", "0.80")]

/-- The node behind an `ethclient.Client`: its answers to `BalanceAt` (of an
account, at the latest block) and to `CallContract` (to a contract, with call
data). -/
structure Client where
  BalanceAt : Nat → Except String Nat
  CallContract : Nat → List Nat → Except String (List Nat)

/-- A call sent to a node. -/
inductive RpcCall where
  | BalanceAt (network : String) (account : Nat)
  | CallContract (network : String) (contract : Nat) (data : List Nat)
  deriving DecidableEq, Repr

/-- The connected clients of the `Web3Service`, `s.clients`, and the functions
`strings.ToLower` and `strings.ToUpper`. -/
structure Web3Env where
  clients : String → Option Client
  ToLower : String → String
  ToUpper : String → String

/-- What a fetch returned and the calls it sent to a node, in order. -/
structure Fetched where
  result : Except.{0, 0} String Nat
  calls : List RpcCall

/-! ## The service -/

/-- The constructor `NewWeb3Service`: for each of `ethereum`, `polygon`, `bsc`
and `arbitrum` whose URL is configured, the node is dialled and asked its block
number, and its client is entered in `clients` when both succeeded.  The
argument `connected` gives that client, `none` for an empty URL or a node that
did not answer; no other network gets an entry. -/
def NewWeb3Service (connected : String → Option Client) (ToLower ToUpper : String → String) :
    Web3Env where
  clients := fun network =>
    if network = "ethereum" then connected "ethereum"
    else if network = "polygon" then connected "polygon"
    else if network = "bsc" then connected "bsc"
    else if network = "arbitrum" then connected "arbitrum"
    else none
  ToLower := ToLower
  ToUpper := ToUpper

def GetBalance (s : Web3Env) (address network : String) : Fetched :=
  match s.clients network with
  | none =>
    { result := Except.error ("network " ++ network ++ " not supported or not connected")
      calls := [] }
  | some client =>
    if !IsHexAddress address then
      { result := Except.error ("invalid address format: " ++ address), calls := [] }
    else
      let addr := HexToAddress address
      match client.BalanceAt addr with
      | Except.error e =>
        { result := Except.error ("failed to get balance: " ++ e)
          calls := [RpcCall.BalanceAt network addr] }
      | Except.ok balance =>
        { result := Except.ok balance, calls := [RpcCall.BalanceAt network addr] }

/-- Parsing the constant ABI and packing the call data do not fail. -/
def GetTokenBalance (s : Web3Env) (address tokenAddress network : String) : Fetched :=
  match s.clients network with
  | none => { result := Except.error ("network " ++ network ++ " not supported"), calls := [] }
  | some client =>
    if !IsHexAddress address || !IsHexAddress tokenAddress then
      { result := Except.error "invalid address format", calls := [] }
    else
      let data := packBalanceOf (HexToAddress address)
      let contract := HexToAddress tokenAddress
      match client.CallContract contract data with
      | Except.error e =>
        { result := Except.error ("failed to call contract: " ++ e)
          calls := [RpcCall.CallContract network contract data] }
      | Except.ok result =>
        { result := Except.ok (if result.length = 0 then 0 else SetBytes result)
          calls := [RpcCall.CallContract network contract data] }

/-- The result is the price and the error, `none` for nil. -/
def GetTokenPrice (s : Web3Env) (symbol : String) : String × Option String :=
  match prices.lookup (s.ToUpper symbol) with
  | none => ("0.00", some ("price not available for " ++ symbol))
  | some price => (price, none)

/-- The decimals `GetTokenBalances` gives a token: 18 unless `tokenDecimals`
has an entry under the lower-cased address. -/
def decimalsOf (s : Web3Env) (tokenAddress : String) : Nat :=
  match tokenDecimals.lookup (s.ToLower tokenAddress) with
  | some d => d
  | none => 18

/-- The divisor of `amountDiv`: a `big.Float` set to 1, given the precision
`uint(decimals*3)`, a product of `uint8`, and then set to `10 ^ decimals`. -/
def divisor (decimals : Nat) : BigFloat :=
  SetInt (decimals * 3 % 256) (10 ^ decimals)

/-- The scaled amount `amountDiv` of `GetTokenBalances`. -/
def amountDiv (balance decimals : Nat) : BigFloat :=
  Quo (SetInt 0 balance) (divisor decimals)

/-- The product `valueFloat` of `GetTokenBalances`. -/
def valueFloat (balance decimals : Nat) (priceFloat : BigFloat) : BigFloat :=
  Mul (amountDiv balance decimals) priceFloat

/-- One iteration of the loop of `GetTokenBalances`: `none` when the token is
skipped.  A price that `SetString` does not read would leave `priceFloat` nil
and make `Mul` panic; no price of the table is such a string, and the model
leaves `Value` empty there. -/
def tokenBalanceOf (s : Web3Env) (address network : String) (token : Token) :
    Option TokenBalance :=
  match (GetTokenBalance s address token.Address network).result with
  | Except.error _ => none
  | Except.ok balance =>
    if balance = 0 then none
    else
      let decimals := decimalsOf s token.Address
      let tokenBalance : TokenBalance :=
        { TokenAddress := token.Address
          Symbol := token.Symbol
          Name := token.Name
          Amount := toString balance
          Decimals := decimals
          Price := ""
          Value := "" }
      match GetTokenPrice s token.Symbol with
      | (_, some _) => some tokenBalance
      | (price, none) =>
        match SetString price with
        | none => some { tokenBalance with Price := price }
        | some priceFloat =>
          some { tokenBalance with
            Price := price
            Value := Text (valueFloat balance decimals priceFloat) 8 }

/-- The loop `for _, token := range networkTokens`. -/
def collectTokenBalances (s : Web3Env) (address network : String)
    (networkTokens : List Token) : List TokenBalance :=
  match networkTokens with
  | [] => []
  | token :: rest =>
    match tokenBalanceOf s address network token with
    | none => collectTokenBalances s address network rest
    | some tokenBalance => tokenBalance :: collectTokenBalances s address network rest

def GetTokenBalances (s : Web3Env) (address network : String) :
    Except String (List TokenBalance) :=
  match tokens.lookup network with
  | none => Except.error ("network " ++ network ++ " not supported for token balances")
  | some networkTokens => Except.ok (collectTokenBalances s address network networkTokens)

/-! ## Reading of the specification -/

/-- Spec-side reading of "the balance call of the token succeeded with a
non-zero amount". -/
def isHeld (s : Web3Env) (address network : String) (token : Token) : Bool :=
  match (GetTokenBalance s address token.Address network).result with
  | Except.ok balance => decide (balance ≠ 0)
  | Except.error _ => false

/-- Spec-side reading of "the integer whose big-endian encoding is the byte
string": the first byte is the most significant one. -/
def bigEndian (bytes : List Nat) : Nat :=
  match bytes with
  | [] => 0
  | b :: rest => b * 256 ^ rest.length + bigEndian rest

/-! ## A concrete environment -/

/-- The function `strings.ToLower` on ASCII text. -/
def asciiLower (s : String) : String := String.mk (s.data.map Char.toLower)

/-- The function `strings.ToUpper` on ASCII text. -/
def asciiUpper (s : String) : String := String.mk (s.data.map Char.toUpper)

/-- An environment for evaluating the service on concrete inputs.  Three
networks are connected.  On `ethereum` every account holds 2 * 10 ^ 18 wei and
1,500,000 units of USDT.  On `polygon` the account `0x...01` holds 10 ^ 30
units of WMATIC and nothing else is held; during an outage the node does not
answer `BalanceAt` for the account `0x...02`.  On `arbitrum` nothing is
held. -/
def sampleWeb3 (outage : Bool) : Web3Env where
  clients := fun network =>
    if network = "ethereum" then
      some
        { BalanceAt := fun _ => Except.ok (2 * 10 ^ 18)
          CallContract := fun contract _ =>
            if contract = HexToAddress "0xdAC17F958D2ee523a2206206994597C13D831ec7" then
              Except.ok (toBytes 32 1500000)
            else Except.ok (toBytes 32 0) }
    else if network = "polygon" then
      some
        { BalanceAt := fun account =>
            if outage && account = 2 then Except.error "connection refused" else Except.ok 0
          CallContract := fun contract data =>
            if contract = HexToAddress "0x0d500B1d8E8eF31E21C99d1Db9A6444d3ADf1270"
                && data = packBalanceOf 1 then
              Except.ok (toBytes 32 (10 ^ 30))
            else Except.ok [] }
    else if network = "arbitrum" then
      some
        { BalanceAt := fun _ => Except.ok 0
          CallContract := fun _ _ => Except.ok [] }
    else none
  ToLower := asciiLower
  ToUpper := asciiUpper

/-- The function `strconv.ParseFloat(s, 64)` on the decimal numbers of
`parseDecimal`, which are the values the service writes: the nearest number
with 53 bits of mantissa, ties to even. -/
def parseFloat64 (s : String) : Option BigFloat :=
  match parseDecimal s.data with
  | none => none
  | some (n, k) => some (round 53 n (10 ^ k) 0)

end Web3Service

/-!
# Portfolio balances

A shallow embedding of the balance refresh of
`backend/internal/services/portfolio.go`.  The tables of the store are lists of
rows; the wall-clock column `UpdatedAt` and the preloaded relations of a row
are not part of the model, except for the address that `GetPortfolioBalances`
loads with a balance.  Identifiers are primary keys: no two rows of a table
carry the same one, and a stored row carries one that is not the nil UUID.
-/

namespace PortfolioService

open AlertService (UUID)
open Web3Service (Web3Env TokenBalance GetBalance GetTokenBalances)
open Web3Service (BigFloat Add FloatString)

/-! ## Records and the store -/

set_option linter.dupNamespace false in
/-- The record `models.Address`. -/
structure Address where
  ID : UUID
  PortfolioID : UUID
  Address : String
  Network : String
  Label : String
  IsActive : Bool
  deriving DecidableEq, Repr

/-- The record `models.Portfolio`. -/
structure Portfolio where
  ID : UUID
  UserID : UUID
  Name : String
  Addresses : List Address
  deriving DecidableEq, Repr

/-- The record `models.Balance`. -/
structure Balance where
  ID : UUID
  AddressID : UUID
  TokenAddress : String
  Symbol : String
  Name : String
  Amount : String
  Decimals : Nat
  Price : String
  Value : String
  deriving DecidableEq, Repr

/-- The tables the portfolio service reads and writes. -/
structure Store where
  portfolios : List Portfolio
  addresses : List Address
  balances : List Balance

/-- The statements the service sends to the store: the lookup of the
portfolio, the load of its addresses in `GetPortfolio`, the query of
`GetPortfolioAddresses`, the save of a balance, the query of
`GetPortfolioBalances`, and the lookup, the save and the deletion of an
address. -/
inductive StoreOp where
  | firstPortfolio | loadAddresses | findAddresses | saveBalance
  | findBalances | firstAddress | saveAddress | deleteAddress
  deriving DecidableEq, Repr

/-- What the portfolio service takes from outside the repository: `uuid.Parse`,
the identifier the store gives a new balance row, and the error, if any, with
which the store answers a statement. -/
structure PortfolioEnv where
  parseUUID : String → Except String UUID
  newUUID : List Balance → UUID
  dbError : StoreOp → Option String

/-! ## Helper functions -/

def getNativeTokenSymbol (network : String) : String :=
  if network = "ethereum" then "ETH"
  else if network = "polygon" then "MATIC"
  else if network = "bsc" then "BNB"
  else if network = "arbitrum" then "ETH"
  else "NATIVE"

def getNativeTokenName (network : String) : String :=
  if network = "ethereum" then "Ethereum"
  else if network = "polygon" then "Polygon"
  else if network = "bsc" then "Binance Smart Chain"
  else if network = "arbitrum" then "Arbitrum"
  else "Native Token"

/-! ## The service -/

def GetPortfolio (env : PortfolioEnv) (store : Store) (userID portfolioID : String) :
    Except String Portfolio :=
  match env.parseUUID userID with
  | Except.error e => Except.error ("invalid user ID: " ++ e)
  | Except.ok userUUID =>
    match env.parseUUID portfolioID with
    | Except.error e => Except.error ("invalid portfolio ID: " ++ e)
    | Except.ok portfolioUUID =>
      match env.dbError StoreOp.firstPortfolio with
      | some e => Except.error ("portfolio not found: " ++ e)
      | none =>
        match store.portfolios.find?
            (fun row => decide (row.ID = portfolioUUID ∧ row.UserID = userUUID)) with
        | none => Except.error "portfolio not found: record not found"
        | some portfolio =>
          match env.dbError StoreOp.loadAddresses with
          | some e => Except.error ("failed to get addresses for portfolio: " ++ e)
          | none =>
            Except.ok { portfolio with
              Addresses := store.addresses.filter (fun row => row.PortfolioID == portfolio.ID) }

/-- The second `uuid.Parse(portfolioID)` cannot fail after `GetPortfolio`
returned; its error is discarded and the zero identifier stands for it. -/
def GetPortfolioAddresses (env : PortfolioEnv) (store : Store) (userID portfolioID : String) :
    Except String (List Address) :=
  match GetPortfolio env store userID portfolioID with
  | Except.error e => Except.error e
  | Except.ok _ =>
    let portfolioUUID : UUID :=
      match env.parseUUID portfolioID with
      | Except.ok u => u
      | Except.error _ => 0
    match env.dbError StoreOp.findAddresses with
    | some e => Except.error ("failed to get addresses: " ++ e)
    | none => Except.ok (store.addresses.filter (fun row => row.PortfolioID == portfolioUUID))

/-- The record `RefreshPortfolioBalances` builds for the native token. -/
def nativeRecord (address : Address) (balance : Nat) : Balance :=
  { ID := 0
    AddressID := address.ID
    TokenAddress := ""
    Symbol := getNativeTokenSymbol address.Network
    Name := getNativeTokenName address.Network
    Amount := toString balance
    Decimals := 18
    Price := ""
    Value := "" }

/-- The record `RefreshPortfolioBalances` builds for a token balance. -/
def tokenRecord (address : Address) (token : TokenBalance) : Balance :=
  { ID := 0
    AddressID := address.ID
    TokenAddress := token.TokenAddress
    Symbol := token.Symbol
    Name := token.Name
    Amount := token.Amount
    Decimals := token.Decimals
    Price := token.Price
    Value := token.Value }

/-- One iteration of the loop over the addresses: the records the address adds
to `allBalances`; a failed fetch skips the address. -/
def addressBalances (w : Web3Env) (address : Address) : List Balance :=
  match (GetBalance w address.Address address.Network).result with
  | Except.error _ => []
  | Except.ok balance =>
    match GetTokenBalances w address.Address address.Network with
    | Except.error _ => []
    | Except.ok tokenBalances =>
      (if balance > 0 then [nativeRecord address balance] else []) ++
        tokenBalances.map (tokenRecord address)

/-- The loop `for _, address := range addresses`. -/
def collectBalances (w : Web3Env) (addresses : List Address) : List Balance :=
  match addresses with
  | [] => []
  | address :: rest => addressBalances w address ++ collectBalances w rest

/-- The loop `for _, balance := range allBalances { s.db.Save(&balance) }`: a
record without identifier is inserted with one the store gives it, and an error
of the store is dropped. -/
def saveBalances (env : PortfolioEnv) (rows : List Balance) (allBalances : List Balance) :
    List Balance :=
  match allBalances with
  | [] => rows
  | balance :: rest =>
    match env.dbError StoreOp.saveBalance with
    | some _ => saveBalances env rows rest
    | none => saveBalances env (rows ++ [{ balance with ID := env.newUUID rows }]) rest

/-- The result and the store after the call. -/
def RefreshPortfolioBalances (env : PortfolioEnv) (w : Web3Env) (store : Store)
    (userID portfolioID : String) : Except String (List Balance) × Store :=
  match GetPortfolioAddresses env store userID portfolioID with
  | Except.error e => (Except.error e, store)
  | Except.ok addresses =>
    let allBalances := collectBalances w addresses
    (Except.ok allBalances, { store with balances := saveBalances env store.balances allBalances })

/-- The statement `db.Save(&address)` on a row read from the table: the row
with the primary key of `address` is overwritten. -/
def saveAddress (rows : List Address) (address : Address) : List Address :=
  rows.map (fun row => if row.ID = address.ID then address else row)

/-- The result and the store after the call.  The address is looked up by its
identifier alone. -/
def UpdateAddress (env : PortfolioEnv) (store : Store)
    (userID portfolioID addressID label : String) : Except String Address × Store :=
  match GetPortfolio env store userID portfolioID with
  | Except.error e => (Except.error e, store)
  | Except.ok _ =>
    match env.parseUUID addressID with
    | Except.error e => (Except.error ("invalid address ID: " ++ e), store)
    | Except.ok addressUUID =>
      match env.dbError StoreOp.firstAddress with
      | some e => (Except.error ("address not found: " ++ e), store)
      | none =>
        match store.addresses.find? (fun row => row.ID == addressUUID) with
        | none => (Except.error "address not found: record not found", store)
        | some found =>
          let address : Address := { found with Label := label }
          match env.dbError StoreOp.saveAddress with
          | some e => (Except.error ("failed to update address: " ++ e), store)
          | none =>
            (Except.ok address, { store with addresses := saveAddress store.addresses address })

/-- The result and the store after the call.  The statement deletes the rows
of `addresses` with the identifier, and it is no error when there is none. -/
def DeleteAddress (env : PortfolioEnv) (store : Store)
    (userID portfolioID addressID : String) : Except String Unit × Store :=
  match GetPortfolio env store userID portfolioID with
  | Except.error e => (Except.error e, store)
  | Except.ok _ =>
    match env.parseUUID addressID with
    | Except.error e => (Except.error ("invalid address ID: " ++ e), store)
    | Except.ok addressUUID =>
      match env.dbError StoreOp.deleteAddress with
      | some e => (Except.error ("failed to delete address: " ++ e), store)
      | none =>
        (Except.ok (),
          { store with addresses := store.addresses.filter (fun row => row.ID != addressUUID) })

/-- A row of `balances` as `GetPortfolioBalances` returns it: the columns and
the preloaded relation `Address`. -/
structure LoadedBalance where
  row : Balance
  Address : Address
  deriving DecidableEq, Repr

/-- The rows of `balances` whose address is an address of the portfolio, each
with that address.  The second `uuid.Parse(portfolioID)` cannot fail after
`GetPortfolio` returned; its error is discarded and the zero identifier stands
for it. -/
def GetPortfolioBalances (env : PortfolioEnv) (store : Store) (userID portfolioID : String) :
    Except String (List LoadedBalance) :=
  match GetPortfolio env store userID portfolioID with
  | Except.error e => Except.error e
  | Except.ok _ =>
    let portfolioUUID : UUID :=
      match env.parseUUID portfolioID with
      | Except.ok u => u
      | Except.error _ => 0
    match env.dbError StoreOp.findBalances with
    | some e => Except.error ("failed to get balances: " ++ e)
    | none =>
      Except.ok (store.balances.filterMap (fun row =>
        match store.addresses.find?
            (fun a => a.ID == row.AddressID && a.PortfolioID == portfolioUUID) with
        | none => none
        | some address => some { row := row, Address := address }))

/-- The record `PortfolioAsset`. -/
structure PortfolioAsset where
  Symbol : String
  Name : String
  Amount : String
  Value : String
  Change24h : String
  Network : String
  deriving DecidableEq, Repr

/-- The record `PortfolioSummary`; a map is a list of entries read by key. -/
structure PortfolioSummary where
  TotalValue : String
  TotalChange24h : String
  TotalChange7d : String
  TotalChange30d : String
  AssetCount : Nat
  NetworkCount : Nat
  TopAssets : List PortfolioAsset
  NetworkAllocation : List (String × String)
  deriving DecidableEq, Repr

/-- The assignment `m[key] = value` on a map. -/
def mapSet {α : Type} (m : List (String × α)) (key : String) (value : α) : List (String × α) :=
  match m with
  | [] => [(key, value)]
  | (k, v) :: rest => if k = key then (key, value) :: rest else (k, v) :: mapSet rest key value

/-- One iteration of the loop of `GetPortfolioSummary` on `totalValue`; the
argument `ParseFloat` is `strconv.ParseFloat(s, 64)`, with `none` for an error.
The model holds non-negative numbers: a value that reads as a negative number,
an infinity or a NaN is outside it. -/
def addValue (ParseFloat : String → Option BigFloat) (totalValue : BigFloat)
    (balance : LoadedBalance) : BigFloat :=
  if balance.row.Value ≠ "" then
    match ParseFloat balance.row.Value with
    | some value => Add totalValue.prec totalValue { value with prec := 53 }
    | none => totalValue
  else totalValue

/-- The number `totalValue` after the loop of `GetPortfolioSummary`, which
starts from `big.NewFloat(0)`. -/
def totalValue (ParseFloat : String → Option BigFloat) (balances : List LoadedBalance) :
    BigFloat :=
  balances.foldl (addValue ParseFloat) { prec := 53, mant := 0, exp := 0 }

/-- The map `networkMap` after the loop of `GetPortfolioSummary`. -/
def networkMap (balances : List LoadedBalance) : List (String × Bool) :=
  balances.foldl (fun m balance => mapSet m balance.Address.Network true) []

def GetPortfolioSummary (env : PortfolioEnv) (ParseFloat : String → Option BigFloat)
    (store : Store) (userID portfolioID : String) : Except String PortfolioSummary :=
  match GetPortfolioBalances env store userID portfolioID with
  | Except.error e => Except.error e
  | Except.ok balances =>
    Except.ok
      { TotalValue := FloatString (totalValue ParseFloat balances)
        TotalChange24h := "0"
        TotalChange7d := "0"
        TotalChange30d := "0"
        AssetCount := balances.length
        NetworkCount := (networkMap balances).length
        TopAssets := []
        NetworkAllocation := [] }

/-- The record `NetworkAllocation`. -/
structure NetworkAllocation where
  Value : String
  Percentage : String
  AssetCount : Nat
  deriving DecidableEq, Repr

/-- The record `AssetAllocation`. -/
structure AssetAllocation where
  Value : String
  Percentage : String
  Amount : String
  Network : String
  deriving DecidableEq, Repr

/-- The record `PortfolioAllocation`; a map is a list of entries read by key. -/
structure PortfolioAllocation where
  ByNetwork : List (String × NetworkAllocation)
  ByAsset : List (String × AssetAllocation)
  deriving DecidableEq, Repr

/-- One iteration of the loop of `GetPortfolioAllocation`. -/
def allocate (allocation : PortfolioAllocation) (balance : LoadedBalance) :
    PortfolioAllocation :=
  { ByNetwork :=
      if (allocation.ByNetwork.lookup balance.Address.Network).isSome then allocation.ByNetwork
      else
        mapSet allocation.ByNetwork balance.Address.Network
          { Value := "0", Percentage := "0", AssetCount := 0 }
    ByAsset :=
      if balance.row.Value ≠ "" then
        mapSet allocation.ByAsset balance.row.Symbol
          { Value := balance.row.Value
            Percentage := "0"
            Amount := balance.row.Amount
            Network := balance.Address.Network }
      else allocation.ByAsset }

def GetPortfolioAllocation (env : PortfolioEnv) (store : Store) (userID portfolioID : String) :
    Except String PortfolioAllocation :=
  match GetPortfolioBalances env store userID portfolioID with
  | Except.error e => Except.error e
  | Except.ok balances => Except.ok (balances.foldl allocate { ByNetwork := [], ByAsset := [] })

/-! ## Reading of the specification -/

/-- Spec-side reading of "a priced balance": its `Value` is present and
`ParseFloat` reads it. -/
def isPriced (ParseFloat : String → Option BigFloat) (balance : LoadedBalance) : Bool :=
  decide (balance.row.Value ≠ "") && (ParseFloat balance.row.Value).isSome

/-- Spec-side reading of "the Value fields over all balances, a missing or
unparsable one counted as zero": the numbers `ParseFloat` reads from the
values of the priced balances, in the order of the balances. -/
def parsedValues (ParseFloat : String → Option BigFloat) (balances : List LoadedBalance) :
    List BigFloat :=
  balances.filterMap (fun balance =>
    if balance.row.Value ≠ "" then ParseFloat balance.row.Value else none)

/-! ## A concrete store -/

/-- An environment for evaluating the service on concrete inputs: it knows the
identifiers `u1` and `p1`, and the store answers every statement. -/
def sampleEnv : PortfolioEnv where
  parseUUID := fun s =>
    if s = "u1" then Except.ok 1
    else if s = "p1" then Except.ok 11
    else Except.error "invalid UUID length"
  newUUID := fun rows => 1000 + rows.length
  dbError := fun _ => none

/-- A store with the portfolio `p1` of the user `u1` and its two addresses,
one on `ethereum` and one on `polygon`. -/
def sampleStore : Store where
  portfolios := [{ ID := 11, UserID := 1, Name := "main", Addresses := [] }]
  addresses :=
    [ { ID := 21, PortfolioID := 11, Address := "0x0000000000000000000000000000000000000001",
        Network := "ethereum", Label := "hot", IsActive := true },
      { ID := 22, PortfolioID := 11, Address := "0x0000000000000000000000000000000000000002",
        Network := "polygon", Label := "cold", IsActive := true } ]
  balances := []

/-- The store `sampleStore` with four rows of balances: on the first address
the native token, without value, a holding of USDT worth 1234567.12345678 and
one of DAI worth 2.5, and on the second address a holding of USDT worth 0.5. -/
def valuedStore : Store :=
  { sampleStore with
    balances :=
      [ { ID := 1000, AddressID := 21, TokenAddress := "", Symbol := "ETH", Name := "Ethereum",
          Amount := "2000000000000000000", Decimals := 18, Price := "", Value := "" },
        { ID := 1001, AddressID := 21,
          TokenAddress := "0xdAC17F958D2ee523a2206206994597C13D831ec7", Symbol := "USDT",
          Name := "Tether USD", Amount := "1234567123456780000000000", Decimals := 18,
          Price := "1.00", Value := "1234567.12345678" },
        { ID := 1002, AddressID := 21,
          TokenAddress := "0x6B175474E89094C44Da98b954EedeAC495271d0F", Symbol := "DAI",
          Name := "Dai Stablecoin", Amount := "2500000000000000000", Decimals := 18,
          Price := "1.00", Value := "2.50000000" },
        { ID := 1003, AddressID := 22,
          TokenAddress := "0xc2132D05D31c914a87C6611C10748AEb04B58e8F", Symbol := "USDT",
          Name := "Tether USD", Amount := "500000000000000000", Decimals := 18,
          Price := "1.00", Value := "0.50000000" } ] }

/-- The environment `sampleEnv` knowing also the identifiers `a1` and `a3` of
two addresses. -/
def addressEnv : PortfolioEnv :=
  { sampleEnv with
    parseUUID := fun s =>
      if s = "a1" then Except.ok 21
      else if s = "a3" then Except.ok 23
      else sampleEnv.parseUUID s }

/-- The store `sampleStore` with the portfolio of another user and one address
of that portfolio. -/
def sharedStore : Store :=
  { sampleStore with
    portfolios :=
      sampleStore.portfolios ++ [{ ID := 12, UserID := 2, Name := "other", Addresses := [] }]
    addresses :=
      sampleStore.addresses ++
        [{ ID := 23, PortfolioID := 12, Address := "0x0000000000000000000000000000000000000003",
           Network := "ethereum", Label := "savings", IsActive := true }] }

end PortfolioService

namespace AlertService

/-! ## Basic facts -/

theorem containsString_iff (xs : List String) (x : String) :
    containsString xs x = true ↔ x ∈ xs := by
  induction xs with
  | nil => simp [containsString]
  | cons t rest ih =>
    unfold containsString
    by_cases h : t = x
    · simp [h]
    · have h' : ¬ x = t := fun e => h e.symm
      simp [h, h', ih]

theorem isValidOperator_iff (s : String) :
    isValidOperator s = true ↔
      s = ">" ∨ s = "<" ∨ s = ">=" ∨ s = "<=" ∨ s = "==" ∨ s = "!=" := by
  unfold isValidOperator
  rw [containsString_iff]
  simp [validOperators]

theorem isValidAlertType_iff (s : String) :
    isValidAlertType s = true ↔ s = "price" ∨ s = "balance" ∨ s = "transaction" := by
  unfold isValidAlertType
  rw [containsString_iff]
  simp [validTypes]

theorem checkRequired_ok_iff (required : List String) (c : Conditions) :
    checkRequired required c = Except.ok () ↔ ∀ f ∈ required, hasKey c f = true := by
  induction required with
  | nil => simp [checkRequired]
  | cons f rest ih =>
    unfold checkRequired
    by_cases h : hasKey c f = true
    · simp [h, ih]
    · simp [h]

theorem checkRequired_error (required : List String) (c : Conditions) (e : String)
    (h : checkRequired required c = Except.error e) :
    ∃ f ∈ required, hasKey c f = false ∧ e = "required field missing: " ++ f := by
  induction required with
  | nil => simp [checkRequired] at h
  | cons f rest ih =>
    unfold checkRequired at h
    by_cases hk : hasKey c f = true
    · simp only [hk, if_true] at h
      obtain ⟨g, hg, hgk, hge⟩ := ih h
      exact ⟨g, List.mem_cons_of_mem _ hg, hgk, hge⟩
    · simp only [hk] at h
      simp only [Bool.false_eq_true, if_false, Except.error.injEq] at h
      exact ⟨f, List.mem_cons_self _ _, by simpa using hk, h.symm⟩

theorem checkOperator_ok_iff (c : Conditions) :
    checkOperator c = Except.ok () ↔
      ∃ op, get c "operator" = some (Value.str op) ∧ isValidOperator op = true := by
  unfold checkOperator getString
  constructor
  · intro h
    split at h
    · cases h
    · rename_i op hop
      split at hop
      · rename_i s hs
        cases hop
        refine ⟨_, hs, ?_⟩
        by_contra hv
        simp [hv] at h
      · cases hop
  · rintro ⟨op, hop, hv⟩
    simp [hop, hv]

theorem hasKey_eq_true_iff (c : Conditions) (k : String) :
    hasKey c k = true ↔ ∃ v, get c k = some v := by
  unfold hasKey
  cases h : get c k <;> simp

theorem hasKey_of_get (c : Conditions) (k : String) (v : Value) (h : get c k = some v) :
    hasKey c k = true := by
  simp [hasKey, h]

theorem getString_eq_some_iff (c : Conditions) (k s : String) :
    getString c k = some s ↔ get c k = some (Value.str s) := by
  unfold getString
  constructor
  · intro h
    split at h
    · rename_i s' hs
      cases h
      exact hs
    · cases h
  · intro h
    simp [h]

theorem getFloat_eq_some_iff (c : Conditions) (k : String) (x : ℚ) :
    getFloat c k = some x ↔ get c k = some (Value.num x) := by
  unfold getFloat
  constructor
  · intro h
    split at h
    · rename_i x' hx
      cases h
      exact hx
    · cases h
  · intro h
    simp [h]

theorem validatePriceConditions_ok_iff (c : Conditions) :
    validatePriceConditions c = Except.ok () ↔
      hasKey c "token" = true ∧ hasKey c "operator" = true ∧ hasKey c "value" = true ∧
      ∃ op, get c "operator" = some (Value.str op) ∧
        (op = ">" ∨ op = "<" ∨ op = ">=" ∨ op = "<=" ∨ op = "==" ∨ op = "!=") := by
  constructor
  · intro h
    unfold validatePriceConditions at h
    split at h
    · cases h
    · rename_i u hreq
      have hreq' := (checkRequired_ok_iff _ c).1 hreq
      obtain ⟨op, hop, hv⟩ := (checkOperator_ok_iff c).1 h
      exact ⟨hreq' _ (by simp), hreq' _ (by simp), hreq' _ (by simp), op, hop,
        (isValidOperator_iff op).1 hv⟩
  · rintro ⟨ht, ho, hv, op, hop, hvalid⟩
    have hreq : checkRequired ["token", "operator", "value"] c = Except.ok () := by
      simp [checkRequired, ht, ho, hv]
    have hchk : checkOperator c = Except.ok () :=
      (checkOperator_ok_iff c).2 ⟨op, hop, (isValidOperator_iff op).2 hvalid⟩
    simp [validatePriceConditions, hreq, hchk]

theorem validateBalanceConditions_ok_iff (c : Conditions) :
    validateBalanceConditions c = Except.ok () ↔
      hasKey c "address" = true ∧ hasKey c "network" = true ∧
      hasKey c "operator" = true ∧ hasKey c "value" = true ∧
      ∃ op, get c "operator" = some (Value.str op) ∧
        (op = ">" ∨ op = "<" ∨ op = ">=" ∨ op = "<=" ∨ op = "==" ∨ op = "!=") := by
  constructor
  · intro h
    unfold validateBalanceConditions at h
    split at h
    · cases h
    · rename_i u hreq
      have hreq' := (checkRequired_ok_iff _ c).1 hreq
      obtain ⟨op, hop, hv⟩ := (checkOperator_ok_iff c).1 h
      exact ⟨hreq' _ (by simp), hreq' _ (by simp), hreq' _ (by simp), hreq' _ (by simp),
        op, hop, (isValidOperator_iff op).1 hv⟩
  · rintro ⟨ha, hn, ho, hv, op, hop, hvalid⟩
    have hreq : checkRequired ["address", "network", "operator", "value"] c = Except.ok () := by
      simp [checkRequired, ha, hn, ho, hv]
    have hchk : checkOperator c = Except.ok () :=
      (checkOperator_ok_iff c).2 ⟨op, hop, (isValidOperator_iff op).2 hvalid⟩
    simp [validateBalanceConditions, hreq, hchk]

theorem validateTransactionConditions_ok_iff (c : Conditions) :
    validateTransactionConditions c = Except.ok () ↔
      hasKey c "address" = true ∧ hasKey c "network" = true := by
  unfold validateTransactionConditions
  rw [checkRequired_ok_iff]
  simp

/-- C1. `validatePriceConditions` returns no error exactly when `token`,
`operator` and `value` are keys of the map, the entry of `operator` is a string
and that string is one of the six operators; when a key is missing the error
names the first missing one in the order token, operator, value. -/
theorem validatePriceConditions_spec (c : Conditions) :
    (validatePriceConditions c = Except.ok () ↔
      hasKey c "token" = true ∧ hasKey c "operator" = true ∧ hasKey c "value" = true ∧
      ∃ op, get c "operator" = some (Value.str op) ∧
        (op = ">" ∨ op = "<" ∨ op = ">=" ∨ op = "<=" ∨ op = "==" ∨ op = "!=")) ∧
    (hasKey c "token" = false →
      validatePriceConditions c = Except.error "required field missing: token") ∧
    (hasKey c "token" = true → hasKey c "operator" = false →
      validatePriceConditions c = Except.error "required field missing: operator") ∧
    (hasKey c "token" = true → hasKey c "operator" = true → hasKey c "value" = false →
      validatePriceConditions c = Except.error "required field missing: value") := by
  refine ⟨validatePriceConditions_ok_iff c, ?_, ?_, ?_⟩
  · intro ht
    simp [validatePriceConditions, checkRequired, ht]
  · intro ht ho
    simp [validatePriceConditions, checkRequired, ht, ho]
  · intro ht ho hv
    simp [validatePriceConditions, checkRequired, ht, ho, hv]

/-- Witness of C1 on three maps: a complete price rule, a map without
`operator`, and a map without `value`. -/
theorem validatePriceConditions_spec_witness :
    validatePriceConditions
        [("token", Value.str "ETH"), ("operator", Value.str ">="), ("value", Value.num 100)]
      = Except.ok () ∧
    validatePriceConditions [("token", Value.str "ETH"), ("value", Value.num 100)]
      = Except.error "required field missing: operator" ∧
    validatePriceConditions [("operator", Value.str ">"), ("token", Value.str "ETH")]
      = Except.error "required field missing: value" := by
  refine ⟨?_, ?_, ?_⟩
  · exact (validatePriceConditions_spec _).1.2
      ⟨by decide, by decide, by decide, ">=", rfl, by decide⟩
  · exact (validatePriceConditions_spec _).2.2.1 (by decide) (by decide)
  · exact (validatePriceConditions_spec _).2.2.2 (by decide) (by decide) (by decide)

theorem checkRequired_missing (required : List String) (c : Conditions)
    (h : ∃ f ∈ required, hasKey c f = false) :
    ∃ f ∈ required, hasKey c f = false ∧
      checkRequired required c = Except.error ("required field missing: " ++ f) := by
  cases hres : checkRequired required c with
  | error e =>
    obtain ⟨f, hf, hk, he⟩ := checkRequired_error required c e hres
    exact ⟨f, hf, hk, by rw [he]⟩
  | ok u =>
    obtain ⟨f, hf, hk⟩ := h
    have := (checkRequired_ok_iff required c).1 hres f hf
    rw [hk] at this
    cases this

/-- C2. `validateBalanceConditions` returns no error exactly when `address`,
`network`, `operator` and `value` are keys of the map, the entry of `operator`
is a string and that string is one of the six operators; when a key is missing
the result is the missing-field error of a missing key, whatever the operator
entry is. -/
theorem validateBalanceConditions_spec (c : Conditions) :
    (validateBalanceConditions c = Except.ok () ↔
      hasKey c "address" = true ∧ hasKey c "network" = true ∧
      hasKey c "operator" = true ∧ hasKey c "value" = true ∧
      ∃ op, get c "operator" = some (Value.str op) ∧
        (op = ">" ∨ op = "<" ∨ op = ">=" ∨ op = "<=" ∨ op = "==" ∨ op = "!=")) ∧
    ((∃ f ∈ ["address", "network", "operator", "value"], hasKey c f = false) →
      ∃ f ∈ ["address", "network", "operator", "value"], hasKey c f = false ∧
        validateBalanceConditions c = Except.error ("required field missing: " ++ f)) := by
  refine ⟨validateBalanceConditions_ok_iff c, ?_⟩
  · intro h
    obtain ⟨f, hf, hk, he⟩ := checkRequired_missing _ c h
    exact ⟨f, hf, hk, by simp [validateBalanceConditions, he]⟩

/-- Witness of C2: a complete balance rule is accepted, and a map with an
operator that is no operator and no `value` fails on the missing field. -/
theorem validateBalanceConditions_spec_witness :
    validateBalanceConditions
        [("address", Value.str "0xabc"), ("network", Value.str "ethereum"),
         ("operator", Value.str "<"), ("value", Value.num 2)] = Except.ok () ∧
    ∃ f ∈ ["address", "network", "operator", "value"],
      hasKey [("address", Value.str "0xabc"), ("network", Value.str "ethereum"),
              ("operator", Value.str "~=")] f = false ∧
      validateBalanceConditions
        [("address", Value.str "0xabc"), ("network", Value.str "ethereum"),
         ("operator", Value.str "~=")] = Except.error ("required field missing: " ++ f) := by
  refine ⟨?_, ?_⟩
  · exact (validateBalanceConditions_spec _).1.2
      ⟨by decide, by decide, by decide, by decide, "<", rfl, by decide⟩
  · exact (validateBalanceConditions_spec _).2 ⟨"value", by decide, by decide⟩

/-- C3. `validateTransactionConditions` returns no error exactly when
`address` and `network` are keys of the map: neither an operator nor a value
is looked at. -/
theorem validateTransactionConditions_spec (c : Conditions) :
    validateTransactionConditions c = Except.ok () ↔
      hasKey c "address" = true ∧ hasKey c "network" = true :=
  validateTransactionConditions_ok_iff c

theorem checkOperator_invalid (c : Conditions) (s : String)
    (hop : get c "operator" = some (Value.str s)) (hbad : isValidOperator s = false) :
    checkOperator c = Except.error ("invalid operator: " ++ s) := by
  simp [checkOperator, getString, hop, hbad]

/-- C4, as stated, fails: the map holding only the operator `~=` fails price
validation with the missing-field error of `token`, not with an
invalid-operator error. -/
theorem invalid_operator_error_counterexample :
    ¬ (∀ (c : Conditions) (s : String), get c "operator" = some (Value.str s) →
        isValidOperator s = false →
        validatePriceConditions c = Except.error ("invalid operator: " ++ s)) := by
  intro h
  have h1 := h [("operator", Value.str "~=")] "~=" rfl (by decide)
  have h2 : validatePriceConditions [("operator", Value.str "~=")]
      = Except.error "required field missing: token" := rfl
  rw [h2, Except.error.injEq] at h1
  revert h1
  decide

/-- C4, amended. `isValidOperator s` is true exactly when `s` is one of the six
operators; a map whose operator entry is any other string fails price and
balance validation, and the error is the invalid-operator error when the other
required fields of the kind are present. -/
theorem isValidOperator_spec (s : String) :
    (isValidOperator s = true ↔
      s = ">" ∨ s = "<" ∨ s = ">=" ∨ s = "<=" ∨ s = "==" ∨ s = "!=") ∧
    (∀ c : Conditions, get c "operator" = some (Value.str s) → isValidOperator s = false →
      validatePriceConditions c ≠ Except.ok () ∧
      validateBalanceConditions c ≠ Except.ok () ∧
      (hasKey c "token" = true → hasKey c "value" = true →
        validatePriceConditions c = Except.error ("invalid operator: " ++ s)) ∧
      (hasKey c "address" = true → hasKey c "network" = true → hasKey c "value" = true →
        validateBalanceConditions c = Except.error ("invalid operator: " ++ s))) := by
  refine ⟨isValidOperator_iff s, ?_⟩
  intro c hop hbad
  have hko : hasKey c "operator" = true := hasKey_of_get c _ _ hop
  have hnot : ¬ (s = ">" ∨ s = "<" ∨ s = ">=" ∨ s = "<=" ∨ s = "==" ∨ s = "!=") := by
    intro hs
    rw [(isValidOperator_iff s).2 hs] at hbad
    cases hbad
  refine ⟨?_, ?_, ?_, ?_⟩
  · intro hok
    obtain ⟨_, _, _, op, hop', hs⟩ := (validatePriceConditions_ok_iff c).1 hok
    rw [hop] at hop'
    cases hop'
    exact hnot hs
  · intro hok
    obtain ⟨_, _, _, _, op, hop', hs⟩ := (validateBalanceConditions_ok_iff c).1 hok
    rw [hop] at hop'
    cases hop'
    exact hnot hs
  · intro ht hv
    have hreq : checkRequired ["token", "operator", "value"] c = Except.ok () := by
      simp [checkRequired, ht, hko, hv]
    simp [validatePriceConditions, hreq, checkOperator_invalid c s hop hbad]
  · intro ha hn hv
    have hreq : checkRequired ["address", "network", "operator", "value"] c = Except.ok () := by
      simp [checkRequired, ha, hn, hko, hv]
    simp [validateBalanceConditions, hreq, checkOperator_invalid c s hop hbad]

/-- Witness of the amended C4 on a price rule and a balance rule with the
operator `~=`. -/
theorem isValidOperator_spec_witness :
    validatePriceConditions
        [("token", Value.str "ETH"), ("operator", Value.str "~="), ("value", Value.num 1)]
      = Except.error "invalid operator: ~=" ∧
    validateBalanceConditions
        [("operator", Value.str "~="), ("address", Value.str "0xabc"),
         ("network", Value.str "bsc"), ("value", Value.num 1)]
      = Except.error "invalid operator: ~=" := by
  refine ⟨?_, ?_⟩
  · exact ((isValidOperator_spec "~=").2
      [("token", Value.str "ETH"), ("operator", Value.str "~="), ("value", Value.num 1)]
      rfl (by decide)).2.2.1 (by decide) (by decide)
  · exact ((isValidOperator_spec "~=").2
      [("operator", Value.str "~="), ("address", Value.str "0xabc"),
       ("network", Value.str "bsc"), ("value", Value.num 1)]
      rfl (by decide)).2.2.2 (by decide) (by decide) (by decide)

theorem validateConditions_of_type (c : Conditions) (t : String)
    (h : getString c "type" = some t) :
    validateConditions c =
      if t = "price" then validatePriceConditions c
      else if t = "balance" then validateBalanceConditions c
      else if t = "transaction" then validateTransactionConditions c
      else Except.error ("unknown alert type: " ++ t) := by
  simp [validateConditions, h]

/-- C5, as stated, fails: for the kind `price` and the conditions holding
exactly `token`, `operator` `>` and `value` 100, `isValidAlertType` accepts the
kind and `validateConditions` returns the error `alert type not specified`. -/
theorem validate_price_without_type_counterexample :
    isValidAlertType "price" = true ∧
    validateConditions
        [("token", Value.str "ETH"), ("operator", Value.str ">"), ("value", Value.num 100)]
      = Except.error "alert type not specified" ∧
    validateConditions
        [("token", Value.str "ETH"), ("operator", Value.str ">"), ("value", Value.num 100)]
      ≠ Except.ok () := by
  refine ⟨by decide, rfl, ?_⟩
  intro h
  have h2 : validateConditions
      [("token", Value.str "ETH"), ("operator", Value.str ">"), ("value", Value.num 100)]
      = Except.error "alert type not specified" := rfl
  rw [h2] at h
  cases h

/-- C5, amended. For the kind `price` and conditions that carry the entry
`type` = `price` next to `token`, `operator` `>` and `value` 100, the
validation step of `CreateAlert` returns no error: `isValidAlertType` accepts
the kind and `validateConditions` accepts the map. -/
theorem validate_price_with_type (c : Conditions)
    (htype : get c "type" = some (Value.str "price"))
    (htoken : hasKey c "token" = true)
    (hop : get c "operator" = some (Value.str ">"))
    (hvalue : get c "value" = some (Value.num 100)) :
    isValidAlertType "price" = true ∧ validateConditions c = Except.ok () := by
  refine ⟨by decide, ?_⟩
  rw [validateConditions_of_type c "price" ((getString_eq_some_iff c _ _).2 htype)]
  simp only [if_true]
  exact (validatePriceConditions_ok_iff c).2
    ⟨htoken, hasKey_of_get c _ _ hop, hasKey_of_get c _ _ hvalue, ">", hop, Or.inl rfl⟩

/-- Witness of the amended C5. -/
theorem validate_price_with_type_witness :
    isValidAlertType "price" = true ∧
    validateConditions
        [("type", Value.str "price"), ("token", Value.str "ETH"),
         ("operator", Value.str ">"), ("value", Value.num 100)] = Except.ok () :=
  validate_price_with_type
    [("type", Value.str "price"), ("token", Value.str "ETH"),
     ("operator", Value.str ">"), ("value", Value.num 100)]
    rfl (by decide) rfl rfl

/-- C6, as stated, fails: for the kind `balance` and the conditions holding
only the operator `~=`, the error of `validateConditions` is `alert type not
specified`, and the error of `validateBalanceConditions` is the missing-field
error of `address`; neither is the invalid-operator error. -/
theorem validate_balance_only_operator_counterexample :
    isValidAlertType "balance" = true ∧
    validateConditions [("operator", Value.str "~=")]
      = Except.error "alert type not specified" ∧
    validateBalanceConditions [("operator", Value.str "~=")]
      = Except.error "required field missing: address" ∧
    validateConditions [("operator", Value.str "~=")]
      ≠ Except.error "invalid operator: ~=" ∧
    validateBalanceConditions [("operator", Value.str "~=")]
      ≠ Except.error "invalid operator: ~=" := by
  refine ⟨by decide, rfl, rfl, ?_, ?_⟩
  · intro h
    have h2 : validateConditions [("operator", Value.str "~=")]
        = Except.error "alert type not specified" := rfl
    rw [h2, Except.error.injEq] at h
    revert h
    decide
  · intro h
    have h2 : validateBalanceConditions [("operator", Value.str "~=")]
        = Except.error "required field missing: address" := rfl
    rw [h2, Except.error.injEq] at h
    revert h
    decide

/-- C6, amended. Validating an alert of kind `balance` whose conditions hold
only the operator `~=` fails with `alert type not specified`, and with the
missing-field error of `address` once the map names its type; the
invalid-operator error is the error of a balance map that has `address`,
`network` and `value` next to the operator `~=`. -/
theorem validate_balance_bad_operator (c : Conditions)
    (htype : get c "type" = some (Value.str "balance"))
    (haddress : hasKey c "address" = true)
    (hnetwork : hasKey c "network" = true)
    (hvalue : hasKey c "value" = true)
    (hop : get c "operator" = some (Value.str "~=")) :
    validateConditions [("operator", Value.str "~=")]
      = Except.error "alert type not specified" ∧
    validateConditions [("type", Value.str "balance"), ("operator", Value.str "~=")]
      = Except.error "required field missing: address" ∧
    validateConditions c = Except.error "invalid operator: ~=" := by
  refine ⟨rfl, rfl, ?_⟩
  rw [validateConditions_of_type c "balance" ((getString_eq_some_iff c _ _).2 htype)]
  have hne : ¬ ("balance" = "price") := by decide
  simp only [hne, if_false, if_true]
  have hreq : checkRequired ["address", "network", "operator", "value"] c = Except.ok () := by
    simp [checkRequired, haddress, hnetwork, hasKey_of_get c _ _ hop, hvalue]
  have hbad : isValidOperator "~=" = false := by decide
  simp only [validateBalanceConditions, hreq, checkOperator_invalid c "~=" hop hbad]
  rfl

/-- Witness of the amended C6. -/
theorem validate_balance_bad_operator_witness :
    validateConditions
        [("type", Value.str "balance"), ("address", Value.str "0xabc"),
         ("network", Value.str "ethereum"), ("operator", Value.str "~="),
         ("value", Value.num 1)] = Except.error "invalid operator: ~=" :=
  (validate_balance_bad_operator
    [("type", Value.str "balance"), ("address", Value.str "0xabc"),
     ("network", Value.str "ethereum"), ("operator", Value.str "~="),
     ("value", Value.num 1)]
    rfl (by decide) (by decide) (by decide) rfl).2.2

theorem CreateAlert_ok_validated (env : Env) (db : DB) (userID alertType name : String)
    (c : Conditions) (alert : Alert) (db' : DB)
    (h : CreateAlert env db userID alertType name c = Except.ok (alert, db')) :
    isValidAlertType alertType = true ∧ validateConditions c = Except.ok () ∧
      alert.Type_ = alertType ∧ alert.IsActive = true ∧ db' = db ++ [alert] := by
  unfold CreateAlert at h
  split at h
  · cases h
  · split at h
    · cases h
    · rename_i hvalid
      split at h
      · cases h
      · rename_i u hcond
        split at h
        · cases h
        · split at h
          · cases h
          · simp only [Except.ok.injEq, Prod.mk.injEq] at h
            obtain ⟨ha, hdb⟩ := h
            subst ha
            refine ⟨by simpa using hvalid, hcond, rfl, rfl, hdb.symm⟩

/-- C7, evaluated on the code. `CreateAlert` with `alertType` `price` accepts
and stores conditions that name the type `transaction` and hold only `address`
and `network`: the stored alert has the kind `price`, none of `token`,
`operator`, `value` is a key of its conditions, and evaluating it fails with
`token not specified in conditions`. -/
theorem CreateAlert_kind_mismatch :
    CreateAlert sampleEnv [] "u1" "price" "ETH above 2000"
        [("type", Value.str "transaction"), ("address", Value.str "0xabc"),
         ("network", Value.str "ethereum")]
      = Except.ok
          ({ ID := 101, UserID := 1, Type_ := "price", Name := "ETH above 2000",
             Conditions :=
               "\x7b\"address\":\"0xabc\",\"network\":\"ethereum\",\"type\":\"transaction\"\x7d",
             IsActive := true },
           [{ ID := 101, UserID := 1, Type_ := "price", Name := "ETH above 2000",
              Conditions :=
                "\x7b\"address\":\"0xabc\",\"network\":\"ethereum\",\"type\":\"transaction\"\x7d",
              IsActive := true }]) ∧
    hasKey [("type", Value.str "transaction"), ("address", Value.str "0xabc"),
            ("network", Value.str "ethereum")] "token" = false ∧
    hasKey [("type", Value.str "transaction"), ("address", Value.str "0xabc"),
            ("network", Value.str "ethereum")] "operator" = false ∧
    hasKey [("type", Value.str "transaction"), ("address", Value.str "0xabc"),
            ("network", Value.str "ethereum")] "value" = false ∧
    checkAlert sampleEnv
        { ID := 101, UserID := 1, Type_ := "price", Name := "ETH above 2000",
          Conditions :=
            "\x7b\"address\":\"0xabc\",\"network\":\"ethereum\",\"type\":\"transaction\"\x7d",
          IsActive := true }
      = Except.error "token not specified in conditions" := by
  refine ⟨rfl, by decide, by decide, by decide, rfl⟩

/-! ## Evaluation -/

theorem shouldTrigger_iff_specHolds (op : String) (x t : ℚ) :
    shouldTrigger op x t = true ↔ specHolds op x t := by
  unfold shouldTrigger specHolds
  split_ifs with h1 h2 h3 h4 h5 h6
  · subst h1; simp
  · subst h2; simp
  · subst h3; simp
  · subst h4; simp
  · subst h5; simp
  · subst h6; simp
  · simp [h1, h2, h3, h4, h5, h6]

theorem checkPriceAlert_eq (alert : Alert) (c : Conditions) (token op : String) (t : ℚ)
    (htoken : get c "token" = some (Value.str token))
    (hop : get c "operator" = some (Value.str op))
    (hvalue : get c "value" = some (Value.num t)) :
    checkPriceAlert alert c =
      if shouldTrigger op 1000 t then
        Except.ok (some (triggerAlert alert
          [("token", Value.str token), ("current_price", Value.num 1000),
           ("target_price", Value.num t), ("operator", Value.str op)]))
      else Except.ok none := by
  simp [checkPriceAlert, getString, getFloat, htoken, hop, hvalue, currentPrice]

theorem checkBalanceAlert_eq (alert : Alert) (c : Conditions) (address network op : String)
    (t : ℚ)
    (haddress : get c "address" = some (Value.str address))
    (hnetwork : get c "network" = some (Value.str network))
    (hop : get c "operator" = some (Value.str op))
    (hvalue : get c "value" = some (Value.num t)) :
    checkBalanceAlert alert c =
      if shouldTrigger op (1 / 2) t then
        Except.ok (some (triggerAlert alert
          [("address", Value.str address), ("network", Value.str network),
           ("current_balance", Value.num (1 / 2)), ("target_balance", Value.num t),
           ("operator", Value.str op)]))
      else Except.ok none := by
  simp [checkBalanceAlert, getString, getFloat, haddress, hnetwork, hop, hvalue,
    currentBalance]

/-- C8. With the observed price 1000, a price rule with the operator `>` and
the value 500 triggers (the notification carries the observed 1000 and the
target 500), and a price rule with the operator `<` and the value 500 does not
trigger and returns no error. -/
theorem checkPriceAlert_example (alert : Alert) (c1 c2 : Conditions) (token1 token2 : String)
    (htoken1 : get c1 "token" = some (Value.str token1))
    (hop1 : get c1 "operator" = some (Value.str ">"))
    (hvalue1 : get c1 "value" = some (Value.num 500))
    (htoken2 : get c2 "token" = some (Value.str token2))
    (hop2 : get c2 "operator" = some (Value.str "<"))
    (hvalue2 : get c2 "value" = some (Value.num 500)) :
    checkPriceAlert alert c1 =
      Except.ok (some (triggerAlert alert
        [("token", Value.str token1), ("current_price", Value.num 1000),
         ("target_price", Value.num 500), ("operator", Value.str ">")])) ∧
    triggered (checkPriceAlert alert c1) = true ∧
    checkPriceAlert alert c2 = Except.ok none ∧
    triggered (checkPriceAlert alert c2) = false := by
  have hgt : shouldTrigger ">" 1000 500 = true :=
    (shouldTrigger_iff_specHolds _ _ _).2 (Or.inl ⟨rfl, by norm_num⟩)
  have hlt : shouldTrigger "<" 1000 500 = false := by
    cases h : shouldTrigger "<" 1000 500 with
    | false => rfl
    | true =>
      have := (shouldTrigger_iff_specHolds _ _ _).1 h
      simp [specHolds] at this
      norm_num at this
  have e1 := checkPriceAlert_eq alert c1 token1 ">" 500 htoken1 hop1 hvalue1
  have e2 := checkPriceAlert_eq alert c2 token2 "<" 500 htoken2 hop2 hvalue2
  rw [hgt] at e1
  rw [hlt] at e2
  simp only [if_true] at e1
  simp only [Bool.false_eq_true, if_false] at e2
  refine ⟨e1, ?_, e2, ?_⟩
  · rw [e1]; rfl
  · rw [e2]; rfl

/-- Witness of C8 on the rules of the token `ETH`. -/
theorem checkPriceAlert_example_witness :
    triggered (checkPriceAlert
      { ID := 101, UserID := 1, Type_ := "price", Name := "ETH", Conditions := "", IsActive := true }
      [("token", Value.str "ETH"), ("operator", Value.str ">"), ("value", Value.num 500)])
      = true ∧
    triggered (checkPriceAlert
      { ID := 101, UserID := 1, Type_ := "price", Name := "ETH", Conditions := "", IsActive := true }
      [("token", Value.str "ETH"), ("operator", Value.str "<"), ("value", Value.num 500)])
      = false :=
  have h := checkPriceAlert_example
    { ID := 101, UserID := 1, Type_ := "price", Name := "ETH", Conditions := "", IsActive := true }
    [("token", Value.str "ETH"), ("operator", Value.str ">"), ("value", Value.num 500)]
    [("token", Value.str "ETH"), ("operator", Value.str "<"), ("value", Value.num 500)]
    "ETH" "ETH" rfl rfl rfl rfl rfl rfl
  ⟨h.2.1, h.2.2.2⟩

/-- C9. For every target `t` and every operator string `op`, a price rule
(observed 1000) and a balance rule (observed 1/2) with that operator and target
return no error and trigger exactly when the exact comparison `observed op t`
holds; for a string outside the six operators neither rule triggers. -/
theorem check_compare_exact (alert : Alert) (cp cb : Conditions)
    (token address network op : String) (t : ℚ)
    (htoken : get cp "token" = some (Value.str token))
    (hpop : get cp "operator" = some (Value.str op))
    (hpvalue : get cp "value" = some (Value.num t))
    (haddress : get cb "address" = some (Value.str address))
    (hnetwork : get cb "network" = some (Value.str network))
    (hbop : get cb "operator" = some (Value.str op))
    (hbvalue : get cb "value" = some (Value.num t)) :
    (triggered (checkPriceAlert alert cp) = true ↔ specHolds op 1000 t) ∧
    (triggered (checkBalanceAlert alert cb) = true ↔ specHolds op (1 / 2) t) ∧
    (∃ r, checkPriceAlert alert cp = Except.ok r) ∧
    (∃ r, checkBalanceAlert alert cb = Except.ok r) ∧
    (isValidOperator op = false →
      checkPriceAlert alert cp = Except.ok none ∧
      checkBalanceAlert alert cb = Except.ok none) := by
  have ep := checkPriceAlert_eq alert cp token op t htoken hpop hpvalue
  have eb := checkBalanceAlert_eq alert cb address network op t haddress hnetwork hbop hbvalue
  refine ⟨?_, ?_, ?_, ?_, ?_⟩
  · rw [ep, ← shouldTrigger_iff_specHolds]
    cases shouldTrigger op 1000 t <;> simp [triggered]
  · rw [eb, ← shouldTrigger_iff_specHolds]
    cases shouldTrigger op (1 / 2) t <;> simp [triggered]
  · rw [ep]
    cases shouldTrigger op 1000 t <;> simp
  · rw [eb]
    cases shouldTrigger op (1 / 2) t <;> simp
  · intro hbad
    have hnot : ∀ x : ℚ, shouldTrigger op x t = false := by
      intro x
      cases h : shouldTrigger op x t with
      | false => rfl
      | true =>
        have hs := (shouldTrigger_iff_specHolds _ _ _).1 h
        have hv : isValidOperator op = true := by
          rw [isValidOperator_iff]
          rcases hs with h | h | h | h | h | h
          · exact Or.inl h.1
          · exact Or.inr (Or.inl h.1)
          · exact Or.inr (Or.inr (Or.inl h.1))
          · exact Or.inr (Or.inr (Or.inr (Or.inl h.1)))
          · exact Or.inr (Or.inr (Or.inr (Or.inr (Or.inl h.1))))
          · exact Or.inr (Or.inr (Or.inr (Or.inr (Or.inr h.1))))
        rw [hv] at hbad
        cases hbad
    rw [ep, eb, hnot, hnot]
    simp

/-- Witness of C9: with the operator `==` the price rule with target 1000
triggers and the balance rule with the same target does not. -/
theorem check_compare_exact_witness :
    triggered (checkPriceAlert
      { ID := 101, UserID := 1, Type_ := "price", Name := "ETH", Conditions := "", IsActive := true }
      [("token", Value.str "ETH"), ("operator", Value.str "=="), ("value", Value.num 1000)])
      = true ∧
    ¬ (triggered (checkBalanceAlert
      { ID := 101, UserID := 1, Type_ := "price", Name := "ETH", Conditions := "", IsActive := true }
      [("address", Value.str "0xabc"), ("network", Value.str "ethereum"),
       ("operator", Value.str "=="), ("value", Value.num 1000)]) = true) :=
  have h := check_compare_exact
    { ID := 101, UserID := 1, Type_ := "price", Name := "ETH", Conditions := "", IsActive := true }
    [("token", Value.str "ETH"), ("operator", Value.str "=="), ("value", Value.num 1000)]
    [("address", Value.str "0xabc"), ("network", Value.str "ethereum"),
     ("operator", Value.str "=="), ("value", Value.num 1000)]
    "ETH" "0xabc" "ethereum" "==" 1000 rfl rfl rfl rfl rfl rfl rfl
  ⟨h.1.2 (by simp [specHolds]), fun h2 => by
    have h3 := h.2.1.1 h2
    simp [specHolds] at h3
    norm_num at h3⟩

/-! ## The active flag -/

theorem checkEach_alerts (env : Env) (alerts : List Alert) :
    (checkEach env alerts).map (fun s => s.alert) = alerts := by
  induction alerts with
  | nil => rfl
  | cons a rest ih => simp [checkEach, ih]

theorem checkedAlerts_CheckAlerts (env : Env) (db : DB) :
    checkedAlerts (CheckAlerts env db) =
      match env.dbError DBOp.find with
      | some _ => []
      | none => db.filter (fun row => row.IsActive == true) := by
  unfold CheckAlerts checkedAlerts
  cases env.dbError DBOp.find with
  | some e => rfl
  | none => simp [checkEach_alerts]

theorem mem_checkedAlerts (env : Env) (db : DB) (a : Alert)
    (h : a ∈ checkedAlerts (CheckAlerts env db)) : a ∈ db ∧ a.IsActive = true := by
  rw [checkedAlerts_CheckAlerts] at h
  cases hq : env.dbError DBOp.find with
  | some e => simp [hq] at h
  | none =>
    simp only [hq, List.mem_filter] at h
    exact ⟨h.1, by simpa using h.2⟩

theorem GetAlert_ok (env : Env) (db : DB) (userID alertID : String) (found : Alert)
    (h : GetAlert env db userID alertID = Except.ok found) :
    ∃ userUUID alertUUID,
      env.parseUUID userID = Except.ok userUUID ∧
      env.parseUUID alertID = Except.ok alertUUID ∧
      env.dbError DBOp.first = none ∧
      db.find? (fun row => decide (row.ID = alertUUID ∧ row.UserID = userUUID)) = some found := by
  unfold GetAlert at h
  split at h
  · cases h
  · rename_i userUUID hu
    split at h
    · cases h
    · rename_i alertUUID ha
      split at h
      · cases h
      · rename_i hf
        split at h
        · cases h
        · rename_i row hrow
          cases h
          exact ⟨userUUID, alertUUID, hu, ha, hf, hrow⟩

theorem ToggleAlert_ok (env : Env) (db : DB) (userID alertID : String) (alert : Alert)
    (db' : DB) (h : ToggleAlert env db userID alertID = Except.ok (alert, db')) :
    ∃ found, GetAlert env db userID alertID = Except.ok found ∧
      env.dbError DBOp.save = none ∧
      alert = { found with IsActive := !found.IsActive } ∧ db' = save db alert := by
  unfold ToggleAlert at h
  split at h
  · cases h
  · rename_i found hfound
    split at h
    · cases h
    · rename_i hs
      simp only [Except.ok.injEq, Prod.mk.injEq] at h
      exact ⟨found, hfound, hs, h.1.symm, by rw [← h.2, ← h.1]⟩

theorem find_save_toggled (db : DB) (found : Alert) (alertUUID userUUID : UUID)
    (h : db.find? (fun row => decide (row.ID = alertUUID ∧ row.UserID = userUUID)) = some found) :
    (save db { found with IsActive := !found.IsActive }).find?
        (fun row => decide (row.ID = alertUUID ∧ row.UserID = userUUID))
      = some { found with IsActive := !found.IsActive } := by
  have hp := List.find?_some h
  simp only [decide_eq_true_eq] at hp
  induction db with
  | nil => simp at h
  | cons row rest ih =>
    simp only [save, List.map_cons]
    by_cases hid : row.ID = found.ID
    · simp [hid, List.find?_cons, hp.1, hp.2]
    · rw [List.find?_cons] at h
      have hrow : ¬ (row.ID = alertUUID ∧ row.UserID = userUUID) := by
        intro hr
        exact hid (hr.1.trans hp.1.symm)
      simp only [hrow, decide_False] at h
      simp only [hid, if_false, List.find?_cons, hrow, decide_False]
      exact ih h

/-- C10. A run of `CheckAlerts` invokes `checkAlert` only on stored alerts
whose `IsActive` flag is true.  A successful `ToggleAlert` returns and stores
the alert it found with the flag negated and `ID`, `UserID`, `Type`, `Name`
and `Conditions` as they were, leaves every row with another identifier as it
was, keeps a deactivated alert out of the next run of `CheckAlerts`, and a
second `ToggleAlert` gives the alert back as it was found. -/
theorem toggle_and_check_active (env : Env) (db : DB) (userID alertID : String)
    (alert : Alert) (db' : DB)
    (h : ToggleAlert env db userID alertID = Except.ok (alert, db')) :
    (∀ a ∈ checkedAlerts (CheckAlerts env db), a ∈ db ∧ a.IsActive = true) ∧
    (∀ a ∈ checkedAlerts (CheckAlerts env db'), a ∈ db' ∧ a.IsActive = true) ∧
    (∃ found ∈ db,
      alert.IsActive = (!found.IsActive) ∧ alert.ID = found.ID ∧
      alert.UserID = found.UserID ∧ alert.Type_ = found.Type_ ∧
      alert.Name = found.Name ∧ alert.Conditions = found.Conditions ∧
      alert ∈ db' ∧
      (∃ db'', ToggleAlert env db' userID alertID = Except.ok (found, db''))) ∧
    db'.length = db.length ∧
    (∀ (i : Nat) (row : Alert), db[i]? = some row →
      db'[i]? = some (if row.ID = alert.ID then alert else row)) ∧
    (alert.IsActive = false → alert ∉ checkedAlerts (CheckAlerts env db')) := by
  obtain ⟨found, hget, hsave, halert, hdb'⟩ := ToggleAlert_ok env db userID alertID alert db' h
  obtain ⟨userUUID, alertUUID, hu, ha, hfirst, hfind⟩ := GetAlert_ok env db userID alertID found hget
  have hmem : found ∈ db := List.mem_of_find?_eq_some hfind
  refine ⟨fun a => mem_checkedAlerts env db a, fun a => mem_checkedAlerts env db' a,
    ⟨found, hmem, ?_⟩, ?_, ?_, ?_⟩
  · subst halert
    refine ⟨rfl, rfl, rfl, rfl, rfl, rfl, ?_, ?_⟩
    · rw [hdb']
      simp only [save, List.mem_map]
      exact ⟨found, hmem, by simp⟩
    · have hfind' := find_save_toggled db found alertUUID userUUID hfind
      rw [← hdb'] at hfind'
      have hget' : GetAlert env db' userID alertID
          = Except.ok { found with IsActive := !found.IsActive } := by
        simp only [GetAlert, hu, ha, hfirst, hfind']
      refine ⟨save db' found, ?_⟩
      simp only [ToggleAlert, hget', hsave, Bool.not_not]
  · rw [hdb']
    simp [save]
  · intro i row hrow
    rw [hdb']
    simp [save, hrow]
  · intro hoff hin
    have := (mem_checkedAlerts env db' alert hin).2
    rw [hoff] at this
    cases this

/-- Witness of C10: toggling the one stored alert, active, of the user `u1`. -/
theorem toggle_and_check_active_witness :
    ToggleAlert sampleEnv
        [{ ID := 101, UserID := 1, Type_ := "transaction", Name := "incoming",
           Conditions :=
             "\x7b\"address\":\"0xabc\",\"network\":\"ethereum\",\"type\":\"transaction\"\x7d",
           IsActive := true }] "u1" "a1"
      = Except.ok
          ({ ID := 101, UserID := 1, Type_ := "transaction", Name := "incoming",
             Conditions :=
               "\x7b\"address\":\"0xabc\",\"network\":\"ethereum\",\"type\":\"transaction\"\x7d",
             IsActive := false },
           [{ ID := 101, UserID := 1, Type_ := "transaction", Name := "incoming",
              Conditions :=
                "\x7b\"address\":\"0xabc\",\"network\":\"ethereum\",\"type\":\"transaction\"\x7d",
              IsActive := false }]) ∧
    checkedAlerts (CheckAlerts sampleEnv
        [{ ID := 101, UserID := 1, Type_ := "transaction", Name := "incoming",
           Conditions :=
             "\x7b\"address\":\"0xabc\",\"network\":\"ethereum\",\"type\":\"transaction\"\x7d",
           IsActive := false }]) = [] ∧
    ({ ID := 101, UserID := 1, Type_ := "transaction", Name := "incoming",
       Conditions :=
         "\x7b\"address\":\"0xabc\",\"network\":\"ethereum\",\"type\":\"transaction\"\x7d",
       IsActive := false } : Alert) ∉
      checkedAlerts (CheckAlerts sampleEnv
        [{ ID := 101, UserID := 1, Type_ := "transaction", Name := "incoming",
           Conditions :=
             "\x7b\"address\":\"0xabc\",\"network\":\"ethereum\",\"type\":\"transaction\"\x7d",
           IsActive := false }]) :=
  ⟨rfl, rfl,
    (toggle_and_check_active sampleEnv
      [{ ID := 101, UserID := 1, Type_ := "transaction", Name := "incoming",
         Conditions :=
           "\x7b\"address\":\"0xabc\",\"network\":\"ethereum\",\"type\":\"transaction\"\x7d",
         IsActive := true }] "u1" "a1" _ _ rfl).2.2.2.2.2 rfl⟩

end AlertService

/-!
# Facts about the valuation and the fetches
-/

namespace Web3Service

/-! ## Rounding -/

theorem bitLenAux_zero (fuel : Nat) : bitLenAux fuel 0 = 0 := by
  cases fuel <;> simp [bitLenAux]

theorem bitLenAux_spec : ∀ (fuel n : Nat), n ≤ fuel → n ≠ 0 →
    2 ^ (bitLenAux fuel n - 1) ≤ n ∧ n < 2 ^ bitLenAux fuel n := by
  intro fuel
  induction fuel with
  | zero => intro n h h0; omega
  | succ fuel ih =>
    intro n hle h0
    simp only [bitLenAux, h0, if_false, Nat.add_sub_cancel]
    by_cases h2 : n / 2 = 0
    · have h1 : n = 1 := by omega
      subst h1
      simp [bitLenAux_zero]
    · obtain ⟨lo, hi⟩ := ih (n / 2) (by omega) h2
      have hb : 1 ≤ bitLenAux fuel (n / 2) := by
        by_contra hc
        have : bitLenAux fuel (n / 2) = 0 := by omega
        rw [this] at hi
        omega
      have hp : 2 ^ bitLenAux fuel (n / 2) = 2 * 2 ^ (bitLenAux fuel (n / 2) - 1) := by
        conv_lhs => rw [show bitLenAux fuel (n / 2) = (bitLenAux fuel (n / 2) - 1) + 1 by omega]
        rw [pow_succ]; ring
      constructor
      · omega
      · rw [pow_succ]; omega

theorem bitLen_spec (n : Nat) (h : n ≠ 0) :
    2 ^ (bitLen n - 1) ≤ n ∧ n < 2 ^ bitLen n :=
  bitLenAux_spec n n (Nat.le_refl n) h

theorem bitLen_pos (n : Nat) (h : n ≠ 0) : 1 ≤ bitLen n := by
  by_contra hc
  have h0 : bitLen n = 0 := by omega
  have := (bitLen_spec n h).2
  rw [h0] at this
  omega

theorem reaches_iff (num den : Nat) (hd : 0 < den) (k : Int) :
    reaches num den k = true ↔ (2 : ℚ) ^ k ≤ (num : ℚ) / den := by
  have hd' : (0 : ℚ) < den := by exact_mod_cast hd
  cases k with
  | ofNat j =>
    simp only [reaches, decide_eq_true_eq, Int.ofNat_eq_coe, zpow_natCast]
    rw [le_div_iff₀ hd']
    constructor
    · intro h
      have : ((den * 2 ^ j : Nat) : ℚ) ≤ num := by exact_mod_cast h
      push_cast at this
      linarith
    · intro h
      have : ((den * 2 ^ j : Nat) : ℚ) ≤ num := by push_cast; linarith
      exact_mod_cast this
  | negSucc j =>
    simp only [reaches, decide_eq_true_eq, zpow_negSucc]
    have hp : (0 : ℚ) < 2 ^ (j + 1) := by positivity
    rw [le_div_iff₀ hd', inv_mul_le_iff₀ hp]
    constructor
    · intro h
      have : ((den : Nat) : ℚ) ≤ ((num * 2 ^ (j + 1) : Nat) : ℚ) := by exact_mod_cast h
      push_cast at this
      linarith
    · intro h
      have : ((den : Nat) : ℚ) ≤ ((num * 2 ^ (j + 1) : Nat) : ℚ) := by push_cast; linarith
      exact_mod_cast this

theorem floorLog2_spec (num den : Nat) (hn : 0 < num) (hd : 0 < den) :
    (2 : ℚ) ^ floorLog2 num den ≤ (num : ℚ) / den ∧
      (num : ℚ) / den < (2 : ℚ) ^ (floorLog2 num den + 1) := by
  have hd' : (0 : ℚ) < den := by exact_mod_cast hd
  have hn' : (0 : ℚ) < num := by exact_mod_cast hn
  obtain ⟨nlo, nhi⟩ := bitLen_spec num (by omega)
  obtain ⟨dlo, dhi⟩ := bitLen_spec den (by omega)
  have hbn := bitLen_pos num (by omega)
  have hbd := bitLen_pos den (by omega)
  have nlo' : (2 : ℚ) ^ ((bitLen num : Int) - 1) ≤ num := by
    have : ((2 ^ (bitLen num - 1) : Nat) : ℚ) ≤ num := by exact_mod_cast nlo
    rw [show (bitLen num : Int) - 1 = ((bitLen num - 1 : Nat) : Int) by omega, zpow_natCast]
    exact_mod_cast this
  have nhi' : (num : ℚ) < (2 : ℚ) ^ (bitLen num : Int) := by
    rw [zpow_natCast]; exact_mod_cast nhi
  have dlo' : (2 : ℚ) ^ ((bitLen den : Int) - 1) ≤ den := by
    have : ((2 ^ (bitLen den - 1) : Nat) : ℚ) ≤ den := by exact_mod_cast dlo
    rw [show (bitLen den : Int) - 1 = ((bitLen den - 1 : Nat) : Int) by omega, zpow_natCast]
    exact_mod_cast this
  have dhi' : (den : ℚ) < (2 : ℚ) ^ (bitLen den : Int) := by
    rw [zpow_natCast]; exact_mod_cast dhi
  have h2 : (2 : ℚ) ≠ 0 := by norm_num
  -- bounds on the quotient
  have up : (num : ℚ) / den < (2 : ℚ) ^ ((bitLen num : Int) - (bitLen den : Int) + 1) := by
    rw [div_lt_iff₀ hd']
    have e : (2 : ℚ) ^ ((bitLen num : Int) - (bitLen den : Int) + 1)
        = (2 : ℚ) ^ (bitLen num : Int) * ((2 : ℚ) ^ ((bitLen den : Int) - 1))⁻¹ := by
      rw [← zpow_neg, ← zpow_add₀ h2]; congr 1; ring
    rw [e]
    have hpos : (0 : ℚ) < (2 : ℚ) ^ ((bitLen den : Int) - 1) := by positivity
    calc (num : ℚ) < (2 : ℚ) ^ (bitLen num : Int) := nhi'
      _ = (2 : ℚ) ^ (bitLen num : Int) * ((2 : ℚ) ^ ((bitLen den : Int) - 1))⁻¹
            * (2 : ℚ) ^ ((bitLen den : Int) - 1) := by field_simp
      _ ≤ (2 : ℚ) ^ (bitLen num : Int) * ((2 : ℚ) ^ ((bitLen den : Int) - 1))⁻¹ * den := by
            apply mul_le_mul_of_nonneg_left dlo'
            positivity
  have low : (2 : ℚ) ^ ((bitLen num : Int) - (bitLen den : Int) - 1) ≤ (num : ℚ) / den := by
    rw [le_div_iff₀ hd']
    have e : (2 : ℚ) ^ ((bitLen num : Int) - (bitLen den : Int) - 1)
        = (2 : ℚ) ^ ((bitLen num : Int) - 1) * ((2 : ℚ) ^ (bitLen den : Int))⁻¹ := by
      rw [← zpow_neg, ← zpow_add₀ h2]; congr 1; ring
    rw [e]
    have hpos : (0 : ℚ) < (2 : ℚ) ^ (bitLen den : Int) := by positivity
    calc (2 : ℚ) ^ ((bitLen num : Int) - 1) * ((2 : ℚ) ^ (bitLen den : Int))⁻¹ * den
        ≤ (2 : ℚ) ^ ((bitLen num : Int) - 1) * ((2 : ℚ) ^ (bitLen den : Int))⁻¹
            * (2 : ℚ) ^ (bitLen den : Int) := by
            apply mul_le_mul_of_nonneg_left (le_of_lt dhi')
            positivity
      _ = (2 : ℚ) ^ ((bitLen num : Int) - 1) := by field_simp
      _ ≤ num := nlo'
  unfold floorLog2
  simp only
  by_cases hr : reaches num den ((bitLen num : Int) - (bitLen den : Int)) = true
  · simp only [hr, if_true]
    exact ⟨(reaches_iff num den hd _).1 hr, up⟩
  · have := (reaches_iff num den hd ((bitLen num : Int) - (bitLen den : Int))).not.1 hr
    have hr' : reaches num den ((bitLen num : Int) - (bitLen den : Int)) = false := by
      simpa using hr
    simp only [hr', Bool.false_eq_true, if_false]
    refine ⟨low, ?_⟩
    rw [sub_add_cancel]
    exact lt_of_not_le this


theorem roundHalfEven_error (num den : Nat) (hd : 0 < den) :
    |((roundHalfEven num den : Nat) : ℚ) - (num : ℚ) / den| ≤ 1 / 2 := by
  have hd' : (0 : ℚ) < den := by exact_mod_cast hd
  have hdm := Nat.div_add_mod num den
  have hmod := Nat.mod_lt num hd
  have hq : (num : ℚ) / den = (num / den : Nat) + ((num % den : Nat) : ℚ) / den := by
    have : ((den * (num / den) + num % den : Nat) : ℚ) = num := by exact_mod_cast hdm
    push_cast at this
    field_simp
    linarith
  have hr0 : (0 : ℚ) ≤ ((num % den : Nat) : ℚ) / den := by positivity
  have hr1 : ((num % den : Nat) : ℚ) / den < 1 := by
    rw [div_lt_one hd']; exact_mod_cast hmod
  unfold roundHalfEven
  simp only
  rw [hq]
  split_ifs with h1 h2 h3
  · have : ((num % den : Nat) : ℚ) / den ≤ 1 / 2 := by
      rw [div_le_iff₀ hd']
      have : ((2 * (num % den) : Nat) : ℚ) < den := by exact_mod_cast h1
      push_cast at this
      linarith
    rw [abs_le]; constructor <;> linarith
  · have : 1 / 2 ≤ ((num % den : Nat) : ℚ) / den := by
      rw [le_div_iff₀ hd']
      have : ((den : Nat) : ℚ) < ((2 * (num % den) : Nat) : ℚ) := by exact_mod_cast h2
      push_cast at this
      linarith
    push_cast
    rw [abs_le]; constructor <;> linarith
  · have he : 2 * (num % den) = den := by omega
    have : ((num % den : Nat) : ℚ) / den = 1 / 2 := by
      rw [div_eq_iff (ne_of_gt hd')]
      have : ((2 * (num % den) : Nat) : ℚ) = den := by exact_mod_cast he
      push_cast at this
      linarith
    rw [abs_le]; constructor <;> linarith
  · have he : 2 * (num % den) = den := by omega
    have : ((num % den : Nat) : ℚ) / den = 1 / 2 := by
      rw [div_eq_iff (ne_of_gt hd')]
      have : ((2 * (num % den) : Nat) : ℚ) = den := by exact_mod_cast he
      push_cast at this
      linarith
    push_cast
    rw [abs_le]; constructor <;> linarith

theorem roundHalfEven_exact (num den : Nat) (hd : 0 < den) (h : den ∣ num) :
    ((roundHalfEven num den : Nat) : ℚ) = (num : ℚ) / den := by
  have hmod : num % den = 0 := Nat.mod_eq_zero_of_dvd h
  have hq : roundHalfEven num den = num / den := by
    unfold roundHalfEven
    simp [hmod, hd]
  rw [hq, Nat.cast_div h (by exact_mod_cast (ne_of_gt hd))]

/-- The number rounded by `roundAt`. -/
theorem roundAt_error (num den : Nat) (hd : 0 < den) (E : Int) :
    |((roundAt num den E : Nat) : ℚ) - (num : ℚ) / den / (2 : ℚ) ^ E| ≤ 1 / 2 := by
  cases E with
  | ofNat k =>
    have h := roundHalfEven_error num (den * 2 ^ k) (by positivity)
    simp only [roundAt, Int.ofNat_eq_coe, zpow_natCast]
    push_cast at h
    rw [div_div]
    exact h
  | negSucc k =>
    have h := roundHalfEven_error (num * 2 ^ (k + 1)) den hd
    simp only [roundAt, zpow_negSucc]
    push_cast at h
    rw [div_inv_eq_mul, div_mul_eq_mul_div]
    exact h

theorem round_error (prec num den : Nat) (e : Int) (hn : 0 < num) (hd : 0 < den) :
    |(round prec num den e).val - (num : ℚ) / den * (2 : ℚ) ^ e| * (2 : ℚ) ^ prec
      ≤ (num : ℚ) / den * (2 : ℚ) ^ e := by
  obtain ⟨lo, -⟩ := floorLog2_spec num den hn hd
  have h2 : (2 : ℚ) ≠ 0 := by norm_num
  have hne : num ≠ 0 := by omega
  simp only [round, hne, if_false, BigFloat.val]
  set L := floorLog2 num den with hL
  set E : Int := L - ((prec : Int) - 1) with hE
  have herr := roundAt_error num den hd E
  set m : ℚ := ((roundAt num den E : Nat) : ℚ) with hm
  set x : ℚ := (num : ℚ) / den with hx
  have hpE : (0 : ℚ) < (2 : ℚ) ^ E := by positivity
  have hpe : (0 : ℚ) < (2 : ℚ) ^ e := by positivity
  have hpp : (0 : ℚ) < (2 : ℚ) ^ prec := by positivity
  have e1 : m * (2 : ℚ) ^ (E + e) - x * (2 : ℚ) ^ e = (m - x / (2 : ℚ) ^ E) * ((2 : ℚ) ^ E * (2 : ℚ) ^ e) := by
    rw [zpow_add₀ h2]; field_simp; ring
  rw [e1, abs_mul, abs_of_pos (mul_pos hpE hpe)]
  have e2 : (2 : ℚ) ^ E * (2 : ℚ) ^ prec = 2 * (2 : ℚ) ^ L := by
    rw [← zpow_natCast, ← zpow_add₀ h2, hE]
    rw [show L - ((prec : Int) - 1) + (prec : Int) = L + 1 by ring, zpow_add₀ h2]
    ring
  calc |m - x / (2 : ℚ) ^ E| * ((2 : ℚ) ^ E * (2 : ℚ) ^ e) * (2 : ℚ) ^ prec
      = |m - x / (2 : ℚ) ^ E| * ((2 : ℚ) ^ E * (2 : ℚ) ^ prec) * (2 : ℚ) ^ e := by ring
    _ = |m - x / (2 : ℚ) ^ E| * (2 * (2 : ℚ) ^ L) * (2 : ℚ) ^ e := by rw [e2]
    _ ≤ 1 / 2 * (2 * (2 : ℚ) ^ L) * (2 : ℚ) ^ e := by
        apply mul_le_mul_of_nonneg_right _ (le_of_lt hpe)
        apply mul_le_mul_of_nonneg_right herr
        positivity
    _ = (2 : ℚ) ^ L * (2 : ℚ) ^ e := by ring
    _ ≤ x * (2 : ℚ) ^ e := mul_le_mul_of_nonneg_right lo (le_of_lt hpe)


theorem round_error_zero (prec den : Nat) (e : Int) :
    (round prec 0 den e).val = 0 := by
  simp [round, BigFloat.val]

theorem round_error_le (prec num den : Nat) (e : Int) (hd : 0 < den) :
    |(round prec num den e).val - (num : ℚ) / den * (2 : ℚ) ^ e| * (2 : ℚ) ^ prec
      ≤ (num : ℚ) / den * (2 : ℚ) ^ e := by
  rcases Nat.eq_zero_or_pos num with h0 | hpos
  · subst h0
    simp [round_error_zero]
  · exact round_error prec num den e hpos hd

theorem roundAt_exact (num den : Nat) (hd : 0 < den) (hdiv : den ∣ num) (E : Int)
    (hE : E ≤ 0) :
    ((roundAt num den E : Nat) : ℚ) = (num : ℚ) / den / (2 : ℚ) ^ E := by
  cases E with
  | ofNat k =>
    have hk : k = 0 := by
      have : (k : Int) ≤ 0 := hE
      omega
    subst hk
    simp only [roundAt, pow_zero, mul_one, Int.ofNat_eq_coe, Nat.cast_zero, zpow_zero, div_one]
    exact roundHalfEven_exact num den hd hdiv
  | negSucc k =>
    have h := roundHalfEven_exact (num * 2 ^ (k + 1)) den hd (Dvd.dvd.mul_right hdiv _)
    simp only [roundAt, zpow_negSucc]
    rw [h]
    push_cast
    rw [div_inv_eq_mul, div_mul_eq_mul_div]

theorem round_exact (prec num den : Nat) (e : Int) (hn : 0 < num) (hd : 0 < den)
    (hdiv : den ∣ num) (hfit : num / den < 2 ^ prec) :
    (round prec num den e).val = (num : ℚ) / den * (2 : ℚ) ^ e := by
  obtain ⟨lo, -⟩ := floorLog2_spec num den hn hd
  have h2 : (2 : ℚ) ≠ 0 := by norm_num
  have hne : num ≠ 0 := by omega
  have hx : (num : ℚ) / den = ((num / den : Nat) : ℚ) :=
    (Nat.cast_div hdiv (by exact_mod_cast (ne_of_gt hd))).symm
  have hlt : (num : ℚ) / den < (2 : ℚ) ^ (prec : Int) := by
    rw [hx, zpow_natCast]
    exact_mod_cast hfit
  have hL : floorLog2 num den < (prec : Int) := by
    by_contra hc
    have hle : (prec : Int) ≤ floorLog2 num den := not_lt.1 hc
    have := zpow_le_zpow_right₀ (by norm_num : (1 : ℚ) ≤ 2) hle
    linarith
  have hE : floorLog2 num den - ((prec : Int) - 1) ≤ 0 := by omega
  simp only [round, hne, if_false, BigFloat.val]
  rw [roundAt_exact num den hd hdiv _ hE, zpow_add₀ h2]
  have hp : (0 : ℚ) < (2 : ℚ) ^ (floorLog2 num den - ((prec : Int) - 1)) := by positivity
  field_simp
  ring

/-! ## Scaling -/

set_option maxRecDepth 100000 in
set_option exponentiation.threshold 1000 in
theorem divisor_spec :
    ∀ d < 86, 0 < (divisor d).mant ∧ 0 ≤ (divisor d).exp ∧
      (divisor d).mant * 2 ^ (divisor d).exp.toNat = 10 ^ d := by
  decide

theorem divisor_val (d : Nat) (hd : d < 86) : (divisor d).val = (10 : ℚ) ^ d := by
  obtain ⟨-, hexp, hval⟩ := divisor_spec d hd
  have hcast : (((divisor d).mant * 2 ^ (divisor d).exp.toNat : Nat) : ℚ) = ((10 ^ d : Nat) : ℚ) := by
    rw [hval]
  push_cast at hcast
  rw [BigFloat.val, ← hcast]
  congr 1
  rw [← zpow_natCast, Int.toNat_of_nonneg hexp]

theorem amountDiv_eq (a d : Nat) :
    amountDiv a d =
      round (max (max (bitLen a) 64) (divisor d).prec) a (divisor d).mant
        (0 - (divisor d).exp) := by
  simp [amountDiv, Quo, SetInt]

theorem amountDiv_target (a d : Nat) (hd : d < 86) :
    (a : ℚ) / (divisor d).mant * (2 : ℚ) ^ (0 - (divisor d).exp) = (a : ℚ) / (10 : ℚ) ^ d := by
  have h := divisor_val d hd
  obtain ⟨hm, -, -⟩ := divisor_spec d hd
  have hm' : ((divisor d).mant : ℚ) ≠ 0 := by exact_mod_cast (ne_of_gt hm)
  have hp : (2 : ℚ) ^ (divisor d).exp ≠ 0 := by positivity
  rw [← h, BigFloat.val, zero_sub, zpow_neg]
  field_simp

theorem amountDiv_error (a d : Nat) (hd : d < 86) :
    |(amountDiv a d).val - (a : ℚ) / (10 : ℚ) ^ d|
        * (2 : ℚ) ^ (max (max (bitLen a) 64) (divisor d).prec)
      ≤ (a : ℚ) / (10 : ℚ) ^ d := by
  obtain ⟨hm, -, -⟩ := divisor_spec d hd
  have h := round_error_le (max (max (bitLen a) 64) (divisor d).prec) a (divisor d).mant
    (0 - (divisor d).exp) hm
  rw [amountDiv_target a d hd] at h
  rw [amountDiv_eq]
  exact h

theorem amountDiv_exact (a d : Nat) (ha : 0 < a) (hd : d < 86) (hdiv : 10 ^ d ∣ a) :
    (amountDiv a d).val = (a : ℚ) / (10 : ℚ) ^ d := by
  obtain ⟨hm, -, hval⟩ := divisor_spec d hd
  have hmdiv : (divisor d).mant ∣ a :=
    Dvd.dvd.trans (Dvd.intro _ hval) hdiv
  have hfit : a / (divisor d).mant < 2 ^ (max (max (bitLen a) 64) (divisor d).prec) := by
    have h1 : a / (divisor d).mant ≤ a := Nat.div_le_self _ _
    have h2 : a < 2 ^ bitLen a := (bitLen_spec a (by omega)).2
    have h3 : 2 ^ bitLen a ≤ 2 ^ (max (max (bitLen a) 64) (divisor d).prec) :=
      Nat.pow_le_pow_right (by norm_num) (le_trans (le_max_left _ _) (le_max_left _ _))
    omega
  rw [amountDiv_eq, round_exact _ a (divisor d).mant _ ha hm hmdiv hfit,
    amountDiv_target a d hd]

theorem amountDiv_prec_ge (a d : Nat) :
    64 ≤ max (max (bitLen a) 64) (divisor d).prec ∧
      bitLen a ≤ max (max (bitLen a) 64) (divisor d).prec :=
  ⟨le_trans (le_max_right _ _) (le_max_left _ _), le_trans (le_max_left _ _) (le_max_left _ _)⟩

/-- C11, as stated, fails: for the raw amount 1 and 18 decimals the scaled
quantity is `10633823966279326983 * 2 ^ (-123)`, and its product with
`10 ^ 18` is not 1. -/
theorem scale_exact_counterexample :
    amountDiv 1 18 = { prec := 64, mant := 10633823966279326983, exp := -123 } ∧
    (amountDiv 1 18).val * (10 : ℚ) ^ 18 ≠ 1 := by
  have h : amountDiv 1 18 = { prec := 64, mant := 10633823966279326983, exp := -123 } := by
    decide
  refine ⟨h, ?_⟩
  rw [h, BigFloat.val]
  norm_num

/-- C11, amended. For a raw amount `a > 0` and decimals `d < 86` (the
decimals of the table and the default 18 are such), the scaled quantity `q` is
`a / 10 ^ d` rounded to a binary mantissa of at least 64 bits and at least the
bits of `a`: `q * 10 ^ d` is within `a / 2 ^ 64` and within less than one raw
unit of `a`, and it is `a` when `a` is a multiple of `10 ^ d`. -/
theorem amountDiv_rounding (a d : Nat) (ha : 0 < a) (hd : d < 86) :
    |(amountDiv a d).val * (10 : ℚ) ^ d - a| * (2 : ℚ) ^ 64 ≤ a ∧
    |(amountDiv a d).val * (10 : ℚ) ^ d - a| < 1 ∧
    (10 ^ d ∣ a → (amountDiv a d).val * (10 : ℚ) ^ d = a) := by
  have hten : (0 : ℚ) < (10 : ℚ) ^ d := by positivity
  have herr := amountDiv_error a d hd
  obtain ⟨h64, hbits⟩ := amountDiv_prec_ge a d
  set p := max (max (bitLen a) 64) (divisor d).prec with hp
  have habs : |(amountDiv a d).val * (10 : ℚ) ^ d - a|
      = |(amountDiv a d).val - (a : ℚ) / (10 : ℚ) ^ d| * (10 : ℚ) ^ d := by
    rw [← abs_of_pos hten, ← abs_mul, abs_of_pos hten]
    congr 1
    field_simp
  have hscaled : |(amountDiv a d).val * (10 : ℚ) ^ d - a| * (2 : ℚ) ^ p ≤ a := by
    rw [habs]
    calc |(amountDiv a d).val - (a : ℚ) / (10 : ℚ) ^ d| * (10 : ℚ) ^ d * (2 : ℚ) ^ p
        = |(amountDiv a d).val - (a : ℚ) / (10 : ℚ) ^ d| * (2 : ℚ) ^ p * (10 : ℚ) ^ d := by ring
      _ ≤ (a : ℚ) / (10 : ℚ) ^ d * (10 : ℚ) ^ d :=
          mul_le_mul_of_nonneg_right herr (le_of_lt hten)
      _ = a := by field_simp
  have hnn : (0 : ℚ) ≤ |(amountDiv a d).val * (10 : ℚ) ^ d - a| := abs_nonneg _
  have hpow64 : (2 : ℚ) ^ 64 ≤ (2 : ℚ) ^ p :=
    pow_le_pow_right₀ (by norm_num) h64
  have hapow : (a : ℚ) < (2 : ℚ) ^ p := by
    have h1 : a < 2 ^ bitLen a := (bitLen_spec a (by omega)).2
    have h2 : (2 : ℚ) ^ bitLen a ≤ (2 : ℚ) ^ p := pow_le_pow_right₀ (by norm_num) hbits
    have h3 : (a : ℚ) < (2 : ℚ) ^ bitLen a := by exact_mod_cast h1
    linarith
  refine ⟨?_, ?_, ?_⟩
  · calc |(amountDiv a d).val * (10 : ℚ) ^ d - a| * (2 : ℚ) ^ 64
        ≤ |(amountDiv a d).val * (10 : ℚ) ^ d - a| * (2 : ℚ) ^ p :=
          mul_le_mul_of_nonneg_left hpow64 hnn
      _ ≤ a := hscaled
  · by_contra hc
    have h1 : (1 : ℚ) ≤ |(amountDiv a d).val * (10 : ℚ) ^ d - a| := not_lt.1 hc
    have hpp : (0 : ℚ) < (2 : ℚ) ^ p := by positivity
    have : (2 : ℚ) ^ p ≤ |(amountDiv a d).val * (10 : ℚ) ^ d - a| * (2 : ℚ) ^ p := by
      calc (2 : ℚ) ^ p = 1 * (2 : ℚ) ^ p := by ring
        _ ≤ |(amountDiv a d).val * (10 : ℚ) ^ d - a| * (2 : ℚ) ^ p :=
            mul_le_mul_of_nonneg_right h1 (le_of_lt hpp)
    linarith
  · intro hdiv
    rw [amountDiv_exact a d ha hd hdiv]
    field_simp

/-- Witness of the amended C11: two whole tokens of 18 decimals scale to
exactly 2. -/
theorem amountDiv_rounding_witness :
    (amountDiv (2 * 10 ^ 18) 18).val * (10 : ℚ) ^ 18 = ((2 * 10 ^ 18 : Nat) : ℚ) :=
  (amountDiv_rounding (2 * 10 ^ 18) 18 (by norm_num) (by norm_num)).2.2
    (Dvd.intro_left 2 rfl)

/-! ## Valuation -/

theorem three_roundings (E x p q P v : ℚ) (hE : 4 ≤ E) (hx : 0 ≤ x) (hp : 0 ≤ p)
    (h1 : |q - x| * E ≤ x) (h2 : |P - p| * E ≤ p) (h3 : |v - q * P| * E ≤ q * P) :
    |v - x * p| * E ≤ 4 * (x * p) := by
  have hE0 : 0 < E := by linarith
  have hE2 : 0 ≤ E * E - 3 * E - 1 := by
    have := mul_nonneg (sub_nonneg.2 hE) (by linarith : (0 : ℚ) ≤ E + 1)
    linarith
  have hq1 := (abs_le.1 (le_refl |q - x|))
  have hP1 := (abs_le.1 (le_refl |P - p|))
  have hqE : q * E ≤ x * (E + 1) := by
    have := mul_le_mul_of_nonneg_right hq1.2 (le_of_lt hE0)
    linarith
  have hPE : P * E ≤ p * (E + 1) := by
    have := mul_le_mul_of_nonneg_right hP1.2 (le_of_lt hE0)
    linarith
  have hq0 : 0 ≤ q := by
    have hxE := mul_nonneg hx (by linarith : (0 : ℚ) ≤ E - 1)
    have : |q - x| * E ≤ x * E := by linarith
    have : |q - x| ≤ x := le_of_mul_le_mul_right this hE0
    linarith [hq1.1]
  have hP0 : 0 ≤ P := by
    have hpE := mul_nonneg hp (by linarith : (0 : ℚ) ≤ E - 1)
    have : |P - p| * E ≤ p * E := by linarith
    have : |P - p| ≤ p := le_of_mul_le_mul_right this hE0
    linarith [hP1.1]
  have hxp : 0 ≤ x * p := mul_nonneg hx hp
  have hqE0 : 0 ≤ q * E := mul_nonneg hq0 (le_of_lt hE0)
  have hPE0 : 0 ≤ P * E := mul_nonneg hP0 (le_of_lt hE0)
  have hpE1 : 0 ≤ p * (E + 1) := mul_nonneg hp (by linarith)
  have hqP : q * P * (E * E) ≤ x * p * ((E + 1) * (E + 1)) := by
    have := mul_le_mul hqE hPE hPE0 (mul_nonneg hx (by linarith))
    linarith
  have t1 : |q - x| * P * (E * E * E) ≤ x * p * (E + 1) * E := by
    have h := mul_le_mul h1 hPE hPE0 hx
    have := mul_le_mul_of_nonneg_right h (le_of_lt hE0)
    linarith
  have t2 : x * |P - p| * (E * E * E) ≤ x * p * (E * E) := by
    have h := mul_le_mul_of_nonneg_left h2 hx
    have := mul_le_mul_of_nonneg_right h (mul_nonneg (le_of_lt hE0) (le_of_lt hE0))
    linarith
  have t3 : |v - q * P| * (E * E * E) ≤ x * p * ((E + 1) * (E + 1)) := by
    have := mul_le_mul_of_nonneg_right h3 (mul_nonneg (le_of_lt hE0) (le_of_lt hE0))
    linarith
  have hsplit : |v - x * p| ≤ |v - q * P| + |q - x| * P + x * |P - p| := by
    have e : v - x * p = (v - q * P) + ((q - x) * P + x * (P - p)) := by ring
    rw [e]
    calc |(v - q * P) + ((q - x) * P + x * (P - p))|
        ≤ |v - q * P| + |(q - x) * P + x * (P - p)| := abs_add _ _
      _ ≤ |v - q * P| + (|(q - x) * P| + |x * (P - p)|) := by
          have := abs_add ((q - x) * P) (x * (P - p)); linarith
      _ = |v - q * P| + |q - x| * P + x * |P - p| := by
          rw [abs_mul, abs_mul, abs_of_nonneg hP0, abs_of_nonneg hx]; ring
  have hbound : x * p * ((E + 1) * (E + 1)) + x * p * (E + 1) * E + x * p * (E * E)
      ≤ x * p * (4 * (E * E)) := by
    have := mul_nonneg hxp hE2
    linarith
  have hE3 : 0 ≤ E * E * E := mul_nonneg (mul_nonneg (le_of_lt hE0) (le_of_lt hE0)) (le_of_lt hE0)
  have hfin : |v - x * p| * (E * E * E) ≤ 4 * (x * p) * (E * E) := by
    have := mul_le_mul_of_nonneg_right hsplit hE3
    linarith
  have hEE : 0 < E * E := mul_pos hE0 hE0
  have : |v - x * p| * E * (E * E) ≤ 4 * (x * p) * (E * E) := by linarith
  exact le_of_mul_le_mul_right this hEE

theorem round_prec (prec num den : Nat) (e : Int) : (round prec num den e).prec = prec := by
  unfold round
  split_ifs <;> rfl

theorem lookup_mem_values {α : Type} (l : List (String × α)) (key : String) (v : α)
    (h : l.lookup key = some v) : v ∈ l.map Prod.snd := by
  induction l with
  | nil => simp at h
  | cons head rest ih =>
    obtain ⟨k, w⟩ := head
    rw [List.lookup_cons] at h
    cases hk : (key == k) with
    | true =>
      rw [hk] at h
      simp only [Option.some.injEq] at h
      simp [h]
    | false =>
      rw [hk] at h
      simp only [List.map_cons, List.mem_cons]
      exact Or.inr (ih h)

theorem decimalsOf_cases (s : Web3Env) (tokenAddress : String) :
    decimalsOf s tokenAddress = 6 ∨ decimalsOf s tokenAddress = 18 := by
  unfold decimalsOf
  cases h : tokenDecimals.lookup (s.ToLower tokenAddress) with
  | none => exact Or.inr rfl
  | some d =>
    have := lookup_mem_values tokenDecimals _ d h
    simp [tokenDecimals] at this
    simp only
    rcases this with h6 | h18 | h6 | h18
    · exact Or.inl h6
    · exact Or.inr h18
    · exact Or.inl h6
    · exact Or.inr h18

theorem decimalsOf_lt (s : Web3Env) (tokenAddress : String) : decimalsOf s tokenAddress < 86 := by
  rcases decimalsOf_cases s tokenAddress with h | h <;> rw [h] <;> norm_num

theorem valueFloat_error (a d n k : Nat) (hd : d < 86) :
    |(valueFloat a d (round 64 n (10 ^ k) 0)).val
        - (a : ℚ) / (10 : ℚ) ^ d * ((n : ℚ) / (10 : ℚ) ^ k)| * (2 : ℚ) ^ 64
      ≤ 4 * ((a : ℚ) / (10 : ℚ) ^ d * ((n : ℚ) / (10 : ℚ) ^ k)) := by
  have hx : (0 : ℚ) ≤ (a : ℚ) / (10 : ℚ) ^ d := by positivity
  have hp : (0 : ℚ) ≤ (n : ℚ) / (10 : ℚ) ^ k := by positivity
  obtain ⟨h64, -⟩ := amountDiv_prec_ge a d
  -- the scaled amount
  have h1 : |(amountDiv a d).val - (a : ℚ) / (10 : ℚ) ^ d| * (2 : ℚ) ^ 64
      ≤ (a : ℚ) / (10 : ℚ) ^ d := by
    have herr := amountDiv_error a d hd
    have hpow : (2 : ℚ) ^ 64 ≤ (2 : ℚ) ^ (max (max (bitLen a) 64) (divisor d).prec) :=
      pow_le_pow_right₀ (by norm_num) h64
    have := mul_le_mul_of_nonneg_left hpow (abs_nonneg ((amountDiv a d).val - (a : ℚ) / (10 : ℚ) ^ d))
    linarith
  -- the price
  have h2 : |(round 64 n (10 ^ k) 0).val - (n : ℚ) / (10 : ℚ) ^ k| * (2 : ℚ) ^ 64
      ≤ (n : ℚ) / (10 : ℚ) ^ k := by
    have := round_error_le 64 n (10 ^ k) 0 (by positivity)
    simpa using this
  -- the product
  have hprec : 64 ≤ max (amountDiv a d).prec (round 64 n (10 ^ k) 0).prec := by
    rw [round_prec]
    exact le_max_right _ _
  have h3 : |(valueFloat a d (round 64 n (10 ^ k) 0)).val
        - (amountDiv a d).val * (round 64 n (10 ^ k) 0).val| * (2 : ℚ) ^ 64
      ≤ (amountDiv a d).val * (round 64 n (10 ^ k) 0).val := by
    have herr := round_error_le (max (amountDiv a d).prec (round 64 n (10 ^ k) 0).prec)
      ((amountDiv a d).mant * (round 64 n (10 ^ k) 0).mant) 1
      ((amountDiv a d).exp + (round 64 n (10 ^ k) 0).exp) (by norm_num)
    have htarget : (((amountDiv a d).mant * (round 64 n (10 ^ k) 0).mant : Nat) : ℚ) / (1 : Nat)
          * (2 : ℚ) ^ ((amountDiv a d).exp + (round 64 n (10 ^ k) 0).exp)
        = (amountDiv a d).val * (round 64 n (10 ^ k) 0).val := by
      rw [BigFloat.val, BigFloat.val, zpow_add₀ (by norm_num : (2 : ℚ) ≠ 0)]
      push_cast
      ring
    rw [htarget] at herr
    have hpow : (2 : ℚ) ^ 64
        ≤ (2 : ℚ) ^ (max (amountDiv a d).prec (round 64 n (10 ^ k) 0).prec) :=
      pow_le_pow_right₀ (by norm_num) hprec
    have := mul_le_mul_of_nonneg_left hpow (abs_nonneg
      ((valueFloat a d (round 64 n (10 ^ k) 0)).val
        - (amountDiv a d).val * (round 64 n (10 ^ k) 0).val))
    have hdef : valueFloat a d (round 64 n (10 ^ k) 0)
        = round (max (amountDiv a d).prec (round 64 n (10 ^ k) 0).prec)
            ((amountDiv a d).mant * (round 64 n (10 ^ k) 0).mant) 1
            ((amountDiv a d).exp + (round 64 n (10 ^ k) 0).exp) := rfl
    rw [hdef] at this ⊢
    linarith
  exact three_roundings ((2 : ℚ) ^ 64) _ _ _ _ _ (by norm_num) hx hp h1 h2 h3

theorem Text_eight (x : BigFloat) :
    ∃ K : Nat, Text x 8 = toString (K / 10 ^ 8) ++ "." ++ padLeft 8 (toString (K % 10 ^ 8)) ∧
      |(K : ℚ) - x.val * (10 : ℚ) ^ 8| ≤ 1 / 2 := by
  obtain ⟨prec, mant, exp⟩ := x
  cases exp with
  | ofNat j =>
    refine ⟨mant * 2 ^ j * 10 ^ 8, by simp [Text], ?_⟩
    simp only [BigFloat.val, Int.ofNat_eq_coe, zpow_natCast]
    push_cast
    have e : (mant : ℚ) * 2 ^ j * 100000000 - (mant : ℚ) * 2 ^ j * 10 ^ 8 = 0 := by ring
    rw [e, abs_zero]
    norm_num
  | negSucc j =>
    refine ⟨roundHalfEven (mant * 10 ^ 8) (2 ^ (j + 1)), by simp [Text], ?_⟩
    have h := roundHalfEven_error (mant * 10 ^ 8) (2 ^ (j + 1)) (by positivity)
    simp only [BigFloat.val, zpow_negSucc]
    push_cast at h ⊢
    have e : (mant : ℚ) * ((2 : ℚ) ^ (j + 1))⁻¹ * (10 : ℚ) ^ 8
        = (mant : ℚ) * (10 : ℚ) ^ 8 / (2 : ℚ) ^ (j + 1) := by
      field_simp
    rw [e]
    exact h

theorem tokenBalanceOf_priced (s : Web3Env) (address network : String) (token : Token)
    (balance : Nat) (price : String) (priceFloat : BigFloat)
    (hbal : (GetTokenBalance s address token.Address network).result = Except.ok balance)
    (hnz : balance ≠ 0)
    (hprice : GetTokenPrice s token.Symbol = (price, none))
    (hparse : SetString price = some priceFloat) :
    tokenBalanceOf s address network token =
      some { TokenAddress := token.Address, Symbol := token.Symbol, Name := token.Name,
             Amount := toString balance, Decimals := decimalsOf s token.Address,
             Price := price,
             Value := Text (valueFloat balance (decimalsOf s token.Address) priceFloat) 8 } := by
  simp [tokenBalanceOf, hbal, hnz, hprice, hparse]

set_option maxRecDepth 100000 in
/-- C12, as stated, fails: an account holding `10 ^ 30` raw units of the
18-decimal WMATIC, priced 0.80, is reported with the Value
`800000000000.00000001`, while `(10 ^ 30 / 10 ^ 18) * 0.80` is exactly
800000000000, rendered `800000000000.00000000`. -/
theorem value_formula_counterexample :
    GetTokenBalances (sampleWeb3 true) "0x0000000000000000000000000000000000000001" "polygon"
      = Except.ok
          [{ TokenAddress := "0x0d500B1d8E8eF31E21C99d1Db9A6444d3ADf1270", Symbol := "WMATIC",
             Name := "Wrapped MATIC", Amount := "1000000000000000000000000000000",
             Decimals := 18, Price := "0.80", Value := "800000000000.00000001" }] ∧
    (10 : ℚ) ^ 30 / (10 : ℚ) ^ 18 * (80 / 100) = 800000000000 ∧
    Text (SetInt 0 800000000000) 8 = "800000000000.00000000" := by
  refine ⟨by rfl, by norm_num, by rfl⟩

set_option maxRecDepth 100000 in
theorem valuation_examples :
    amountDiv 1500000 6 = { prec := 64, mant := 13835058055282163712, exp := -63 } ∧
    (SetString "2.00").map (fun priceFloat => Text (valueFloat 1500000 6 priceFloat) 8)
      = some "3.00000000" ∧
    (SetString "1.00").map (fun priceFloat => Text (valueFloat 1500000 6 priceFloat) 8)
      = some "1.50000000" := by
  refine ⟨by decide, by rfl, by rfl⟩

/-- C12, amended. For a token whose balance call returns `a > 0` and whose
price is the decimal string of `n / 10 ^ k`, the record reports the price, the
decimals `d` and a Value with exactly 8 digits after the point: the rendering,
to nearest, of a binary product `v` that is within the relative distance
`2 ^ (-62)` of `(a / 10 ^ d) * (n / 10 ^ k)`.  The amount 1,500,000 with 6
decimals scales to 1.5 and is valued `3.00000000` at the price 2.00 and
`1.50000000` at the price 1.00. -/
theorem value_rendering (s : Web3Env) (address network : String) (token : Token)
    (a n k : Nat) (price : String)
    (hbal : (GetTokenBalance s address token.Address network).result = Except.ok a)
    (ha : 0 < a)
    (hprice : GetTokenPrice s token.Symbol = (price, none))
    (hparse : parseDecimal price.data = some (n, k)) :
    (∃ (record : TokenBalance) (v : BigFloat) (K : Nat),
      tokenBalanceOf s address network token = some record ∧
      record.Price = price ∧
      record.Value = toString (K / 10 ^ 8) ++ "." ++ padLeft 8 (toString (K % 10 ^ 8)) ∧
      |(K : ℚ) - v.val * (10 : ℚ) ^ 8| ≤ 1 / 2 ∧
      |v.val - (a : ℚ) / (10 : ℚ) ^ record.Decimals * ((n : ℚ) / (10 : ℚ) ^ k)|
          * (2 : ℚ) ^ 62
        ≤ (a : ℚ) / (10 : ℚ) ^ record.Decimals * ((n : ℚ) / (10 : ℚ) ^ k)) ∧
    (amountDiv 1500000 6).val = 3 / 2 ∧
    (SetString "2.00").map (fun priceFloat => Text (valueFloat 1500000 6 priceFloat) 8)
      = some "3.00000000" ∧
    (SetString "1.00").map (fun priceFloat => Text (valueFloat 1500000 6 priceFloat) 8)
      = some "1.50000000" := by
  obtain ⟨hdiv, htwo, hone⟩ := valuation_examples
  refine ⟨?_, ?_, htwo, hone⟩
  · have hset : SetString price = some (round 64 n (10 ^ k) 0) := by
      simp [SetString, hparse]
    have hrec := tokenBalanceOf_priced s address network token a price _ hbal (by omega)
      hprice hset
    obtain ⟨K, hK, hKerr⟩ :=
      Text_eight (valueFloat a (decimalsOf s token.Address) (round 64 n (10 ^ k) 0))
    refine ⟨_, valueFloat a (decimalsOf s token.Address) (round 64 n (10 ^ k) 0), K, hrec,
      rfl, hK, hKerr, ?_⟩
    have herr := valueFloat_error a (decimalsOf s token.Address) n k (decimalsOf_lt s _)
    have h62 : (2 : ℚ) ^ 64 = 4 * (2 : ℚ) ^ 62 := by norm_num
    rw [h62] at herr
    simp only
    linarith
  · rw [hdiv, BigFloat.val]
    norm_num

set_option maxRecDepth 100000 in
/-- Witness of the amended C12 on the USDT of the sample `ethereum` node. -/
theorem value_rendering_witness :
    ∃ (record : TokenBalance) (v : BigFloat) (K : Nat),
      tokenBalanceOf (sampleWeb3 true) "0x0000000000000000000000000000000000000001" "ethereum"
        { Address := "0xdAC17F958D2ee523a2206206994597C13D831ec7", Symbol := "USDT",
          Name := "Tether USD" } = some record ∧
      record.Price = "1.00" ∧
      record.Value = toString (K / 10 ^ 8) ++ "." ++ padLeft 8 (toString (K % 10 ^ 8)) ∧
      |(K : ℚ) - v.val * (10 : ℚ) ^ 8| ≤ 1 / 2 ∧
      |v.val - ((1500000 : Nat) : ℚ) / (10 : ℚ) ^ record.Decimals
            * (((100 : Nat) : ℚ) / (10 : ℚ) ^ 2)| * (2 : ℚ) ^ 62
        ≤ ((1500000 : Nat) : ℚ) / (10 : ℚ) ^ record.Decimals
            * (((100 : Nat) : ℚ) / (10 : ℚ) ^ 2) :=
  (value_rendering (sampleWeb3 true) "0x0000000000000000000000000000000000000001" "ethereum"
    { Address := "0xdAC17F958D2ee523a2206206994597C13D831ec7", Symbol := "USDT",
      Name := "Tether USD" } 1500000 100 2 "1.00" (by rfl) (by norm_num) (by rfl) (by rfl)).1

/-! ## Decimals -/

set_option maxRecDepth 100000 in
/-- C13, evaluated on the code. The table `tokenDecimals` gives the USDT of
`ethereum` 6 decimals, but `GetTokenBalances` looks the lower-cased address up
in a table keyed by mixed-case addresses, finds nothing, and reports 18
decimals (and values 1,500,000 raw units at `0.00000000`); every token of the
`ethereum` and `polygon` registries is reported with 18 decimals. -/
theorem decimals_lookup_misses :
    tokenDecimals.lookup "0xdAC17F958D2ee523a2206206994597C13D831ec7" = some 6 ∧
    tokenDecimals.lookup (asciiLower "0xdAC17F958D2ee523a2206206994597C13D831ec7") = none ∧
    GetTokenBalances (sampleWeb3 true) "0x0000000000000000000000000000000000000001" "ethereum"
      = Except.ok
          [{ TokenAddress := "0xdAC17F958D2ee523a2206206994597C13D831ec7", Symbol := "USDT",
             Name := "Tether USD", Amount := "1500000", Decimals := 18, Price := "1.00",
             Value := "0.00000000" }] ∧
    (∀ network ∈ ["ethereum", "polygon"], ∀ token ∈ (tokens.lookup network).getD [],
      decimalsOf (sampleWeb3 true) token.Address = 18) := by
  refine ⟨by rfl, by rfl, by rfl, by decide⟩

/-! ## The loop over the tokens -/

theorem collectTokenBalances_eq_filterMap (s : Web3Env) (address network : String)
    (networkTokens : List Token) :
    collectTokenBalances s address network networkTokens
      = networkTokens.filterMap (tokenBalanceOf s address network) := by
  induction networkTokens with
  | nil => rfl
  | cons token rest ih =>
    unfold collectTokenBalances
    cases h : tokenBalanceOf s address network token with
    | none => simp [List.filterMap_cons, h, ih]
    | some record => simp [List.filterMap_cons, h, ih]

theorem collectTokenBalances_append (s : Web3Env) (address network : String)
    (l1 l2 : List Token) :
    collectTokenBalances s address network (l1 ++ l2)
      = collectTokenBalances s address network l1 ++ collectTokenBalances s address network l2 := by
  simp [collectTokenBalances_eq_filterMap, List.filterMap_append]

theorem tokenBalanceOf_held (s : Web3Env) (address network : String) (token : Token)
    (balance : Nat)
    (hbal : (GetTokenBalance s address token.Address network).result = Except.ok balance)
    (hnz : balance ≠ 0) :
    ∃ record, tokenBalanceOf s address network token = some record ∧
      record.TokenAddress = token.Address ∧ record.Symbol = token.Symbol ∧
      record.Name = token.Name ∧ record.Amount = toString balance ∧
      record.Decimals = decimalsOf s token.Address ∧
      ((GetTokenPrice s token.Symbol).2 ≠ none → record.Price = "" ∧ record.Value = "") ∧
      ((GetTokenPrice s token.Symbol).2 = none →
        record.Price = (GetTokenPrice s token.Symbol).1) := by
  unfold tokenBalanceOf
  simp only [hbal, hnz, if_false]
  rcases hp : GetTokenPrice s token.Symbol with ⟨price, err⟩
  cases err with
  | some e => exact ⟨_, rfl, rfl, rfl, rfl, rfl, rfl, fun _ => ⟨rfl, rfl⟩, fun h => by simp at h⟩
  | none =>
    cases hs : SetString price with
    | none =>
      simp only [hs]
      exact ⟨_, rfl, rfl, rfl, rfl, rfl, rfl, fun h => by simp at h, fun _ => rfl⟩
    | some priceFloat =>
      simp only [hs]
      exact ⟨_, rfl, rfl, rfl, rfl, rfl, rfl, fun h => by simp at h, fun _ => rfl⟩

theorem tokenBalanceOf_isSome_iff (s : Web3Env) (address network : String) (token : Token) :
    (tokenBalanceOf s address network token).isSome = isHeld s address network token := by
  unfold isHeld
  cases hbal : (GetTokenBalance s address token.Address network).result with
  | error e => simp [tokenBalanceOf, hbal]
  | ok balance =>
    by_cases hnz : balance = 0
    · simp [tokenBalanceOf, hbal, hnz]
    · obtain ⟨record, hrec, -⟩ := tokenBalanceOf_held s address network token balance hbal hnz
      simp [hrec, hnz]

theorem tokenBalanceOf_fields (s : Web3Env) (address network : String) (token : Token)
    (record : TokenBalance) (h : tokenBalanceOf s address network token = some record) :
    record.TokenAddress = token.Address ∧ record.Symbol = token.Symbol ∧
      record.Name = token.Name := by
  cases hbal : (GetTokenBalance s address token.Address network).result with
  | error e => simp [tokenBalanceOf, hbal] at h
  | ok balance =>
    by_cases hnz : balance = 0
    · simp [tokenBalanceOf, hbal, hnz] at h
    · obtain ⟨r, hrec, h1, h2, h3, -⟩ :=
        tokenBalanceOf_held s address network token balance hbal hnz
      rw [hrec] at h
      cases h
      exact ⟨h1, h2, h3⟩

theorem collectTokenBalances_held (s : Web3Env) (address network : String)
    (networkTokens : List Token) :
    (collectTokenBalances s address network networkTokens).map
        (fun record => (record.TokenAddress, record.Symbol, record.Name))
      = (networkTokens.filter (isHeld s address network)).map
        (fun token => (token.Address, token.Symbol, token.Name)) := by
  induction networkTokens with
  | nil => rfl
  | cons token rest ih =>
    unfold collectTokenBalances
    have hsome := tokenBalanceOf_isSome_iff s address network token
    cases h : tokenBalanceOf s address network token with
    | none =>
      rw [h] at hsome
      have hheld : isHeld s address network token = false := by simpa using hsome.symm
      simp [List.filter_cons, hheld, ih]
    | some record =>
      rw [h] at hsome
      have hheld : isHeld s address network token = true := by simpa using hsome.symm
      obtain ⟨h1, h2, h3⟩ := tokenBalanceOf_fields s address network token record h
      simp [List.filter_cons, hheld, ih, h1, h2, h3]

theorem registry_symbol_priced (network : String) (networkTokens : List Token)
    (h : tokens.lookup network = some networkTokens) :
    ∀ token ∈ networkTokens, (prices.lookup token.Symbol).isSome = true := by
  have hmem := lookup_mem_values tokens network networkTokens h
  simp only [tokens, List.map_cons, List.map_nil, List.mem_cons, List.mem_singleton,
    List.not_mem_nil, or_false] at hmem
  rcases hmem with h1 | h1 | h1 | h1 <;> subst h1 <;> decide

/-- C14. A token of the registry whose balance call returns a non-zero amount
yields one record in the result of `GetTokenBalances`, at its place among the
tokens of its network, whether or not the price lookup succeeds; the record
carries the address, symbol, name, amount and decimals.  When the lookup fails
its Price and Value are empty, and when it succeeds its Price is the price of
the table.  Every symbol of the registry has a price, so the lookup succeeds
when upper-casing leaves the symbol as it is. -/
theorem tokenBalance_kept_without_price (s : Web3Env) (address network : String)
    (before after : List Token) (token : Token) (balance : Nat)
    (hreg : tokens.lookup network = some (before ++ token :: after))
    (hbal : (GetTokenBalance s address token.Address network).result = Except.ok balance)
    (hnz : balance ≠ 0) :
    ∃ record,
      GetTokenBalances s address network
        = Except.ok (collectTokenBalances s address network before
            ++ record :: collectTokenBalances s address network after) ∧
      record.TokenAddress = token.Address ∧ record.Symbol = token.Symbol ∧
      record.Name = token.Name ∧ record.Amount = toString balance ∧
      record.Decimals = decimalsOf s token.Address ∧
      ((GetTokenPrice s token.Symbol).2 ≠ none → record.Price = "" ∧ record.Value = "") ∧
      ((GetTokenPrice s token.Symbol).2 = none →
        record.Price = (GetTokenPrice s token.Symbol).1) ∧
      (s.ToUpper token.Symbol = token.Symbol → (GetTokenPrice s token.Symbol).2 = none) := by
  obtain ⟨record, hrec, h1, h2, h3, h4, h5, h6, h7⟩ :=
    tokenBalanceOf_held s address network token balance hbal hnz
  have hsplit : collectTokenBalances s address network (before ++ token :: after)
      = collectTokenBalances s address network before
          ++ record :: collectTokenBalances s address network after := by
    rw [collectTokenBalances_append]
    congr 1
    conv_lhs => unfold collectTokenBalances
    simp [hrec]
  refine ⟨record, ?_, h1, h2, h3, h4, h5, h6, h7, ?_⟩
  · simp [GetTokenBalances, hreg, hsplit]
  · intro hupper
    have hpriced := registry_symbol_priced network _ hreg token (by simp)
    unfold GetTokenPrice
    rw [hupper]
    cases hl : prices.lookup token.Symbol with
    | none => rw [hl] at hpriced; cases hpriced
    | some price => rfl

set_option maxRecDepth 100000 in
/-- Witness of C14: on the sample `ethereum` node the account holds 1,500,000
units of USDT, the first token of the registry of `ethereum`, and none of the
three tokens after it. -/
theorem tokenBalance_kept_without_price_witness :
    ∃ record,
      GetTokenBalances (sampleWeb3 false) "0x0000000000000000000000000000000000000001"
          "ethereum" = Except.ok [record] ∧
      record.Symbol = "USDT" ∧ record.Amount = "1500000" ∧ record.Price = "1.00" := by
  obtain ⟨record, h0, -, h2, -, h4, -, -, h7, h8⟩ :=
    tokenBalance_kept_without_price (sampleWeb3 false)
      "0x0000000000000000000000000000000000000001" "ethereum" []
      [ { Address := "0xA0b86a33E6441b8C4C8C8C8C8C8C8C8C8C8C8C8C", Symbol := "USDC",
          Name := "USD Coin" },
        { Address := "0x6B175474E89094C44Da98b954EedeAC495271d0F", Symbol := "DAI",
          Name := "Dai Stablecoin" },
        { Address := "0xC02aaA39b223FE8D0A0e5C4F27eAD9083C756Cc2", Symbol := "WETH",
          Name := "Wrapped Ether" } ]
      { Address := "0xdAC17F958D2ee523a2206206994597C13D831ec7", Symbol := "USDT",
        Name := "Tether USD" } 1500000 (by rfl) (by rfl) (by norm_num)
  exact ⟨record, h0.trans (by rfl), h2, h4, (h7 (h8 (by rfl))).trans (by rfl)⟩

/-! ## Prices -/

theorem lookup_cons_self {α : Type} (k : String) (v : α) (rest : List (String × α)) :
    ((k, v) :: rest).lookup k = some v := by
  simp [List.lookup_cons]

theorem lookup_cons_ne {α : Type} (k key : String) (v : α) (rest : List (String × α))
    (h : ¬ key = k) : ((k, v) :: rest).lookup key = rest.lookup key := by
  have hb : (key == k) = false := by simpa using h
  simp [List.lookup_cons, hb]

theorem prices_lookup (key : String) :
    prices.lookup key =
      if key = "USDT" then some "1.00"
      else if key = "USDC" then some "1.00"
      else if key = "DAI" then some "1.00"
      else if key = "WETH" then some "2000.00"
      else if key = "WMATIC" then some "0.80"
      else none := by
  unfold prices
  split_ifs with h1 h2 h3 h4 h5
  · rw [h1, lookup_cons_self]
  · rw [lookup_cons_ne _ _ _ _ h1, h2, lookup_cons_self]
  · rw [lookup_cons_ne _ _ _ _ h1, lookup_cons_ne _ _ _ _ h2, h3, lookup_cons_self]
  · rw [lookup_cons_ne _ _ _ _ h1, lookup_cons_ne _ _ _ _ h2, lookup_cons_ne _ _ _ _ h3, h4,
      lookup_cons_self]
  · rw [lookup_cons_ne _ _ _ _ h1, lookup_cons_ne _ _ _ _ h2, lookup_cons_ne _ _ _ _ h3,
      lookup_cons_ne _ _ _ _ h4, h5, lookup_cons_self]
  · rw [lookup_cons_ne _ _ _ _ h1, lookup_cons_ne _ _ _ _ h2, lookup_cons_ne _ _ _ _ h3,
      lookup_cons_ne _ _ _ _ h4, lookup_cons_ne _ _ _ _ h5, List.lookup_nil]

/-- C15. `GetTokenPrice` returns no error exactly when the upper-cased symbol
is one of USDT, USDC, DAI, WETH, WMATIC, and then returns the price of the
table under that symbol, so that two symbols with the same upper-casing get
the same answer; for every other symbol it returns the placeholder `0.00` and
the error `price not available for` the symbol. -/
theorem GetTokenPrice_spec (s : Web3Env) (symbol : String) :
    ((GetTokenPrice s symbol).2 = none ↔
      s.ToUpper symbol ∈ ["USDT", "USDC", "DAI", "WETH", "WMATIC"]) ∧
    (s.ToUpper symbol = "USDT" → GetTokenPrice s symbol = ("1.00", none)) ∧
    (s.ToUpper symbol = "USDC" → GetTokenPrice s symbol = ("1.00", none)) ∧
    (s.ToUpper symbol = "DAI" → GetTokenPrice s symbol = ("1.00", none)) ∧
    (s.ToUpper symbol = "WETH" → GetTokenPrice s symbol = ("2000.00", none)) ∧
    (s.ToUpper symbol = "WMATIC" → GetTokenPrice s symbol = ("0.80", none)) ∧
    (s.ToUpper symbol ∉ ["USDT", "USDC", "DAI", "WETH", "WMATIC"] →
      GetTokenPrice s symbol = ("0.00", some ("price not available for " ++ symbol))) ∧
    (∀ other, s.ToUpper other = s.ToUpper symbol →
      (GetTokenPrice s other).1 = (GetTokenPrice s symbol).1) := by
  refine ⟨?_, ?_, ?_, ?_, ?_, ?_, ?_, ?_⟩
  · unfold GetTokenPrice
    rw [prices_lookup]
    split_ifs with h1 h2 h3 h4 h5 <;> simp_all
  · intro h
    simp [GetTokenPrice, prices_lookup, h]
  · intro h
    simp [GetTokenPrice, prices_lookup, h]
  · intro h
    simp [GetTokenPrice, prices_lookup, h]
  · intro h
    simp [GetTokenPrice, prices_lookup, h]
  · intro h
    simp [GetTokenPrice, prices_lookup, h]
  · intro h
    simp only [List.mem_cons, List.mem_singleton, not_or, List.not_mem_nil, or_false] at h
    obtain ⟨h1, h2, h3, h4, h5⟩ := h
    simp [GetTokenPrice, prices_lookup, h1, h2, h3, h4, h5]
  · intro other h
    unfold GetTokenPrice
    rw [h]
    cases prices.lookup (s.ToUpper symbol) <;> rfl

set_option maxRecDepth 100000 in
/-- Witness of C15 with the ASCII upper-casing: `usdt` and `Weth` are priced,
`doge` is not. -/
theorem GetTokenPrice_spec_witness :
    GetTokenPrice (sampleWeb3 true) "usdt" = ("1.00", none) ∧
    GetTokenPrice (sampleWeb3 true) "Weth" = ("2000.00", none) ∧
    GetTokenPrice (sampleWeb3 true) "doge" = ("0.00", some "price not available for doge") :=
  ⟨(GetTokenPrice_spec (sampleWeb3 true) "usdt").2.1 (by decide),
   (GetTokenPrice_spec (sampleWeb3 true) "Weth").2.2.2.2.1 (by decide),
   (GetTokenPrice_spec (sampleWeb3 true) "doge").2.2.2.2.2.2.1 (by decide)⟩

/-! ## Address validation -/

set_option maxRecDepth 100000 in
/-- C16, as stated, fails: for the string `not-an-address`, which is no hex
address, and the network `solana`, which is not connected, `GetBalance` and
`GetTokenBalance` fail with the error of the network, not with an
invalid-address error. -/
theorem invalid_address_error_counterexample :
    IsHexAddress "not-an-address" = false ∧
    (GetBalance (sampleWeb3 true) "not-an-address" "solana").result
      = Except.error "network solana not supported or not connected" ∧
    (GetTokenBalance (sampleWeb3 true) "not-an-address"
        "0xdAC17F958D2ee523a2206206994597C13D831ec7" "solana").result
      = Except.error "network solana not supported" := by
  refine ⟨by decide, by rfl, by rfl⟩

/-- C16, amended. For an address that is no hex address and every network,
`GetBalance` and `GetTokenBalance` fail and send no call to a node; the error
is the invalid-address error when the network is connected, and the error of
the network when it is not. -/
theorem invalid_address_no_call (s : Web3Env) (address tokenAddress network : String)
    (h : IsHexAddress address = false) :
    (GetBalance s address network).calls = [] ∧
    (GetTokenBalance s address tokenAddress network).calls = [] ∧
    ((s.clients network).isSome = true →
      (GetBalance s address network).result
        = Except.error ("invalid address format: " ++ address) ∧
      (GetTokenBalance s address tokenAddress network).result
        = Except.error "invalid address format") ∧
    ((s.clients network).isSome = false →
      (GetBalance s address network).result
        = Except.error ("network " ++ network ++ " not supported or not connected") ∧
      (GetTokenBalance s address tokenAddress network).result
        = Except.error ("network " ++ network ++ " not supported")) := by
  cases hc : s.clients network with
  | none => simp [GetBalance, GetTokenBalance, hc]
  | some client => simp [GetBalance, GetTokenBalance, hc, h]

set_option maxRecDepth 100000 in
/-- Witness of the amended C16 on the connected network `ethereum`. -/
theorem invalid_address_no_call_witness :
    (GetBalance (sampleWeb3 true) "not-an-address" "ethereum").calls = [] ∧
    (GetBalance (sampleWeb3 true) "not-an-address" "ethereum").result
      = Except.error ("invalid address format: " ++ "not-an-address") :=
  have h := invalid_address_no_call (sampleWeb3 true) "not-an-address"
    "0xdAC17F958D2ee523a2206206994597C13D831ec7" "ethereum" (by decide)
  ⟨h.1, (h.2.2.1 (by rfl)).1⟩

/-! ## The registry -/

theorem tokens_lookup_isSome (network : String) :
    (tokens.lookup network).isSome = true ↔
      network ∈ ["ethereum", "polygon", "bsc", "arbitrum"] := by
  unfold tokens
  by_cases h1 : network = "ethereum"
  · rw [h1, lookup_cons_self]; simp
  · by_cases h2 : network = "polygon"
    · rw [lookup_cons_ne _ _ _ _ h1, h2, lookup_cons_self]; simp
    · by_cases h3 : network = "bsc"
      · rw [lookup_cons_ne _ _ _ _ h1, lookup_cons_ne _ _ _ _ h2, h3, lookup_cons_self]; simp
      · by_cases h4 : network = "arbitrum"
        · rw [lookup_cons_ne _ _ _ _ h1, lookup_cons_ne _ _ _ _ h2, lookup_cons_ne _ _ _ _ h3,
            h4, lookup_cons_self]
          simp
        · rw [lookup_cons_ne _ _ _ _ h1, lookup_cons_ne _ _ _ _ h2, lookup_cons_ne _ _ _ _ h3,
            lookup_cons_ne _ _ _ _ h4, List.lookup_nil]
          simp [h1, h2, h3, h4]

/-- C17. For a network of the registry `GetTokenBalances` returns no error:
its result lists, in the order of the registry, the tokens whose balance call
succeeded with a non-zero amount, one record for each, and no other token. -/
theorem GetTokenBalances_registry (s : Web3Env) (address network : String)
    (networkTokens : List Token) (h : tokens.lookup network = some networkTokens) :
    ∃ result, GetTokenBalances s address network = Except.ok result ∧
      result.map (fun record => (record.TokenAddress, record.Symbol, record.Name))
        = (networkTokens.filter (isHeld s address network)).map
            (fun token => (token.Address, token.Symbol, token.Name)) ∧
      result.length = (networkTokens.filter (isHeld s address network)).length := by
  refine ⟨collectTokenBalances s address network networkTokens, ?_, ?_, ?_⟩
  · simp [GetTokenBalances, h]
  · exact collectTokenBalances_held s address network networkTokens
  · have := congrArg List.length (collectTokenBalances_held s address network networkTokens)
    simpa using this

set_option maxRecDepth 100000 in
/-- Witness of C17 on the registry of `ethereum`. -/
theorem GetTokenBalances_registry_witness :
    ∃ result,
      GetTokenBalances (sampleWeb3 true) "0x0000000000000000000000000000000000000001" "ethereum"
        = Except.ok result ∧
      result.length = (((tokens.lookup "ethereum").getD []).filter
        (isHeld (sampleWeb3 true) "0x0000000000000000000000000000000000000001"
          "ethereum")).length := by
  obtain ⟨result, h1, -, h3⟩ := GetTokenBalances_registry (sampleWeb3 true)
    "0x0000000000000000000000000000000000000001" "ethereum"
    ((tokens.lookup "ethereum").getD []) (by rfl)
  exact ⟨result, h1, h3⟩

/-- C18. `GetTokenBalances` fails exactly when the network is none of
`ethereum`, `polygon`, `bsc`, `arbitrum`, and then with the error that the
network is not supported for token balances; for `arbitrum` it returns the
empty result. -/
theorem GetTokenBalances_unsupported_iff (s : Web3Env) (address network : String) :
    ((∃ e, GetTokenBalances s address network = Except.error e) ↔
      network ∉ ["ethereum", "polygon", "bsc", "arbitrum"]) ∧
    (GetTokenBalances s address network
        = Except.error ("network " ++ network ++ " not supported for token balances") ↔
      network ∉ ["ethereum", "polygon", "bsc", "arbitrum"]) ∧
    GetTokenBalances s address "arbitrum" = Except.ok [] := by
  have hiff := tokens_lookup_isSome network
  refine ⟨?_, ?_, by rfl⟩
  · cases hl : tokens.lookup network with
    | none =>
      rw [hl] at hiff
      simp only [Option.isSome_none, Bool.false_eq_true, false_iff] at hiff
      simp [GetTokenBalances, hl, hiff]
    | some networkTokens =>
      rw [hl] at hiff
      simp only [Option.isSome_some, true_iff] at hiff
      simp [GetTokenBalances, hl, hiff]
  · cases hl : tokens.lookup network with
    | none =>
      rw [hl] at hiff
      simp only [Option.isSome_none, Bool.false_eq_true, false_iff] at hiff
      simp [GetTokenBalances, hl, hiff]
    | some networkTokens =>
      rw [hl] at hiff
      simp only [Option.isSome_some, true_iff] at hiff
      simp [GetTokenBalances, hl, hiff]

end Web3Service

/-!
# Facts about the balance refresh
-/

namespace PortfolioService

open Web3Service

theorem collectBalances_append (w : Web3Env) (l1 l2 : List Address) :
    collectBalances w (l1 ++ l2) = collectBalances w l1 ++ collectBalances w l2 := by
  induction l1 with
  | nil => rfl
  | cons a rest ih => simp [collectBalances, ih]

theorem RefreshPortfolioBalances_result (env : PortfolioEnv) (w : Web3Env) (store : Store)
    (userID portfolioID : String) (addresses : List Address)
    (h : GetPortfolioAddresses env store userID portfolioID = Except.ok addresses) :
    (RefreshPortfolioBalances env w store userID portfolioID).1
      = Except.ok (collectBalances w addresses) := by
  simp [RefreshPortfolioBalances, h]

theorem addressBalances_failed (w : Web3Env) (address : Address)
    (h : (∃ e, (GetBalance w address.Address address.Network).result = Except.error e) ∨
      (∃ e, GetTokenBalances w address.Address address.Network = Except.error e)) :
    addressBalances w address = [] := by
  unfold addressBalances
  rcases h with ⟨e, he⟩ | ⟨e, he⟩
  · simp [he]
  · cases hb : (GetBalance w address.Address address.Network).result with
    | error e' => rfl
    | ok balance => simp [he]

theorem registry_address_ne_empty (network : String) (networkTokens : List Token)
    (h : tokens.lookup network = some networkTokens) :
    ∀ token ∈ networkTokens, token.Address ≠ "" := by
  have hmem := lookup_mem_values tokens network networkTokens h
  simp only [tokens, List.map_cons, List.map_nil, List.mem_cons, List.mem_singleton,
    List.not_mem_nil, or_false] at hmem
  rcases hmem with h1 | h1 | h1 | h1 <;> subst h1 <;> decide

theorem tokenBalances_address_ne_empty (w : Web3Env) (address network : String)
    (tokenBalances : List TokenBalance)
    (h : GetTokenBalances w address network = Except.ok tokenBalances) :
    ∀ record ∈ tokenBalances, record.TokenAddress ≠ "" := by
  unfold GetTokenBalances at h
  cases hl : tokens.lookup network with
  | none => simp [hl] at h
  | some networkTokens =>
    simp only [hl, Except.ok.injEq] at h
    intro record hrec
    rw [← h, collectTokenBalances_eq_filterMap, List.mem_filterMap] at hrec
    obtain ⟨token, htoken, hsome⟩ := hrec
    rw [(tokenBalanceOf_fields w address network token record hsome).1]
    exact registry_address_ne_empty network networkTokens hl token htoken

theorem filter_native_tokenRecords (address : Address) (tokenBalances : List TokenBalance)
    (h : ∀ record ∈ tokenBalances, record.TokenAddress ≠ "") :
    (tokenBalances.map (tokenRecord address)).filter (fun r => r.TokenAddress == "") = [] := by
  rw [List.filter_eq_nil_iff]
  intro r hr
  rw [List.mem_map] at hr
  obtain ⟨record, hrec, he⟩ := hr
  subst he
  simpa [tokenRecord] using h record hrec

/-- C19. In `RefreshPortfolioBalances` an address whose two fetches succeed
adds its records to the result between those of the addresses around it; among
them there is one record of the native token when the native balance is not
zero and none when it is zero, and that record has the identifier of the
address, an empty token address, 18 decimals, the fetched amount and the symbol
and name of the table of native tokens, which are as listed. -/
theorem refresh_native_record (env : PortfolioEnv) (w : Web3Env) (store : Store)
    (userID portfolioID : String) (before after : List Address) (address : Address)
    (balance : Nat) (tokenBalances : List TokenBalance)
    (haddrs : GetPortfolioAddresses env store userID portfolioID
      = Except.ok (before ++ address :: after))
    (hbal : (GetBalance w address.Address address.Network).result = Except.ok balance)
    (htok : GetTokenBalances w address.Address address.Network = Except.ok tokenBalances) :
    (RefreshPortfolioBalances env w store userID portfolioID).1
      = Except.ok (collectBalances w before ++ addressBalances w address
          ++ collectBalances w after) ∧
    (addressBalances w address).filter (fun r => r.TokenAddress == "")
      = (if balance = 0 then []
         else [{ ID := 0, AddressID := address.ID, TokenAddress := "",
                 Symbol := getNativeTokenSymbol address.Network,
                 Name := getNativeTokenName address.Network,
                 Amount := toString balance, Decimals := 18, Price := "", Value := "" }]) ∧
    (getNativeTokenSymbol "ethereum" = "ETH" ∧ getNativeTokenName "ethereum" = "Ethereum") ∧
    (getNativeTokenSymbol "polygon" = "MATIC" ∧ getNativeTokenName "polygon" = "Polygon") ∧
    (getNativeTokenSymbol "bsc" = "BNB" ∧
      getNativeTokenName "bsc" = "Binance Smart Chain") ∧
    (getNativeTokenSymbol "arbitrum" = "ETH" ∧ getNativeTokenName "arbitrum" = "Arbitrum") ∧
    (∀ network, network ∉ ["ethereum", "polygon", "bsc", "arbitrum"] →
      getNativeTokenSymbol network = "NATIVE" ∧ getNativeTokenName network = "Native Token") := by
  refine ⟨?_, ?_, ⟨by decide, by decide⟩, ⟨by decide, by decide⟩, ⟨by decide, by decide⟩,
    ⟨by decide, by decide⟩, ?_⟩
  · rw [RefreshPortfolioBalances_result env w store userID portfolioID _ haddrs,
      collectBalances_append]
    simp [collectBalances, List.append_assoc]
  · have hne := tokenBalances_address_ne_empty w _ _ tokenBalances htok
    have hfil := filter_native_tokenRecords address tokenBalances hne
    unfold addressBalances
    simp only [hbal, htok]
    rw [List.filter_append, hfil, List.append_nil]
    by_cases h0 : balance = 0
    · simp [h0]
    · have hpos : balance > 0 := Nat.pos_of_ne_zero h0
      simp [h0, hpos, nativeRecord]
  · intro network hn
    simp only [List.mem_cons, List.mem_singleton, not_or, List.not_mem_nil, or_false] at hn
    obtain ⟨h1, h2, h3, h4⟩ := hn
    simp [getNativeTokenSymbol, getNativeTokenName, h1, h2, h3, h4]

set_option maxRecDepth 100000 in
/-- Witness of C19: the `ethereum` address of the sample portfolio holds
2 * 10 ^ 18 wei and adds one record of the native token. -/
theorem refresh_native_record_witness :
    (addressBalances (sampleWeb3 true)
        { ID := 21, PortfolioID := 11, Address := "0x0000000000000000000000000000000000000001",
          Network := "ethereum", Label := "hot", IsActive := true }).filter
        (fun r => r.TokenAddress == "")
      = [{ ID := 0, AddressID := 21, TokenAddress := "", Symbol := "ETH", Name := "Ethereum",
           Amount := "2000000000000000000", Decimals := 18, Price := "", Value := "" }] :=
  (refresh_native_record sampleEnv (sampleWeb3 true) sampleStore "u1" "p1" []
    [{ ID := 22, PortfolioID := 11, Address := "0x0000000000000000000000000000000000000002",
       Network := "polygon", Label := "cold", IsActive := true }]
    { ID := 21, PortfolioID := 11, Address := "0x0000000000000000000000000000000000000001",
      Network := "ethereum", Label := "hot", IsActive := true }
    (2 * 10 ^ 18)
    [{ TokenAddress := "0xdAC17F958D2ee523a2206206994597C13D831ec7", Symbol := "USDT",
       Name := "Tether USD", Amount := "1500000", Decimals := 18, Price := "1.00",
       Value := "0.00000000" }]
    (by rfl) (by rfl) (by rfl)).2.1.trans (by rfl)

set_option maxRecDepth 100000 in
/-- C20, as stated, fails: the refresh of the sample portfolio during the
outage, when the fetch of its `polygon` address fails, returns the same list
to the caller as the refresh without outage, when no fetch fails and that
address holds nothing; no count of failures is returned. -/
theorem refresh_failure_count_counterexample :
    (GetBalance (sampleWeb3 true) "0x0000000000000000000000000000000000000002" "polygon").result
      = Except.error "failed to get balance: connection refused" ∧
    (GetBalance (sampleWeb3 false) "0x0000000000000000000000000000000000000002" "polygon").result
      = Except.ok 0 ∧
    GetTokenBalances (sampleWeb3 false) "0x0000000000000000000000000000000000000002" "polygon"
      = Except.ok [] ∧
    (RefreshPortfolioBalances sampleEnv (sampleWeb3 true) sampleStore "u1" "p1").1
      = Except.ok
          [{ ID := 0, AddressID := 21, TokenAddress := "", Symbol := "ETH", Name := "Ethereum",
             Amount := "2000000000000000000", Decimals := 18, Price := "", Value := "" },
           { ID := 0, AddressID := 21,
             TokenAddress := "0xdAC17F958D2ee523a2206206994597C13D831ec7", Symbol := "USDT",
             Name := "Tether USD", Amount := "1500000", Decimals := 18, Price := "1.00",
             Value := "0.00000000" }] ∧
    (RefreshPortfolioBalances sampleEnv (sampleWeb3 false) sampleStore "u1" "p1").1
      = (RefreshPortfolioBalances sampleEnv (sampleWeb3 true) sampleStore "u1" "p1").1 := by
  refine ⟨by rfl, by rfl, by rfl, by rfl, by rfl⟩

/-- C20, amended. If the fetch for one address of the portfolio fails, the
refresh does not fail and returns exactly the records of the other addresses,
the same a refresh of those addresses alone returns; the failed address adds
nothing and the failure is not reported to the caller. -/
theorem refresh_skips_failed_address (env : PortfolioEnv) (w : Web3Env) (store store2 : Store)
    (userID portfolioID userID2 portfolioID2 : String) (before after : List Address)
    (failed : Address)
    (haddrs : GetPortfolioAddresses env store userID portfolioID
      = Except.ok (before ++ failed :: after))
    (hfail : (∃ e, (GetBalance w failed.Address failed.Network).result = Except.error e) ∨
      (∃ e, GetTokenBalances w failed.Address failed.Network = Except.error e))
    (hothers : GetPortfolioAddresses env store2 userID2 portfolioID2
      = Except.ok (before ++ after)) :
    (RefreshPortfolioBalances env w store userID portfolioID).1
      = Except.ok (collectBalances w before ++ collectBalances w after) ∧
    (RefreshPortfolioBalances env w store2 userID2 portfolioID2).1
      = (RefreshPortfolioBalances env w store userID portfolioID).1 ∧
    addressBalances w failed = [] := by
  have hnone := addressBalances_failed w failed hfail
  have h1 : (RefreshPortfolioBalances env w store userID portfolioID).1
      = Except.ok (collectBalances w before ++ collectBalances w after) := by
    rw [RefreshPortfolioBalances_result env w store userID portfolioID _ haddrs,
      collectBalances_append]
    simp [collectBalances, hnone]
  refine ⟨h1, ?_, hnone⟩
  rw [h1, RefreshPortfolioBalances_result env w store2 userID2 portfolioID2 _ hothers,
    collectBalances_append]

set_option maxRecDepth 100000 in
/-- Witness of the amended C20: the sample portfolio during the outage, and
the same portfolio without its `polygon` address. -/
theorem refresh_skips_failed_address_witness :
    (RefreshPortfolioBalances sampleEnv (sampleWeb3 true)
        { sampleStore with
          addresses :=
            [{ ID := 21, PortfolioID := 11,
               Address := "0x0000000000000000000000000000000000000001",
               Network := "ethereum", Label := "hot", IsActive := true }] } "u1" "p1").1
      = (RefreshPortfolioBalances sampleEnv (sampleWeb3 true) sampleStore "u1" "p1").1 :=
  (refresh_skips_failed_address sampleEnv (sampleWeb3 true) sampleStore
    { sampleStore with
      addresses :=
        [{ ID := 21, PortfolioID := 11,
           Address := "0x0000000000000000000000000000000000000001",
           Network := "ethereum", Label := "hot", IsActive := true }] }
    "u1" "p1" "u1" "p1"
    [{ ID := 21, PortfolioID := 11, Address := "0x0000000000000000000000000000000000000001",
       Network := "ethereum", Label := "hot", IsActive := true }]
    []
    { ID := 22, PortfolioID := 11, Address := "0x0000000000000000000000000000000000000002",
      Network := "polygon", Label := "cold", IsActive := true }
    (by rfl) (Or.inl ⟨"failed to get balance: connection refused", by rfl⟩) (by rfl)).2.1

end PortfolioService

/-!
# Facts about the run over the alerts and about validated conditions
-/

namespace AlertService

/-! ## Failures in the run -/

theorem checkEach_eq_map (env : Env) (alerts : List Alert) :
    checkEach env alerts =
      alerts.map (fun a => ({ alert := a, result := checkAlert env a } : CheckStep)) := by
  induction alerts with
  | nil => rfl
  | cons a rest ih => simp [checkEach, ih]

/-- C26. When the query for the active alerts succeeds, `CheckAlerts` returns
no error, whatever the evaluations return: its loop calls `checkAlert` on every
active alert, in the order of the table, and an alert whose evaluation failed
is followed by the evaluation of every active alert after it. -/
theorem CheckAlerts_isolates_failures (env : Env) (db : DB)
    (hquery : env.dbError DBOp.find = none) :
    CheckAlerts env db =
      Except.ok ((db.filter (fun row => row.IsActive == true)).map
        (fun a => ({ alert := a, result := checkAlert env a } : CheckStep))) ∧
    (∀ (before after : List Alert) (failed : Alert) (e : String),
      db.filter (fun row => row.IsActive == true) = before ++ failed :: after →
      checkAlert env failed = Except.error e →
      checkedAlerts (CheckAlerts env db) = before ++ failed :: after) := by
  have hrun : CheckAlerts env db =
      Except.ok ((db.filter (fun row => row.IsActive == true)).map
        (fun a => ({ alert := a, result := checkAlert env a } : CheckStep))) := by
    simp only [CheckAlerts, hquery, checkEach_eq_map]
  refine ⟨hrun, ?_⟩
  intro before after failed e hactive _
  rw [checkedAlerts_CheckAlerts, hquery]
  exact hactive

/-- Witness of C26: an active alert whose stored conditions are no JSON
document fails, and the active alert after it is evaluated. -/
theorem CheckAlerts_isolates_failures_witness :
    CheckAlerts sampleEnv
        [{ ID := 101, UserID := 1, Type_ := "price", Name := "broken",
           Conditions := "no document", IsActive := true },
         { ID := 102, UserID := 1, Type_ := "transaction", Name := "incoming",
           Conditions :=
             "\x7b\"address\":\"0xabc\",\"network\":\"ethereum\",\"type\":\"transaction\"\x7d",
           IsActive := true }]
      = Except.ok
          [{ alert :=
               { ID := 101, UserID := 1, Type_ := "price", Name := "broken",
                 Conditions := "no document", IsActive := true },
             result := Except.error "failed to parse conditions: invalid character" },
           { alert :=
               { ID := 102, UserID := 1, Type_ := "transaction", Name := "incoming",
                 Conditions :=
                   "\x7b\"address\":\"0xabc\",\"network\":\"ethereum\",\"type\":\"transaction\"\x7d",
                 IsActive := true },
             result := Except.ok none }] :=
  (CheckAlerts_isolates_failures sampleEnv
    [{ ID := 101, UserID := 1, Type_ := "price", Name := "broken",
       Conditions := "no document", IsActive := true },
     { ID := 102, UserID := 1, Type_ := "transaction", Name := "incoming",
       Conditions :=
         "\x7b\"address\":\"0xabc\",\"network\":\"ethereum\",\"type\":\"transaction\"\x7d",
       IsActive := true }] rfl).1.trans rfl

/-! ## Validated conditions -/

/-- The conditions of a price alert whose target value is the string `"100"`
pass the validation, are stored by `CreateAlert`, and the evaluation of the
stored alert fails on the type of the value. -/
theorem validated_evaluation_counterexample :
    validateConditions
        [("type", Value.str "price"), ("token", Value.str "ETH"),
         ("operator", Value.str "=="), ("value", Value.str "100")] = Except.ok () ∧
    CreateAlert quotedEnv [] "u1" "price" "ETH at 100"
        [("type", Value.str "price"), ("token", Value.str "ETH"),
         ("operator", Value.str "=="), ("value", Value.str "100")]
      = Except.ok
          ({ ID := 101, UserID := 1, Type_ := "price", Name := "ETH at 100",
             Conditions :=
               "\x7b\"operator\":\"==\",\"token\":\"ETH\",\"type\":\"price\",\"value\":\"100\"\x7d",
             IsActive := true },
           [{ ID := 101, UserID := 1, Type_ := "price", Name := "ETH at 100",
              Conditions :=
                "\x7b\"operator\":\"==\",\"token\":\"ETH\",\"type\":\"price\",\"value\":\"100\"\x7d",
              IsActive := true }]) ∧
    checkAlert quotedEnv
        { ID := 101, UserID := 1, Type_ := "price", Name := "ETH at 100",
          Conditions :=
            "\x7b\"operator\":\"==\",\"token\":\"ETH\",\"type\":\"price\",\"value\":\"100\"\x7d",
          IsActive := true }
      = Except.error "value not specified in conditions" :=
  ⟨rfl, rfl, rfl⟩

theorem getString_congr (c c' : Conditions) (h : ∀ k, get c' k = get c k) (k : String) :
    getString c' k = getString c k := by
  simp only [getString, h]

theorem getFloat_congr (c c' : Conditions) (h : ∀ k, get c' k = get c k) (k : String) :
    getFloat c' k = getFloat c k := by
  simp only [getFloat, h]

theorem checkPriceAlert_ok (alert : Alert) (c : Conditions) (token operator : String) (x : ℚ)
    (ht : getString c "token" = some token) (ho : getString c "operator" = some operator)
    (hv : getFloat c "value" = some x) : ∃ r, checkPriceAlert alert c = Except.ok r := by
  simp only [checkPriceAlert, ht, ho, hv]
  split <;> exact ⟨_, rfl⟩

theorem checkBalanceAlert_ok (alert : Alert) (c : Conditions)
    (address network operator : String) (x : ℚ)
    (ha : getString c "address" = some address) (hn : getString c "network" = some network)
    (ho : getString c "operator" = some operator)
    (hv : getFloat c "value" = some x) : ∃ r, checkBalanceAlert alert c = Except.ok r := by
  simp only [checkBalanceAlert, ha, hn, ho, hv]
  split <;> exact ⟨_, rfl⟩

theorem checkTransactionAlert_ok (alert : Alert) (c : Conditions) (address network : String)
    (ha : getString c "address" = some address) (hn : getString c "network" = some network) :
    ∃ r, checkTransactionAlert alert c = Except.ok r := by
  simp only [checkTransactionAlert, ha, hn]
  split <;> exact ⟨_, rfl⟩

/-- C27, amended. Let `validateConditions` accept a map whose `type` is the
type of the alert, let the stored conditions of the alert be the JSON document
of the map, and let the document of the map read back to a map with the same
entries.  When the entries the evaluation of that type reads have the types
it asserts, `token` (or `address` and `network`) a string and `value` a number,
`checkAlert` returns no error. -/
theorem validated_typed_evaluates (env : Env) (alert : Alert) (c : Conditions)
    (hvalid : validateConditions c = Except.ok ())
    (htype : getString c "type" = some alert.Type_)
    (hstored : env.marshal c = Except.ok alert.Conditions)
    (hcodec : ∀ document, env.marshal c = Except.ok document →
      ∃ c', env.unmarshal document = Except.ok c' ∧ ∀ k, get c' k = get c k)
    (hprice : alert.Type_ = "price" →
      (∃ token, get c "token" = some (Value.str token)) ∧
      (∃ x, get c "value" = some (Value.num x)))
    (hbalance : alert.Type_ = "balance" →
      (∃ address, get c "address" = some (Value.str address)) ∧
      (∃ network, get c "network" = some (Value.str network)) ∧
      (∃ x, get c "value" = some (Value.num x)))
    (htransaction : alert.Type_ = "transaction" →
      (∃ address, get c "address" = some (Value.str address)) ∧
      (∃ network, get c "network" = some (Value.str network))) :
    ∃ r, checkAlert env alert = Except.ok r := by
  obtain ⟨c', hread, hsame⟩ := hcodec alert.Conditions hstored
  have hs := getString_congr c c' hsame
  have hf := getFloat_congr c c' hsame
  rw [validateConditions_of_type c alert.Type_ htype] at hvalid
  unfold checkAlert
  rw [hread]
  simp only
  by_cases h1 : alert.Type_ = "price"
  · simp only [h1, if_true] at hvalid ⊢
    obtain ⟨-, -, -, op, hop, -⟩ := (validatePriceConditions_ok_iff c).1 hvalid
    obtain ⟨⟨token, ht⟩, ⟨x, hx⟩⟩ := hprice h1
    exact checkPriceAlert_ok alert c' token op x
      ((hs "token").trans ((getString_eq_some_iff c "token" token).2 ht))
      ((hs "operator").trans ((getString_eq_some_iff c "operator" op).2 hop))
      ((hf "value").trans ((getFloat_eq_some_iff c "value" x).2 hx))
  · by_cases h2 : alert.Type_ = "balance"
    · simp only [h2, if_true] at hvalid ⊢
      simp only [show ¬ ("balance" = "price") by decide, if_false] at hvalid ⊢
      obtain ⟨-, -, -, -, op, hop, -⟩ := (validateBalanceConditions_ok_iff c).1 hvalid
      obtain ⟨⟨address, ha⟩, ⟨network, hn⟩, ⟨x, hx⟩⟩ := hbalance h2
      exact checkBalanceAlert_ok alert c' address network op x
        ((hs "address").trans ((getString_eq_some_iff c "address" address).2 ha))
        ((hs "network").trans ((getString_eq_some_iff c "network" network).2 hn))
        ((hs "operator").trans ((getString_eq_some_iff c "operator" op).2 hop))
        ((hf "value").trans ((getFloat_eq_some_iff c "value" x).2 hx))
    · by_cases h3 : alert.Type_ = "transaction"
      · simp only [h3, if_true] at hvalid ⊢
        simp only [show ¬ ("transaction" = "price") by decide,
          show ¬ ("transaction" = "balance") by decide, if_false] at hvalid ⊢
        obtain ⟨⟨address, ha⟩, ⟨network, hn⟩⟩ := htransaction h3
        exact checkTransactionAlert_ok alert c' address network
          ((hs "address").trans ((getString_eq_some_iff c "address" address).2 ha))
          ((hs "network").trans ((getString_eq_some_iff c "network" network).2 hn))
      · simp only [h1, h2, h3, if_false] at hvalid
        cases hvalid

theorem sample_document_roundtrip (k : String) :
    get [("address", Value.str "0xabc"), ("network", Value.str "ethereum"),
        ("type", Value.str "transaction")] k =
      get [("type", Value.str "transaction"), ("address", Value.str "0xabc"),
        ("network", Value.str "ethereum")] k := by
  by_cases h1 : k = "address"
  · subst h1; rfl
  · by_cases h2 : k = "network"
    · subst h2; rfl
    · by_cases h3 : k = "type"
      · subst h3; rfl
      · have e1 : (k == "address") = false := by simpa using h1
        have e2 : (k == "network") = false := by simpa using h2
        have e3 : (k == "type") = false := by simpa using h3
        simp [get, List.lookup, e1, e2, e3]

/-- Witness of C27: the conditions of a transaction alert, with the address and
the network as strings. -/
theorem validated_typed_evaluates_witness :
    ∃ r, checkAlert sampleEnv
      { ID := 101, UserID := 1, Type_ := "transaction", Name := "incoming",
        Conditions :=
          "\x7b\"address\":\"0xabc\",\"network\":\"ethereum\",\"type\":\"transaction\"\x7d",
        IsActive := true } = Except.ok r :=
  validated_typed_evaluates sampleEnv
    { ID := 101, UserID := 1, Type_ := "transaction", Name := "incoming",
      Conditions :=
        "\x7b\"address\":\"0xabc\",\"network\":\"ethereum\",\"type\":\"transaction\"\x7d",
      IsActive := true }
    [("type", Value.str "transaction"), ("address", Value.str "0xabc"),
      ("network", Value.str "ethereum")]
    rfl rfl rfl
    (fun document hdocument =>
      ⟨[("address", Value.str "0xabc"), ("network", Value.str "ethereum"),
          ("type", Value.str "transaction")],
        by
          have h : (Except.ok
              "\x7b\"address\":\"0xabc\",\"network\":\"ethereum\",\"type\":\"transaction\"\x7d"
                : Except String String) = Except.ok document := hdocument
          injection h with h
          rw [← h]
          rfl,
        sample_document_roundtrip⟩)
    (fun h => absurd h (by decide)) (fun h => absurd h (by decide))
    (fun _ => ⟨⟨"0xabc", rfl⟩, ⟨"ethereum", rfl⟩⟩)

end AlertService

/-!
# Facts about the decoding of a token balance
-/

namespace Web3Service

theorem SetBytes_append (front back : List Nat) :
    SetBytes (front ++ back) = SetBytes front * 256 ^ back.length + SetBytes back := by
  induction back using List.reverseRecOn generalizing front with
  | nil => simp [SetBytes]
  | append_singleton back b ih =>
    have h1 : SetBytes (front ++ (back ++ [b])) = SetBytes (front ++ back) * 256 + b % 256 := by
      simp [SetBytes, List.foldl_append]
    have h2 : SetBytes (back ++ [b]) = SetBytes back * 256 + b % 256 := by
      simp [SetBytes, List.foldl_append]
    rw [h1, h2, ih]
    simp only [List.length_append, List.length_singleton, pow_succ]
    ring

theorem SetBytes_eq_bigEndian (bytes : List Nat) (hbytes : ∀ b ∈ bytes, b < 256) :
    SetBytes bytes = bigEndian bytes := by
  induction bytes with
  | nil => rfl
  | cons b rest ih =>
    have hcons := SetBytes_append [b] rest
    simp only [List.singleton_append] at hcons
    have hb : SetBytes [b] = b := by
      simp only [SetBytes, List.foldl_cons, List.foldl_nil, Nat.zero_mul, Nat.zero_add]
      exact Nat.mod_eq_of_lt (hbytes b (List.mem_cons_self b rest))
    rw [hcons, hb, bigEndian, ih (fun x hx => hbytes x (List.mem_cons_of_mem b hx))]

theorem bigEndian_lt (bytes : List Nat) (hbytes : ∀ b ∈ bytes, b < 256) :
    bigEndian bytes < 256 ^ bytes.length := by
  induction bytes with
  | nil => simp [bigEndian]
  | cons b rest ih =>
    have hb := hbytes b (List.mem_cons_self b rest)
    have hrest := ih (fun x hx => hbytes x (List.mem_cons_of_mem b hx))
    simp only [bigEndian, List.length_cons, pow_succ]
    nlinarith

theorem bigEndian_zeros (n : Nat) (bytes : List Nat) :
    bigEndian (List.replicate n 0 ++ bytes) = bigEndian bytes := by
  induction n with
  | zero => rfl
  | succ n ih => simp [List.replicate_succ, bigEndian, ih]

theorem toBytes_succ (width n : Nat) :
    toBytes (width + 1) n = (n / 256 ^ width % 256) :: toBytes width n := by
  simp only [toBytes, List.range_succ_eq_map, List.map_cons, List.map_map]
  refine congrArg₂ _ (by simp) ?_
  apply List.map_congr_left
  intro i _
  simp only [Function.comp]
  congr 3
  omega

theorem toBytes_add_mul (width high low : Nat) :
    toBytes width (high * 256 ^ width + low) = toBytes width low := by
  simp only [toBytes]
  apply List.map_congr_left
  intro i hi
  have hlt : i < width := List.mem_range.1 hi
  have hsplit : 256 ^ width = 256 ^ (width - 1 - i) * (256 * 256 ^ i) := by
    rw [← pow_succ', ← pow_add]
    congr 1
    omega
  have hpos : 0 < 256 ^ (width - 1 - i) := by positivity
  rw [hsplit, show high * (256 ^ (width - 1 - i) * (256 * 256 ^ i)) + low
      = low + 256 ^ (width - 1 - i) * (high * 256 ^ i * 256) by ring,
    Nat.add_mul_div_left _ _ hpos, Nat.add_mul_mod_self_right]

theorem toBytes_bigEndian (bytes : List Nat) (hbytes : ∀ b ∈ bytes, b < 256) :
    toBytes bytes.length (bigEndian bytes) = bytes := by
  induction bytes with
  | nil => rfl
  | cons b rest ih =>
    have hb := hbytes b (List.mem_cons_self b rest)
    have hrest : ∀ x ∈ rest, x < 256 := fun x hx => hbytes x (List.mem_cons_of_mem b hx)
    have hlt := bigEndian_lt rest hrest
    have hpos : 0 < 256 ^ rest.length := by positivity
    rw [List.length_cons, toBytes_succ, bigEndian, toBytes_add_mul, ih hrest]
    congr 1
    rw [Nat.add_comm, Nat.add_mul_div_right _ _ hpos, Nat.div_eq_of_lt hlt, Nat.zero_add,
      Nat.mod_eq_of_lt hb]

/-- C29. When the node answers the call `balanceOf` with the bytes `bytes`,
`GetTokenBalance` returns the natural number of which `bytes` is the
big-endian encoding: the sum of the bytes weighted by the powers of 256, the
first byte the most significant.  An empty answer gives 0, zero bytes in front
do not change the number, the number is below `256 ^ bytes.length`, and
writing it on as many bytes gives `bytes` back.  The result is a natural
number, so it is never negative. -/
theorem GetTokenBalance_decodes (s : Web3Env) (address tokenAddress network : String)
    (client : Client) (bytes : List Nat)
    (hclient : s.clients network = some client)
    (haddress : IsHexAddress address = true)
    (htoken : IsHexAddress tokenAddress = true)
    (hcall : client.CallContract (HexToAddress tokenAddress)
      (packBalanceOf (HexToAddress address)) = Except.ok bytes)
    (hbytes : ∀ b ∈ bytes, b < 256) :
    (GetTokenBalance s address tokenAddress network).result = Except.ok (bigEndian bytes) ∧
    (bytes = [] → (GetTokenBalance s address tokenAddress network).result = Except.ok 0) ∧
    (∀ n, bigEndian (List.replicate n 0 ++ bytes) = bigEndian bytes) ∧
    bigEndian bytes < 256 ^ bytes.length ∧
    toBytes bytes.length (bigEndian bytes) = bytes := by
  have hresult : (GetTokenBalance s address tokenAddress network).result
      = Except.ok (bigEndian bytes) := by
    simp only [GetTokenBalance, hclient, haddress, htoken, hcall, Bool.not_true, Bool.or_self,
      Bool.false_eq_true, if_false]
    by_cases hlen : bytes.length = 0
    · have hnil : bytes = [] := List.length_eq_zero.1 hlen
      subst hnil
      rfl
    · simp only [hlen, if_false, SetBytes_eq_bigEndian bytes hbytes]
  refine ⟨hresult, ?_, fun n => bigEndian_zeros n bytes, bigEndian_lt bytes hbytes,
    toBytes_bigEndian bytes hbytes⟩
  intro hnil
  rw [hresult, hnil]
  rfl

/-- Witness of C29: on `polygon` the contract of WMATIC answers the account
`0x...01` with the 32 bytes of `10 ^ 30`. -/
theorem GetTokenBalance_decodes_witness :
    (GetTokenBalance (sampleWeb3 false) "0x0000000000000000000000000000000000000001"
        "0x0d500B1d8E8eF31E21C99d1Db9A6444d3ADf1270" "polygon").result
      = Except.ok (10 ^ 30) :=
  (GetTokenBalance_decodes (sampleWeb3 false) "0x0000000000000000000000000000000000000001"
    "0x0d500B1d8E8eF31E21C99d1Db9A6444d3ADf1270" "polygon"
    { BalanceAt := fun account =>
        if false && account = 2 then Except.error "connection refused" else Except.ok 0
      CallContract := fun contract data =>
        if contract = HexToAddress "0x0d500B1d8E8eF31E21C99d1Db9A6444d3ADf1270"
            && data = packBalanceOf 1 then
          Except.ok (toBytes 32 (10 ^ 30))
        else Except.ok [] }
    (toBytes 32 (10 ^ 30)) rfl (by decide) (by decide) (by rfl) (by decide)).1.trans
    (by rfl)

end Web3Service

/-!
# Facts about repeated refreshes, the addresses and the summaries
-/

namespace PortfolioService

open AlertService (UUID)
open Web3Service

/-! ## Refreshing again -/

theorem GetPortfolioAddresses_balances (env : PortfolioEnv) (store : Store)
    (rows : List Balance) (userID portfolioID : String) :
    GetPortfolioAddresses env { store with balances := rows } userID portfolioID
      = GetPortfolioAddresses env store userID portfolioID := rfl

/-- C25. A second `RefreshPortfolioBalances` on the store the first one left,
with the same answers of the nodes and the same tables, returns what the first
returned: the same error, or the same sequence of records, equal in
`AddressID`, `TokenAddress`, `Symbol`, `Name`, `Amount`, `Decimals`, `Price`
and `Value` (and in `ID`, which is the nil UUID in a returned record).  The
first refresh changes no table but `balances`. -/
theorem refresh_idempotent (env : PortfolioEnv) (w : Web3Env) (store : Store)
    (userID portfolioID : String) :
    (RefreshPortfolioBalances env w
        (RefreshPortfolioBalances env w store userID portfolioID).2 userID portfolioID).1
      = (RefreshPortfolioBalances env w store userID portfolioID).1 ∧
    (RefreshPortfolioBalances env w store userID portfolioID).2.addresses = store.addresses ∧
    (RefreshPortfolioBalances env w store userID portfolioID).2.portfolios
      = store.portfolios := by
  unfold RefreshPortfolioBalances
  cases h : GetPortfolioAddresses env store userID portfolioID with
  | error e => simp [h]
  | ok addresses => simp [GetPortfolioAddresses_balances, h]

/-! ## The two fetches of an address -/

theorem addressBalances_ne_nil (w : Web3Env) (address : Address)
    (h : addressBalances w address ≠ []) :
    (∃ balance, (GetBalance w address.Address address.Network).result = Except.ok balance) ∧
    (∃ tokenBalances,
      GetTokenBalances w address.Address address.Network = Except.ok tokenBalances) := by
  cases hb : (GetBalance w address.Address address.Network).result with
  | error e => exact absurd (addressBalances_failed w address (Or.inl ⟨e, hb⟩)) h
  | ok balance =>
    cases ht : GetTokenBalances w address.Address address.Network with
    | error e => exact absurd (addressBalances_failed w address (Or.inr ⟨e, ht⟩)) h
    | ok tokenBalances => exact ⟨⟨balance, rfl⟩, ⟨tokenBalances, rfl⟩⟩

theorem mem_collectBalances (w : Web3Env) (addresses : List Address) (record : Balance) :
    record ∈ collectBalances w addresses ↔
      ∃ address ∈ addresses, record ∈ addressBalances w address := by
  induction addresses with
  | nil => simp [collectBalances]
  | cons address rest ih => simp [collectBalances, ih]

theorem RefreshPortfolioBalances_ok (env : PortfolioEnv) (w : Web3Env) (store : Store)
    (userID portfolioID : String) (records : List Balance)
    (h : (RefreshPortfolioBalances env w store userID portfolioID).1 = Except.ok records) :
    ∃ addresses, GetPortfolioAddresses env store userID portfolioID = Except.ok addresses ∧
      records = collectBalances w addresses := by
  unfold RefreshPortfolioBalances at h
  cases ha : GetPortfolioAddresses env store userID portfolioID with
  | error e =>
    rw [ha] at h
    cases h
  | ok addresses =>
    rw [ha] at h
    simp only [Except.ok.injEq] at h
    exact ⟨addresses, rfl, h.symm⟩

/-- On a service that `NewWeb3Service` built, the token fetch succeeds whenever
the fetch of the native balance does: a client exists only for a network of
the table `tokens`. -/
theorem NewWeb3Service_fetches (connected : String → Option Client)
    (ToLower ToUpper : String → String) (address network : String) (balance : Nat)
    (h : (GetBalance (NewWeb3Service connected ToLower ToUpper) address network).result
      = Except.ok balance) :
    ∃ tokenBalances,
      GetTokenBalances (NewWeb3Service connected ToLower ToUpper) address network
        = Except.ok tokenBalances := by
  cases hl : tokens.lookup network with
  | some networkTokens =>
    exact ⟨collectTokenBalances (NewWeb3Service connected ToLower ToUpper) address network
      networkTokens, by simp only [GetTokenBalances, hl]⟩
  | none =>
    have hiff := tokens_lookup_isSome network
    rw [hl] at hiff
    simp only [Option.isSome_none, Bool.false_eq_true, false_iff, List.mem_cons,
      List.mem_singleton, List.not_mem_nil, or_false, not_or] at hiff
    obtain ⟨h1, h2, h3, h4⟩ := hiff
    have hnone : (NewWeb3Service connected ToLower ToUpper).clients network = none := by
      simp only [NewWeb3Service, h1, h2, h3, h4, if_false]
    simp only [GetBalance, hnone] at h
    cases h

/-- The sample environment is a service that `NewWeb3Service` builds, from the
nodes of `ethereum`, `polygon` and `arbitrum`. -/
theorem sampleWeb3_built (outage : Bool) :
    sampleWeb3 outage = NewWeb3Service (sampleWeb3 outage).clients asciiLower asciiUpper := by
  have hclients : (sampleWeb3 outage).clients
      = (NewWeb3Service (sampleWeb3 outage).clients asciiLower asciiUpper).clients := by
    funext network
    by_cases h1 : network = "ethereum"
    · simp [NewWeb3Service, h1]
    · by_cases h2 : network = "polygon"
      · simp [NewWeb3Service, h2]
      · by_cases h3 : network = "bsc"
        · subst h3
          rfl
        · by_cases h4 : network = "arbitrum"
          · simp [NewWeb3Service, h4]
          · simp [NewWeb3Service, sampleWeb3, h1, h2, h3, h4]
  calc sampleWeb3 outage
      = { clients := (sampleWeb3 outage).clients, ToLower := asciiLower,
          ToUpper := asciiUpper } := rfl
    _ = NewWeb3Service (sampleWeb3 outage).clients asciiLower asciiUpper := by
        rw [hclients]
        rfl

/-- C28. Every record that `RefreshPortfolioBalances` returns was added by an
address of the portfolio for which both `GetBalance` and `GetTokenBalances`
succeeded.  An address for which `GetTokenBalances` fails adds no record,
whatever `GetBalance` returned for it, so not even the record of a non-zero
native balance: the refresh returns the records of the other addresses alone. -/
theorem refresh_needs_both_fetches (env : PortfolioEnv) (w : Web3Env) (store : Store)
    (userID portfolioID : String) (records : List Balance) (record : Balance)
    (hresult : (RefreshPortfolioBalances env w store userID portfolioID).1 = Except.ok records)
    (hrecord : record ∈ records) :
    ∃ addresses, GetPortfolioAddresses env store userID portfolioID = Except.ok addresses ∧
      (∃ address ∈ addresses, record ∈ addressBalances w address ∧
        (∃ balance,
          (GetBalance w address.Address address.Network).result = Except.ok balance) ∧
        (∃ tokenBalances,
          GetTokenBalances w address.Address address.Network = Except.ok tokenBalances)) ∧
      (∀ (before after : List Address) (address : Address),
        addresses = before ++ address :: after →
        (∃ e, GetTokenBalances w address.Address address.Network = Except.error e) →
        addressBalances w address = [] ∧
        (∀ balance, nativeRecord address balance ∉ addressBalances w address) ∧
        records = collectBalances w before ++ collectBalances w after) := by
  obtain ⟨addresses, haddrs, hrecords⟩ :=
    RefreshPortfolioBalances_ok env w store userID portfolioID records hresult
  refine ⟨addresses, haddrs, ?_, ?_⟩
  · rw [hrecords, mem_collectBalances] at hrecord
    obtain ⟨address, hmem, hin⟩ := hrecord
    have hne : addressBalances w address ≠ [] := List.ne_nil_of_mem hin
    obtain ⟨hb, ht⟩ := addressBalances_ne_nil w address hne
    exact ⟨address, hmem, hin, hb, ht⟩
  · intro before after address hsplit hfail
    have hnone : addressBalances w address = [] :=
      addressBalances_failed w address (Or.inr hfail)
    refine ⟨hnone, fun balance => by simp [hnone], ?_⟩
    rw [hrecords, hsplit, collectBalances_append]
    simp [collectBalances, hnone]

set_option maxRecDepth 100000 in
/-- Witness of C28: the record of the native balance in the refresh of the
sample portfolio comes from its address on `ethereum`, for which both fetches
succeed. -/
theorem refresh_needs_both_fetches_witness :
    ∃ address ∈ sampleStore.addresses,
      address.Network = "ethereum" ∧
      (∃ balance,
        (GetBalance (sampleWeb3 false) address.Address address.Network).result
          = Except.ok balance) ∧
      (∃ tokenBalances,
        GetTokenBalances (sampleWeb3 false) address.Address address.Network
          = Except.ok tokenBalances) := by
  obtain ⟨addresses, haddrs, ⟨address, hmem, hin, hb, ht⟩, -⟩ :=
    refresh_needs_both_fetches sampleEnv (sampleWeb3 false) sampleStore "u1" "p1"
      [{ ID := 0, AddressID := 21, TokenAddress := "", Symbol := "ETH", Name := "Ethereum",
         Amount := "2000000000000000000", Decimals := 18, Price := "", Value := "" },
       { ID := 0, AddressID := 21,
         TokenAddress := "0xdAC17F958D2ee523a2206206994597C13D831ec7", Symbol := "USDT",
         Name := "Tether USD", Amount := "1500000", Decimals := 18, Price := "1.00",
         Value := "0.00000000" }]
      { ID := 0, AddressID := 21, TokenAddress := "", Symbol := "ETH", Name := "Ethereum",
        Amount := "2000000000000000000", Decimals := 18, Price := "", Value := "" }
      (by rfl) (List.mem_cons_self _ _)
  have hlist : Except.ok addresses = (Except.ok sampleStore.addresses : Except String _) :=
    haddrs.symm.trans (by rfl)
  injection hlist with hlist
  subst hlist
  refine ⟨address, hmem, ?_, hb, ht⟩
  simp only [sampleStore, List.mem_cons, List.mem_singleton, List.not_mem_nil, or_false] at hmem
  rcases hmem with h | h
  · rw [h]
  · rw [h] at hin
    exact absurd hin (by decide)

/-! ## Addresses and their portfolio -/

/-- C30. When `GetPortfolio` finds the portfolio for the user and the address
identifier parses, `DeleteAddress` deletes every row of `addresses` with that
identifier and `UpdateAddress` gives the row with that identifier the new label
and returns it, whatever the `PortfolioID` of the row: neither function
compares it with the portfolio, so the row may belong to another portfolio,
of another user. -/
theorem address_of_any_portfolio (env : PortfolioEnv) (store : Store)
    (userID portfolioID addressID label : String) (portfolio : Portfolio)
    (addressUUID : UUID)
    (hportfolio : GetPortfolio env store userID portfolioID = Except.ok portfolio)
    (hid : env.parseUUID addressID = Except.ok addressUUID)
    (hfirst : env.dbError StoreOp.firstAddress = none)
    (hsave : env.dbError StoreOp.saveAddress = none)
    (hdelete : env.dbError StoreOp.deleteAddress = none) :
    DeleteAddress env store userID portfolioID addressID
      = (Except.ok (),
          { store with addresses := store.addresses.filter (fun row => row.ID != addressUUID) }) ∧
    (∀ row ∈ (DeleteAddress env store userID portfolioID addressID).2.addresses,
      row.ID ≠ addressUUID) ∧
    (∀ found : Address, store.addresses.find? (fun row => row.ID == addressUUID) = some found →
      UpdateAddress env store userID portfolioID addressID label
        = (Except.ok { found with Label := label },
            { store with
              addresses := saveAddress store.addresses { found with Label := label } }) ∧
      ({ found with Label := label } : Address) ∈
        (UpdateAddress env store userID portfolioID addressID label).2.addresses) := by
  have hdel : DeleteAddress env store userID portfolioID addressID
      = (Except.ok (),
          { store with
            addresses := store.addresses.filter (fun row => row.ID != addressUUID) }) := by
    simp only [DeleteAddress, hportfolio, hid, hdelete]
  refine ⟨hdel, ?_, ?_⟩
  · intro row hrow
    rw [hdel] at hrow
    simpa using (List.mem_filter.1 hrow).2
  · intro found hfound
    have hupd : UpdateAddress env store userID portfolioID addressID label
        = (Except.ok { found with Label := label },
            { store with
              addresses := saveAddress store.addresses { found with Label := label } }) := by
      simp only [UpdateAddress, hportfolio, hid, hfirst, hfound, hsave]
    refine ⟨hupd, ?_⟩
    rw [hupd]
    simp only [saveAddress, List.mem_map]
    exact ⟨found, List.mem_of_find?_eq_some hfound, by simp⟩

/-- Witness of C30: the user `u1`, through the own portfolio `p1`, deletes and
relabels the address `a3` of the portfolio of another user. -/
theorem address_of_any_portfolio_witness :
    DeleteAddress addressEnv sharedStore "u1" "p1" "a3"
      = (Except.ok (), { sharedStore with addresses := sampleStore.addresses }) ∧
    (UpdateAddress addressEnv sharedStore "u1" "p1" "a3" "mine").1
      = Except.ok
          { ID := 23, PortfolioID := 12, Address := "0x0000000000000000000000000000000000000003",
            Network := "ethereum", Label := "mine", IsActive := true } :=
  ⟨(address_of_any_portfolio addressEnv sharedStore "u1" "p1" "a3" "mine"
      { ID := 11, UserID := 1, Name := "main",
        Addresses :=
          [{ ID := 21, PortfolioID := 11,
             Address := "0x0000000000000000000000000000000000000001",
             Network := "ethereum", Label := "hot", IsActive := true },
           { ID := 22, PortfolioID := 11,
             Address := "0x0000000000000000000000000000000000000002",
             Network := "polygon", Label := "cold", IsActive := true }] }
      23 (by rfl) (by rfl) (by rfl) (by rfl) (by rfl)).1.trans (by rfl),
    by rfl⟩

end PortfolioService

/-!
# Facts about the allocation and the summary
-/

namespace PortfolioService

open AlertService (UUID)
open Web3Service

/-! ## Maps -/

theorem mem_mapSet {α : Type} (m : List (String × α)) (key : String) (value : α)
    (x : String × α) (h : x ∈ mapSet m key value) : x = (key, value) ∨ x ∈ m := by
  induction m with
  | nil => simpa [mapSet] using h
  | cons head rest ih =>
    obtain ⟨k, v⟩ := head
    unfold mapSet at h
    by_cases hk : k = key
    · simp only [hk, if_true, List.mem_cons] at h
      rcases h with h | h
      · exact Or.inl h
      · exact Or.inr (List.mem_cons_of_mem _ h)
    · simp only [hk, if_false, List.mem_cons] at h
      rcases h with h | h
      · exact Or.inr (h ▸ List.mem_cons_self _ _)
      · rcases ih h with h | h
        · exact Or.inl h
        · exact Or.inr (List.mem_cons_of_mem _ h)

theorem lookup_mapSet_self {α : Type} (m : List (String × α)) (key : String) (value : α) :
    (mapSet m key value).lookup key = some value := by
  induction m with
  | nil => simp [mapSet, List.lookup]
  | cons head rest ih =>
    obtain ⟨k, v⟩ := head
    unfold mapSet
    by_cases hk : k = key
    · simp [hk, List.lookup]
    · have hne : (key == k) = false := by simpa using fun h : key = k => hk h.symm
      simp only [hk, if_false, List.lookup, hne, ih]

theorem lookup_mapSet_ne {α : Type} (m : List (String × α)) (key other : String) (value : α)
    (h : other ≠ key) : (mapSet m key value).lookup other = m.lookup other := by
  induction m with
  | nil =>
    have hne : (other == key) = false := by simpa using h
    simp [mapSet, List.lookup, hne]
  | cons head rest ih =>
    obtain ⟨k, v⟩ := head
    unfold mapSet
    by_cases hk : k = key
    · have hne : (other == key) = false := by simpa using h
      have hne' : (other == k) = false := by rw [hk]; exact hne
      simp only [hk, if_true, List.lookup, hne]
    · simp only [hk, if_false, List.lookup, ih]

/-! ## The allocation -/

theorem foldl_allocate_snoc (balances : List LoadedBalance) (balance : LoadedBalance)
    (start : PortfolioAllocation) :
    (balances ++ [balance]).foldl allocate start
      = allocate (balances.foldl allocate start) balance := by
  simp [List.foldl_append]

theorem GetPortfolioAllocation_eq (env : PortfolioEnv) (store : Store)
    (userID portfolioID : String) (balances : List LoadedBalance)
    (h : GetPortfolioBalances env store userID portfolioID = Except.ok balances) :
    GetPortfolioAllocation env store userID portfolioID
      = Except.ok (balances.foldl allocate { ByNetwork := [], ByAsset := [] }) := by
  simp only [GetPortfolioAllocation, h]

theorem allocation_percentages (balances : List LoadedBalance) :
    (∀ entry ∈ (balances.foldl allocate { ByNetwork := [], ByAsset := [] }).ByNetwork,
      entry.2.Percentage = "0") ∧
    (∀ entry ∈ (balances.foldl allocate { ByNetwork := [], ByAsset := [] }).ByAsset,
      entry.2.Percentage = "0") := by
  induction balances using List.reverseRecOn with
  | nil => simp
  | append_singleton balances balance ih =>
    rw [foldl_allocate_snoc]
    obtain ⟨hn, ha⟩ := ih
    constructor
    · intro entry hentry
      simp only [allocate] at hentry
      split at hentry
      · exact hn entry hentry
      · rcases mem_mapSet _ _ _ _ hentry with h | h
        · rw [h]
        · exact hn entry h
    · intro entry hentry
      simp only [allocate] at hentry
      split at hentry
      · rcases mem_mapSet _ _ _ _ hentry with h | h
        · rw [h]
        · exact ha entry h
      · exact ha entry hentry

/-- C23. Whenever the balances of the portfolio are read, `GetPortfolioAllocation`
returns an allocation, and every `Percentage` in it, in `ByNetwork` and in
`ByAsset`, is the string `0`.  This holds whatever the total value is, so also
when it is 0; the function divides nowhere. -/
theorem allocation_percentage_zero (env : PortfolioEnv) (store : Store)
    (userID portfolioID : String) (balances : List LoadedBalance)
    (hbalances : GetPortfolioBalances env store userID portfolioID = Except.ok balances) :
    ∃ allocation, GetPortfolioAllocation env store userID portfolioID = Except.ok allocation ∧
      (∀ entry ∈ allocation.ByNetwork, entry.2.Percentage = "0") ∧
      (∀ entry ∈ allocation.ByAsset, entry.2.Percentage = "0") :=
  ⟨_, GetPortfolioAllocation_eq env store userID portfolioID balances hbalances,
    allocation_percentages balances⟩

/-- Witness of C23: a portfolio whose one balance has no value, so that its
total value is 0. -/
theorem allocation_percentage_zero_witness :
    ∃ allocation,
      GetPortfolioAllocation sampleEnv
        { sampleStore with
          balances :=
            [{ ID := 1000, AddressID := 21, TokenAddress := "", Symbol := "ETH",
               Name := "Ethereum", Amount := "2000000000000000000", Decimals := 18,
               Price := "", Value := "" }] } "u1" "p1" = Except.ok allocation ∧
      (∀ entry ∈ allocation.ByNetwork, entry.2.Percentage = "0") ∧
      (∀ entry ∈ allocation.ByAsset, entry.2.Percentage = "0") :=
  allocation_percentage_zero sampleEnv
    { sampleStore with
      balances :=
        [{ ID := 1000, AddressID := 21, TokenAddress := "", Symbol := "ETH",
           Name := "Ethereum", Amount := "2000000000000000000", Decimals := 18,
           Price := "", Value := "" }] } "u1" "p1"
    [{ row :=
         { ID := 1000, AddressID := 21, TokenAddress := "", Symbol := "ETH",
           Name := "Ethereum", Amount := "2000000000000000000", Decimals := 18,
           Price := "", Value := "" }
       Address :=
         { ID := 21, PortfolioID := 11, Address := "0x0000000000000000000000000000000000000001",
           Network := "ethereum", Label := "hot", IsActive := true } }]
    (by rfl)

/-- The portfolio of `valuedStore` has a total value above 0.  The entry of the
network `ethereum` has the value `0`, not the sum of the values of the two
priced balances on it, and the entry of the symbol `USDT` has the value 0.5 of
the last balance of USDT, not the sum of the two. -/
theorem allocation_sum_counterexample :
    GetPortfolioAllocation sampleEnv valuedStore "u1" "p1"
      = Except.ok
          { ByNetwork :=
              [("ethereum", { Value := "0", Percentage := "0", AssetCount := 0 }),
               ("polygon", { Value := "0", Percentage := "0", AssetCount := 0 })]
            ByAsset :=
              [("USDT",
                { Value := "0.50000000", Percentage := "0", Amount := "500000000000000000",
                  Network := "polygon" }),
               ("DAI",
                { Value := "2.50000000", Percentage := "0", Amount := "2500000000000000000",
                  Network := "ethereum" })] } := by
  rfl

theorem byNetwork_lookup (balances : List LoadedBalance) (network : String) :
    ((balances.foldl allocate { ByNetwork := [], ByAsset := [] }).ByNetwork.lookup network).map
        (fun entry => (entry.Value, entry.AssetCount))
      = if ∃ balance ∈ balances, balance.Address.Network = network then some ("0", 0)
        else none := by
  induction balances using List.reverseRecOn with
  | nil => simp [List.lookup]
  | append_singleton balances balance ih =>
    rw [foldl_allocate_snoc]
    simp only [allocate]
    by_cases hnet : balance.Address.Network = network
    · have hex : ∃ b ∈ balances ++ [balance], b.Address.Network = network :=
        ⟨balance, by simp, hnet⟩
      rw [if_pos hex]
      split
      · rename_i hsome
        rw [hnet] at hsome
        cases hl : (balances.foldl allocate { ByNetwork := [], ByAsset := [] }).ByNetwork.lookup
            network with
        | none => simp [hl] at hsome
        | some entry =>
          rw [hl] at ih
          by_cases hprev : ∃ b ∈ balances, b.Address.Network = network
          · rw [if_pos hprev] at ih
            exact ih
          · rw [if_neg hprev] at ih
            simp at ih
      · rw [hnet, lookup_mapSet_self]
        rfl
    · have hiff : (∃ b ∈ balances ++ [balance], b.Address.Network = network) ↔
          ∃ b ∈ balances, b.Address.Network = network := by
        constructor
        · rintro ⟨b, hb, hbn⟩
          rcases List.mem_append.1 hb with h | h
          · exact ⟨b, h, hbn⟩
          · rw [List.mem_singleton.1 h] at hbn
            exact absurd hbn hnet
        · rintro ⟨b, hb, hbn⟩
          exact ⟨b, List.mem_append_left _ hb, hbn⟩
      have hlook : ∀ m : List (String × NetworkAllocation),
          (if (m.lookup balance.Address.Network).isSome then m
            else mapSet m balance.Address.Network
              { Value := "0", Percentage := "0", AssetCount := 0 }).lookup network
            = m.lookup network := by
        intro m
        split
        · rfl
        · exact lookup_mapSet_ne m _ _ _ (fun h => hnet h.symm)
      rw [hlook, ih]
      simp only [hiff]

theorem byAsset_lookup (balances : List LoadedBalance) (symbol : String) :
    ((balances.foldl allocate { ByNetwork := [], ByAsset := [] }).ByAsset.lookup symbol).map
        (fun entry => (entry.Value, entry.Amount, entry.Network))
      = ((balances.filter
            (fun balance => decide (balance.row.Symbol = symbol ∧ balance.row.Value ≠ ""))).getLast?).map
          (fun balance => (balance.row.Value, balance.row.Amount, balance.Address.Network)) := by
  induction balances using List.reverseRecOn with
  | nil => simp [List.lookup]
  | append_singleton balances balance ih =>
    rw [foldl_allocate_snoc, List.filter_append]
    simp only [allocate]
    by_cases hkeep : decide (balance.row.Symbol = symbol ∧ balance.row.Value ≠ "") = true
    · have hf : List.filter
          (fun b : LoadedBalance => decide (b.row.Symbol = symbol ∧ b.row.Value ≠ ""))
          [balance] = [balance] := by
        simp only [List.filter, hkeep]
      obtain ⟨hsym, hval⟩ := of_decide_eq_true hkeep
      rw [if_pos hval, hsym, lookup_mapSet_self, hf, List.getLast?_append]
      rfl
    · have hf : List.filter
          (fun b : LoadedBalance => decide (b.row.Symbol = symbol ∧ b.row.Value ≠ ""))
          [balance] = [] := by
        simp only [List.filter, hkeep]
      rw [hf, List.append_nil, ← ih]
      by_cases hval : balance.row.Value ≠ ""
      · have hsym : balance.row.Symbol ≠ symbol := by
          intro h
          exact hkeep (decide_eq_true ⟨h, hval⟩)
        rw [if_pos hval, lookup_mapSet_ne _ _ _ _ (fun h => hsym h.symm)]
      · rw [if_neg hval]

/-- C24, amended. `GetPortfolioAllocation` groups the balances by network
and by symbol.  `ByNetwork` has an entry under a network exactly when a
balance of the portfolio is on it, and the entry has the value `0` and the
asset count 0.  `ByAsset` has an entry under a symbol exactly when a balance
with that symbol has a non-empty `Value`, and the entry carries the `Value`, the
`Amount` and the network of the last such balance. -/
theorem allocation_groups (env : PortfolioEnv) (store : Store)
    (userID portfolioID : String) (balances : List LoadedBalance)
    (hbalances : GetPortfolioBalances env store userID portfolioID = Except.ok balances) :
    ∃ allocation, GetPortfolioAllocation env store userID portfolioID = Except.ok allocation ∧
      (∀ network : String,
        (allocation.ByNetwork.lookup network).map (fun entry => (entry.Value, entry.AssetCount))
          = if ∃ balance ∈ balances, balance.Address.Network = network then some ("0", 0)
            else none) ∧
      (∀ symbol : String,
        (allocation.ByAsset.lookup symbol).map
            (fun entry => (entry.Value, entry.Amount, entry.Network))
          = ((balances.filter (fun balance =>
                decide (balance.row.Symbol = symbol ∧ balance.row.Value ≠ ""))).getLast?).map
              (fun balance =>
                (balance.row.Value, balance.row.Amount, balance.Address.Network))) :=
  ⟨_, GetPortfolioAllocation_eq env store userID portfolioID balances hbalances,
    byNetwork_lookup balances, byAsset_lookup balances⟩

/-- Witness of the amended C24: the entry of `USDT` for the portfolio of
`valuedStore`. -/
theorem allocation_groups_witness :
    ∃ allocation, GetPortfolioAllocation sampleEnv valuedStore "u1" "p1" = Except.ok allocation ∧
      (allocation.ByNetwork.lookup "ethereum").map (fun entry => (entry.Value, entry.AssetCount))
        = some ("0", 0) ∧
      (allocation.ByAsset.lookup "USDT").map
          (fun entry => (entry.Value, entry.Amount, entry.Network))
        = some ("0.50000000", "500000000000000000", "polygon") := by
  obtain ⟨allocation, h, hn, ha⟩ :=
    allocation_groups sampleEnv valuedStore "u1" "p1" _ (by rfl)
  exact ⟨allocation, h, (hn "ethereum").trans (by decide), (ha "USDT").trans (by rfl)⟩

end PortfolioService

/-!
# Facts about the summary
-/

namespace PortfolioService

open AlertService (UUID)
open Web3Service

/-! ## The sum of two numbers -/

theorem Add_val_target (x y : BigFloat) :
    (((x.mant * 2 ^ (x.exp - min x.exp y.exp).toNat
        + y.mant * 2 ^ (y.exp - min x.exp y.exp).toNat : Nat) : ℚ)) / ((1 : Nat) : ℚ)
        * (2 : ℚ) ^ (min x.exp y.exp)
      = x.val + y.val := by
  have h2 : (2 : ℚ) ≠ 0 := by norm_num
  have hx : (((x.exp - min x.exp y.exp).toNat : Nat) : Int) = x.exp - min x.exp y.exp :=
    Int.toNat_of_nonneg (by have := min_le_left x.exp y.exp; omega)
  have hy : (((y.exp - min x.exp y.exp).toNat : Nat) : Int) = y.exp - min x.exp y.exp :=
    Int.toNat_of_nonneg (by have := min_le_right x.exp y.exp; omega)
  have ex : (2 : ℚ) ^ (x.exp - min x.exp y.exp).toNat * (2 : ℚ) ^ (min x.exp y.exp)
      = (2 : ℚ) ^ x.exp := by
    rw [← zpow_natCast, hx, ← zpow_add₀ h2]
    congr 1
    omega
  have ey : (2 : ℚ) ^ (y.exp - min x.exp y.exp).toNat * (2 : ℚ) ^ (min x.exp y.exp)
      = (2 : ℚ) ^ y.exp := by
    rw [← zpow_natCast, hy, ← zpow_add₀ h2]
    congr 1
    omega
  simp only [BigFloat.val]
  push_cast
  rw [div_one, add_mul, mul_assoc, mul_assoc, ex, ey]

theorem Add_error (prec : Nat) (x y : BigFloat) (hprec : prec ≠ 0) :
    |(Add prec x y).val - (x.val + y.val)| * (2 : ℚ) ^ prec ≤ x.val + y.val := by
  have h := round_error_le prec
    (x.mant * 2 ^ (x.exp - min x.exp y.exp).toNat + y.mant * 2 ^ (y.exp - min x.exp y.exp).toNat)
    1 (min x.exp y.exp) (by norm_num)
  rw [Add_val_target] at h
  simpa only [Web3Service.Add, hprec, if_false] using h

theorem Add_prec (prec : Nat) (x y : BigFloat) (hprec : prec ≠ 0) :
    (Add prec x y).prec = prec := by
  simp only [Web3Service.Add, hprec, if_false, round_prec]

theorem BigFloat_val_nonneg (x : BigFloat) : 0 ≤ x.val := by
  unfold BigFloat.val
  positivity

/-! ## The total -/

/-- The step of the loop on a value that `ParseFloat` read. -/
theorem addValue_priced (ParseFloat : String → Option BigFloat) (total : BigFloat)
    (balance : LoadedBalance) (value : BigFloat)
    (h : (if balance.row.Value ≠ "" then ParseFloat balance.row.Value else none) = some value) :
    addValue ParseFloat total balance = Add total.prec total { value with prec := 53 } := by
  unfold addValue
  by_cases hv : balance.row.Value ≠ ""
  · rw [if_pos hv] at h ⊢
    rw [h]
  · rw [if_neg hv] at h
    cases h

theorem addValue_unpriced (ParseFloat : String → Option BigFloat) (total : BigFloat)
    (balance : LoadedBalance)
    (h : (if balance.row.Value ≠ "" then ParseFloat balance.row.Value else none) = none) :
    addValue ParseFloat total balance = total := by
  unfold addValue
  by_cases hv : balance.row.Value ≠ ""
  · rw [if_pos hv] at h ⊢
    rw [h]
  · rw [if_neg hv]

theorem foldl_addValue_parsed (ParseFloat : String → Option BigFloat)
    (balances : List LoadedBalance) (start : BigFloat) :
    balances.foldl (addValue ParseFloat) start
      = (parsedValues ParseFloat balances).foldl
          (fun total value => Add total.prec total { value with prec := 53 }) start := by
  induction balances generalizing start with
  | nil => rfl
  | cons balance rest ih =>
    simp only [List.foldl_cons, parsedValues, List.filterMap_cons]
    cases h : (if balance.row.Value ≠ "" then ParseFloat balance.row.Value else none) with
    | none =>
      rw [addValue_unpriced ParseFloat start balance h, ih]
      rfl
    | some value =>
      rw [addValue_priced ParseFloat start balance value h, ih]
      rfl

theorem isPriced_iff (ParseFloat : String → Option BigFloat) (balance : LoadedBalance) :
    isPriced ParseFloat balance = true ↔
      ∃ value,
        (if balance.row.Value ≠ "" then ParseFloat balance.row.Value else none) = some value := by
  unfold isPriced
  by_cases hv : balance.row.Value ≠ ""
  · rw [if_pos hv, decide_eq_true hv, Bool.true_and]
    exact Option.isSome_iff_exists
  · rw [if_neg hv, decide_eq_false hv, Bool.false_and]
    simp

theorem parsedValues_filter (ParseFloat : String → Option BigFloat)
    (balances : List LoadedBalance) :
    parsedValues ParseFloat (balances.filter (isPriced ParseFloat))
      = parsedValues ParseFloat balances := by
  induction balances with
  | nil => rfl
  | cons balance rest ih =>
    by_cases hp : isPriced ParseFloat balance = true
    · rw [List.filter_cons_of_pos hp]
      simp only [parsedValues, List.filterMap_cons] at ih ⊢
      rw [ih]
    · rw [List.filter_cons_of_neg hp, ih]
      have hnone : (if balance.row.Value ≠ "" then ParseFloat balance.row.Value else none)
          = none := by
        cases h : (if balance.row.Value ≠ "" then ParseFloat balance.row.Value else none) with
        | none => rfl
        | some value => exact absurd ((isPriced_iff ParseFloat balance).2 ⟨value, h⟩) hp
      simp only [parsedValues, List.filterMap_cons, hnone]

theorem parsedValues_unpriced (ParseFloat : String → Option BigFloat)
    (balances : List LoadedBalance) (h : ∀ balance ∈ balances, isPriced ParseFloat balance = false) :
    parsedValues ParseFloat balances = [] := by
  rw [← parsedValues_filter]
  have hnil : balances.filter (isPriced ParseFloat) = [] := by
    rw [List.filter_eq_nil_iff]
    intro balance hb
    rw [h balance hb]
    decide
  rw [hnil]
  rfl

theorem foldl_Add_error (values : List BigFloat) (total : BigFloat) (exact c : ℚ)
    (hprec : total.prec = 53) (hexact : 0 ≤ exact) (hc : 0 ≤ c)
    (herr : |total.val - exact| ≤ c * exact) :
    |(values.foldl (fun total value => Add total.prec total { value with prec := 53 }) total).val
        - (exact + (values.map BigFloat.val).sum)|
      ≤ ((1 + c) * (1 + 1 / (2 : ℚ) ^ 53) ^ values.length - 1)
          * (exact + (values.map BigFloat.val).sum) := by
  induction values generalizing total exact c with
  | nil =>
    simp only [List.foldl_nil, List.map_nil, List.sum_nil, add_zero, List.length_nil, pow_zero,
      mul_one, add_sub_cancel_left]
    exact herr
  | cons value rest ih =>
    have hv : (0 : ℚ) ≤ value.val := BigFloat_val_nonneg value
    have hv' : ({ value with prec := 53 } : BigFloat).val = value.val := rfl
    have hadd := Add_error 53 total { value with prec := 53 } (by norm_num)
    rw [hv'] at hadd
    have hp : (0 : ℚ) < (2 : ℚ) ^ 53 := by positivity
    have ht : (0 : ℚ) ≤ total.val := BigFloat_val_nonneg total
    obtain ⟨hlo, hhi⟩ := abs_le.1 herr
    -- the error of the one addition
    have hstep : |(Add 53 total { value with prec := 53 }).val - (total.val + value.val)|
        ≤ (1 / (2 : ℚ) ^ 53) * (total.val + value.val) := by
      rw [one_div, inv_mul_eq_div, le_div_iff₀ hp]
      exact hadd
    have hnew : |(Add 53 total { value with prec := 53 }).val - (exact + value.val)|
        ≤ ((1 + c) * (1 + 1 / (2 : ℚ) ^ 53) - 1) * (exact + value.val) := by
      have htri : |(Add 53 total { value with prec := 53 }).val - (exact + value.val)|
          ≤ |(Add 53 total { value with prec := 53 }).val - (total.val + value.val)|
            + |total.val - exact| := by
        have e : (Add 53 total { value with prec := 53 }).val - (exact + value.val)
            = ((Add 53 total { value with prec := 53 }).val - (total.val + value.val))
              + (total.val - exact) := by ring
        rw [e]
        exact abs_add _ _
      have heps : (0 : ℚ) ≤ 1 / (2 : ℚ) ^ 53 := by positivity
      have h1 : (1 / (2 : ℚ) ^ 53) * (total.val + value.val)
          ≤ (1 / (2 : ℚ) ^ 53) * ((1 + c) * exact + value.val) := by
        apply mul_le_mul_of_nonneg_left _ heps
        linarith
      have h2 : (0 : ℚ) ≤ (1 / (2 : ℚ) ^ 53) * (c * value.val) := by positivity
      have h3 : (0 : ℚ) ≤ c * value.val := by positivity
      have e2 : ((1 + c) * (1 + 1 / (2 : ℚ) ^ 53) - 1) * (exact + value.val)
          = (1 / (2 : ℚ) ^ 53) * ((1 + c) * exact + value.val)
            + (1 / (2 : ℚ) ^ 53) * (c * value.val) + c * value.val + c * exact := by ring
      rw [e2]
      linarith
    have hc' : (0 : ℚ) ≤ (1 + c) * (1 + 1 / (2 : ℚ) ^ 53) - 1 := by
      have heps : (0 : ℚ) ≤ 1 / (2 : ℚ) ^ 53 := by positivity
      have : (0 : ℚ) ≤ c * (1 / (2 : ℚ) ^ 53) := by positivity
      nlinarith
    have hrec := ih (Add 53 total { value with prec := 53 }) (exact + value.val)
      ((1 + c) * (1 + 1 / (2 : ℚ) ^ 53) - 1) (Add_prec 53 _ _ (by norm_num)) (by linarith) hc' hnew
    simp only [List.foldl_cons, List.map_cons, List.sum_cons, List.length_cons, hprec]
    have e3 : exact + (value.val + (rest.map BigFloat.val).sum)
        = exact + value.val + (rest.map BigFloat.val).sum := by ring
    have e4 : (1 + c) * (1 + 1 / (2 : ℚ) ^ 53) ^ (rest.length + 1)
        = (1 + ((1 + c) * (1 + 1 / (2 : ℚ) ^ 53) - 1)) * (1 + 1 / (2 : ℚ) ^ 53) ^ rest.length := by
      ring
    rw [e3, e4]
    exact hrec

theorem totalValue_error (ParseFloat : String → Option BigFloat)
    (balances : List LoadedBalance) :
    |(totalValue ParseFloat balances).val
        - ((parsedValues ParseFloat balances).map BigFloat.val).sum|
      ≤ ((1 + 1 / (2 : ℚ) ^ 53) ^ (parsedValues ParseFloat balances).length - 1)
          * ((parsedValues ParseFloat balances).map BigFloat.val).sum := by
  have h := foldl_Add_error (parsedValues ParseFloat balances)
    { prec := 53, mant := 0, exp := 0 } 0 0 rfl (le_refl 0) (le_refl 0)
    (by simp [BigFloat.val])
  simp only [zero_add, add_zero, one_mul] at h
  rw [totalValue, foldl_addValue_parsed]
  exact h

theorem GetPortfolioSummary_ok (env : PortfolioEnv) (ParseFloat : String → Option BigFloat)
    (store : Store) (userID portfolioID : String) (summary : PortfolioSummary)
    (h : GetPortfolioSummary env ParseFloat store userID portfolioID = Except.ok summary) :
    ∃ balances, GetPortfolioBalances env store userID portfolioID = Except.ok balances ∧
      summary =
        { TotalValue := FloatString (totalValue ParseFloat balances)
          TotalChange24h := "0"
          TotalChange7d := "0"
          TotalChange30d := "0"
          AssetCount := balances.length
          NetworkCount := (networkMap balances).length
          TopAssets := []
          NetworkAllocation := [] } := by
  unfold GetPortfolioSummary at h
  cases hb : GetPortfolioBalances env store userID portfolioID with
  | error e =>
    rw [hb] at h
    cases h
  | ok balances =>
    rw [hb] at h
    simp only [Except.ok.injEq] at h
    exact ⟨balances, rfl, h.symm⟩

set_option maxRecDepth 100000 in
/-- The three priced balances of `valuedStore` have the values
1234567.12345678, 2.5 and 0.5, whose sum is 1234570.12345678; the summary
reports the total `1234570.123`. -/
theorem summary_total_counterexample :
    (GetPortfolioSummary sampleEnv parseFloat64 valuedStore "u1" "p1").map
        (fun summary => summary.TotalValue) = Except.ok "1234570.123" ∧
    valuedStore.balances.map (fun balance => balance.Value)
      = ["", "1234567.12345678", "2.50000000", "0.50000000"] ∧
    valuedStore.balances.map (fun balance => (parseFloat64 balance.Value).isSome)
      = [false, true, true, true] := by
  exact ⟨by rfl, by rfl, by rfl⟩

/-- C21, amended. `TotalValue` is the text `String()` gives, with ten
significant digits, for the total the loop accumulates in a float of 53 bits:
the values of the priced balances, as `ParseFloat` reads them, added one by
one with a rounding after each addition.  A balance whose `Value` is empty or
is not read by `ParseFloat` counts as zero: the total is the one of the priced
balances alone.  The total differs from the sum of the `n` values read by at
most the share `(1 + 2 ^ (-53)) ^ n - 1` of that sum, and for a portfolio with
no priced balance `TotalValue` is `0`. -/
theorem summary_total_value (env : PortfolioEnv) (ParseFloat : String → Option BigFloat)
    (store : Store) (userID portfolioID : String) (summary : PortfolioSummary)
    (hsummary : GetPortfolioSummary env ParseFloat store userID portfolioID
      = Except.ok summary) :
    ∃ balances, GetPortfolioBalances env store userID portfolioID = Except.ok balances ∧
      summary.TotalValue = FloatString (totalValue ParseFloat balances) ∧
      totalValue ParseFloat balances
        = totalValue ParseFloat (balances.filter (isPriced ParseFloat)) ∧
      |(totalValue ParseFloat balances).val
          - ((parsedValues ParseFloat balances).map BigFloat.val).sum|
        ≤ ((1 + 1 / (2 : ℚ) ^ 53) ^ (parsedValues ParseFloat balances).length - 1)
            * ((parsedValues ParseFloat balances).map BigFloat.val).sum ∧
      ((∀ balance ∈ balances, isPriced ParseFloat balance = false) →
        summary.TotalValue = "0") := by
  obtain ⟨balances, hb, hs⟩ :=
    GetPortfolioSummary_ok env ParseFloat store userID portfolioID summary hsummary
  refine ⟨balances, hb, by rw [hs], ?_, totalValue_error ParseFloat balances, ?_⟩
  · simp only [totalValue, foldl_addValue_parsed, parsedValues_filter]
  · intro hnone
    rw [hs]
    simp only [totalValue, foldl_addValue_parsed, parsedValues_unpriced ParseFloat balances hnone]
    rfl

set_option maxRecDepth 100000 in
/-- Witness of the amended C21: the summary of the portfolio of `valuedStore`. -/
theorem summary_total_value_witness :
    ∃ balances, GetPortfolioBalances sampleEnv valuedStore "u1" "p1" = Except.ok balances ∧
      FloatString (totalValue parseFloat64 balances) = "1234570.123" := by
  obtain ⟨balances, hb, ht, -, -, -⟩ :=
    summary_total_value sampleEnv parseFloat64 valuedStore "u1" "p1"
      { TotalValue := "1234570.123", TotalChange24h := "0", TotalChange7d := "0",
        TotalChange30d := "0", AssetCount := 4, NetworkCount := 2, TopAssets := [],
        NetworkAllocation := [] }
      (by rfl)
  exact ⟨balances, hb, ht.symm⟩

/-! ## The top assets -/

/-- The portfolio of `valuedStore` has three priced balances, and the list
`TopAssets` of its summary is empty. -/
theorem summary_top_assets_counterexample :
    (GetPortfolioSummary sampleEnv parseFloat64 valuedStore "u1" "p1").map
        (fun summary => summary.TopAssets) = Except.ok [] ∧
    (valuedStore.balances.filter (fun balance => balance.Value ≠ "")).length = 3 := by
  exact ⟨by rfl, by rfl⟩

theorem mapSet_keys {α : Type} (m : List (String × α)) (key : String) (value : α) :
    (mapSet m key value).map Prod.fst
      = if key ∈ m.map Prod.fst then m.map Prod.fst else m.map Prod.fst ++ [key] := by
  induction m with
  | nil => simp [mapSet]
  | cons head rest ih =>
    obtain ⟨k, v⟩ := head
    unfold mapSet
    by_cases hk : k = key
    · simp [hk]
    · have hne : ¬ key = k := fun h => hk h.symm
      simp only [hk, if_false, List.map_cons, ih, List.mem_cons, hne, false_or]
      split <;> simp

theorem networkMap_snoc (balances : List LoadedBalance) (balance : LoadedBalance) :
    networkMap (balances ++ [balance])
      = mapSet (networkMap balances) balance.Address.Network true := by
  simp [networkMap, List.foldl_append]

theorem networkMap_keys (balances : List LoadedBalance) :
    ((networkMap balances).map Prod.fst).Nodup ∧
    ∀ network : String, network ∈ (networkMap balances).map Prod.fst ↔
      ∃ balance ∈ balances, balance.Address.Network = network := by
  induction balances using List.reverseRecOn with
  | nil => simp [networkMap]
  | append_singleton balances balance ih =>
    obtain ⟨hnodup, hmem⟩ := ih
    rw [networkMap_snoc, mapSet_keys]
    by_cases hin : balance.Address.Network ∈ (networkMap balances).map Prod.fst
    · rw [if_pos hin]
      refine ⟨hnodup, fun network => ?_⟩
      rw [hmem]
      constructor
      · rintro ⟨b, hb, hbn⟩
        exact ⟨b, List.mem_append_left _ hb, hbn⟩
      · rintro ⟨b, hb, hbn⟩
        rcases List.mem_append.1 hb with h | h
        · exact ⟨b, h, hbn⟩
        · rw [List.mem_singleton.1 h] at hbn
          rw [← hbn]
          exact (hmem _).1 hin
    · rw [if_neg hin]
      refine ⟨?_, fun network => ?_⟩
      · rw [List.nodup_append]
        refine ⟨hnodup, List.nodup_singleton _, ?_⟩
        intro x hx hx'
        rw [List.mem_singleton.1 hx'] at hx
        exact hin hx
      · rw [List.mem_append, hmem, List.mem_singleton]
        constructor
        · rintro (⟨b, hb, hbn⟩ | h)
          · exact ⟨b, List.mem_append_left _ hb, hbn⟩
          · exact ⟨balance, by simp, h.symm⟩
        · rintro ⟨b, hb, hbn⟩
          rcases List.mem_append.1 hb with h | h
          · exact Or.inl ⟨b, h, hbn⟩
          · rw [List.mem_singleton.1 h] at hbn
            exact Or.inr hbn.symm

theorem networkMap_length (balances : List LoadedBalance) :
    (networkMap balances).length
      = (balances.map (fun balance => balance.Address.Network)).toFinset.card := by
  obtain ⟨hnodup, hmem⟩ := networkMap_keys balances
  have hset : ((networkMap balances).map Prod.fst).toFinset
      = (balances.map (fun balance => balance.Address.Network)).toFinset := by
    ext network
    simp only [List.mem_toFinset, hmem, List.mem_map]
  rw [← hset, List.toFinset_card_of_nodup hnodup, List.length_map]

/-- C22, amended. `GetPortfolioSummary` computes no top assets: the list
`TopAssets` of a summary is empty, for a portfolio with priced balances as for
one without.  The summary counts the balances of the portfolio in `AssetCount`
and the distinct networks of their addresses in `NetworkCount`. -/
theorem summary_top_assets_empty (env : PortfolioEnv) (ParseFloat : String → Option BigFloat)
    (store : Store) (userID portfolioID : String) (summary : PortfolioSummary)
    (hsummary : GetPortfolioSummary env ParseFloat store userID portfolioID
      = Except.ok summary) :
    summary.TopAssets = [] ∧
    ∃ balances, GetPortfolioBalances env store userID portfolioID = Except.ok balances ∧
      summary.AssetCount = balances.length ∧
      summary.NetworkCount
        = (balances.map (fun balance => balance.Address.Network)).toFinset.card := by
  obtain ⟨balances, hb, hs⟩ :=
    GetPortfolioSummary_ok env ParseFloat store userID portfolioID summary hsummary
  exact ⟨by rw [hs], balances, hb, by rw [hs], by rw [hs]; exact networkMap_length balances⟩

set_option maxRecDepth 100000 in
/-- Witness of the amended C22: the summary of the portfolio of `valuedStore`,
which has four balances on two networks. -/
theorem summary_top_assets_empty_witness :
    GetPortfolioSummary sampleEnv parseFloat64 valuedStore "u1" "p1"
      = Except.ok
          { TotalValue := "1234570.123", TotalChange24h := "0", TotalChange7d := "0",
            TotalChange30d := "0", AssetCount := 4, NetworkCount := 2, TopAssets := [],
            NetworkAllocation := [] } ∧
    ∃ balances, GetPortfolioBalances sampleEnv valuedStore "u1" "p1" = Except.ok balances ∧
      4 = balances.length ∧
      2 = (balances.map (fun balance => balance.Address.Network)).toFinset.card :=
  ⟨by rfl,
    (summary_top_assets_empty sampleEnv parseFloat64 valuedStore "u1" "p1"
      { TotalValue := "1234570.123", TotalChange24h := "0", TotalChange7d := "0",
        TotalChange30d := "0", AssetCount := 4, NetworkCount := 2, TopAssets := [],
        NetworkAllocation := [] }
      (by rfl)).2⟩

end PortfolioService
